import Mathlib

/-!
Verification development for the `hyper` template transpiler
(`src/rust/transpiler`).  The Rust sources are shallowly embedded:

* strings are `List Char`; byte offsets are UTF-8 byte counts and
  generated-code offsets are UTF-16 code-unit counts, as in the sources;
* pure Rust functions become Lean functions with the same names
  (snake_case is kept where Lean allows it);
* the tree-sitter Python classifier used by `Tokenizer::is_python_statement`
  is an external black box and is passed around as an oracle
  `pyOracle : List Char → Bool`;
* fallible code returns `Except`/`Option`.
-/

set_option maxHeartbeats 1000000
set_option maxRecDepth 10000

/-- A Rust-style string: a list of Unicode scalar values. -/
abbrev Str := List Char

/-- UTF-8 size in bytes of one scalar value (mirrors `char::len_utf8`). -/
def charUtf8Len (c : Char) : Nat :=
  if c.toNat < 0x80 then 1
  else if c.toNat < 0x800 then 2
  else if c.toNat < 0x10000 then 3
  else 4

/-- UTF-8 length in bytes of a string (mirrors `str::len`). -/
def utf8Len (s : Str) : Nat := (s.map charUtf8Len).sum

/-- UTF-16 code units of one scalar value (mirrors `char::encode_utf16`). -/
def charUtf16 (c : Char) : List Nat :=
  let n := c.toNat
  if n < 0x10000 then [n]
  else [0xD800 + (n - 0x10000) / 0x400, 0xDC00 + (n - 0x10000) % 0x400]

/-- UTF-16 encoding of a string (mirrors `str::encode_utf16`). -/
def utf16Units (s : Str) : List Nat := (s.map charUtf16).flatten

/-- UTF-16 length of a string (mirrors `str::encode_utf16().count()`). -/
def utf16Len (s : Str) : Nat := (utf16Units s).length

/-- `str::starts_with` for string patterns. -/
def rustStartsWith (s pat : Str) : Bool := pat.isPrefixOf s

/-- `str::ends_with` for string patterns. -/
def rustEndsWith (s pat : Str) : Bool := pat.isSuffixOf s

/-- Whitespace as used by `str::trim` / `char::is_whitespace` (ASCII part). -/
def rustIsWhitespace (c : Char) : Bool :=
  c == ' ' || c == '\t' || c == '\n' || c == '\r'

/-- `str::trim_start`. -/
def rustTrimStart (s : Str) : Str := s.dropWhile rustIsWhitespace

/-- `str::trim_end`. -/
def rustTrimEnd (s : Str) : Str := (s.reverse.dropWhile rustIsWhitespace).reverse

/-- `str::trim`. -/
def rustTrim (s : Str) : Str := rustTrimEnd (rustTrimStart s)

/-- `str::trim_end_matches` for a single-char pattern. -/
def rustTrimEndMatches (s : Str) (c : Char) : Str :=
  (s.reverse.dropWhile (· == c)).reverse

/-- `s.contains(c)` for a char pattern. -/
def rustContainsChar (s : Str) (c : Char) : Bool := s.contains c

/-- `s.contains(pat)` for a string pattern (substring search). -/
def rustContainsStr (s pat : Str) : Bool :=
  match s with
  | [] => pat = []
  | _ :: rest => rustStartsWith s pat || rustContainsStr rest pat

/-- `s.find(pat)`: index of the first occurrence of `pat` in `s`.
The Rust function returns a byte offset; all patterns searched for in the
sources are ASCII and every use slices at the returned boundary, so the
embedding returns the character index of the match (the slicing positions
coincide). -/
def rustFind (s pat : Str) : Option Nat :=
  match s with
  | [] => if pat = [] then some 0 else none
  | _ :: rest =>
    if rustStartsWith s pat then some 0
    else (rustFind rest pat).map (· + 1)

/-- `s.splitn(2, pat)`: split at the first occurrence of `pat`. -/
def rustSplitn2 (s pat : Str) : List Str :=
  match rustFind s pat with
  | none => [s]
  | some i => [s.take i, s.drop (i + pat.length)]

/-- `str::replace`: replace every non-overlapping occurrence of `pat`
(left to right) with `rep` (fuelled with the string length so the
definition computes by reduction; one character is consumed per step). -/
def rustReplaceGo (pat rep : Str) : Nat → Str → Str
  | 0, s => s
  | _, [] => []
  | fuel + 1, c :: rest =>
    if rustStartsWith (c :: rest) pat then
      rep ++ rustReplaceGo pat rep fuel (rest.drop (pat.length - 1))
    else
      c :: rustReplaceGo pat rep fuel rest

def rustReplace (s pat rep : Str) : Str :=
  if pat = [] then s else rustReplaceGo pat rep (s.length + 1) s

/-- `s.matches(pat).count()`: number of non-overlapping occurrences
(fuelled like `rustReplaceGo`). -/
def rustMatchCountGo (pat : Str) : Nat → Str → Nat
  | 0, _ => 0
  | _, [] => 0
  | fuel + 1, c :: rest =>
    if rustStartsWith (c :: rest) pat then
      1 + rustMatchCountGo pat fuel (rest.drop (pat.length - 1))
    else
      rustMatchCountGo pat fuel rest

def rustMatchCount (s pat : Str) : Nat :=
  if pat = [] then 0 else rustMatchCountGo pat (s.length + 1) s

/-- `char::is_ascii_alphabetic`. -/
def isAsciiAlphabetic (c : Char) : Bool :=
  ('a' ≤ c && c ≤ 'z') || ('A' ≤ c && c ≤ 'Z')

/-- `char::is_ascii_alphanumeric`. -/
def isAsciiAlphanumeric (c : Char) : Bool :=
  isAsciiAlphabetic c || ('0' ≤ c && c ≤ '9')

/-- `char::is_alphabetic` (Unicode letter); the sources only ever apply it
in classification heuristics, and the development only depends on its
values on ASCII, where it agrees with this embedding. -/
def rustIsAlphabetic (c : Char) : Bool := isAsciiAlphabetic c

/-- `char::is_alphanumeric`, with the same ASCII reading. -/
def rustIsAlphanumeric (c : Char) : Bool := isAsciiAlphanumeric c

/-- `char::is_uppercase` (ASCII reading, used by `component_to_func_name`). -/
def rustIsUppercase (c : Char) : Bool := 'A' ≤ c && c ≤ 'Z'

/-- `char::to_ascii_lowercase`. -/
def toAsciiLower (c : Char) : Char :=
  if 'A' ≤ c && c ≤ 'Z' then Char.ofNat (c.toNat + 32) else c

/-- `str::to_ascii_lowercase`. -/
def strToAsciiLower (s : Str) : Str := s.map toAsciiLower

/-! ## `generate/output.rs`: `Range`, `Injection`, `compute_injections` -/

/-- `RangeType` from `generate/output.rs`. -/
inductive RangeType where
  | python
  | html
deriving DecidableEq, Repr, BEq

/-- `Range` from `generate/output.rs`: one correspondence between a source
byte span and a generated-code (UTF-16) span. -/
structure Range where
  range_type : RangeType
  source_start : Nat
  source_end : Nat
  compiled_start : Nat
  compiled_end : Nat
  needs_injection : Bool
deriving DecidableEq, Repr

/-- `Injection` from `generate/output.rs`.  `prefixStr`/`suffix` hold the
UTF-16 code units produced by `substring_utf16` (the lossy decode back to
a Rust `String` is elided; emptiness is preserved). -/
structure Injection where
  injection_type : Str
  start : Nat
  stop : Nat
  prefixStr : List Nat
  suffix : List Nat
deriving DecidableEq, Repr

/-- `substring_utf16` from `generate/output.rs`. -/
def substringUtf16 (s : Str) (start stop : Nat) : List Nat :=
  if start ≥ stop then []
  else
    let units := utf16Units s
    let stop' := min stop units.length
    let start' := min start stop'
    (units.drop start').take (stop' - start')

/-- `substring_utf16_to_end` from `generate/output.rs`. -/
def substringUtf16ToEnd (s : Str) (start : Nat) : List Nat :=
  let units := utf16Units s
  if start ≥ units.length then [] else units.drop start

/-- The per-type loop body of `compute_injections`: `prev_end` threads the
previous range's `compiled_end`; only the last range of the type takes its
suffix from the tail of the generated code. -/
def computeInjectionsGo (typeStr : Str) (code : Str) :
    Nat → List Range → List Injection
  | _, [] => []
  | prevEnd, [r] =>
    [{ injection_type := typeStr
       start := r.source_start
       stop := r.source_end
       prefixStr := substringUtf16 code prevEnd r.compiled_start
       suffix := substringUtf16ToEnd code r.compiled_end }]
  | prevEnd, r :: rest =>
    { injection_type := typeStr
      start := r.source_start
      stop := r.source_end
      prefixStr := substringUtf16 code prevEnd r.compiled_start
      suffix := [] } :: computeInjectionsGo typeStr code r.compiled_end rest

/-- Key order used by `type_ranges.sort_by_key(|r| r.source_start)`. -/
def rangeLe (a b : Range) : Prop := a.source_start ≤ b.source_start

instance : DecidableRel rangeLe := fun a b => Nat.decLe _ _

instance : IsTotal Range rangeLe := ⟨fun a b => Nat.le_total _ _⟩

instance : IsTrans Range rangeLe := ⟨fun _ _ _ h h' => Nat.le_trans h h'⟩

/-- The string tag of a range type in `compute_injections`. -/
def rangeTypeStr : RangeType → Str
  | .python => "python".toList
  | .html => "html".toList

/-- `compute_injections` from `generate/output.rs`. -/
def compute_injections (code : Str) (ranges : List Range) : List Injection :=
  ([RangeType.python, RangeType.html]).flatMap fun t =>
    let type_ranges :=
      List.insertionSort rangeLe
        (ranges.filter fun r => r.range_type == t && r.needs_injection)
    if type_ranges.isEmpty then []
    else computeInjectionsGo (rangeTypeStr t) code 0 type_ranges

/-! ## `parser/tokenizer.rs`: data model -/

/-- `Position` from `parser/tokenizer.rs`: byte offset plus 0-indexed
line/column (column counted in characters). -/
structure Pos where
  byte : Nat
  line : Nat
  col : Nat
deriving DecidableEq, Repr

/-- `Position::new()`. -/
def Pos.new : Pos := { byte := 0, line := 0, col := 0 }

/-- `Span` from `parser/tokenizer.rs` (`end` is a Lean keyword, renamed
`stop`). -/
structure Span where
  start : Pos
  stop : Pos
deriving DecidableEq, Repr

/-- `AttributeValue` from `parser/tokenizer.rs`. -/
inductive AttributeValue where
  | string (value : Str)
  | expression (code : Str) (span : Span)
  | bool
  | shorthand (name : Str) (span : Span)
  | spread (code : Str) (span : Span)
  | slotAssignment (name : Str) (span : Span)
deriving DecidableEq, Repr

/-- `Attribute` from `parser/tokenizer.rs`. -/
structure TokAttribute where
  name : Str
  value : AttributeValue
  span : Span
deriving DecidableEq, Repr

/-- `Token` from `parser/tokenizer.rs`.

The `restSpan` fields of `controlStart` and `controlContinuation` are
destructured by `parser/tree_builder.rs` but the tokenizer in this source
snapshot does not declare them.  Modelled from the spec: ranges correlate
a control-flow condition/iterable/pattern's "exact source byte span", so
`restSpan` is the span of the `rest` text inside the line (for
continuations it is `none` when there is no rest). -/
inductive Token where
  | indent (level : Nat) (span : Span)
  | newline (span : Span)
  | eof (position : Pos)
  | controlStart (keyword : Str) (rest : Str) (span : Span) (restSpan : Span)
  | controlContinuation (keyword : Str) (rest : Option Str) (span : Span)
      (restSpan : Option Span)
  | endTok (span : Span)
  | pythonStatement (code : Str) (span : Span)
  | comment (text : Str) (span : Span)
  | decorator (code : Str) (span : Span)
  | text (text : Str) (span : Span)
  | expression (code : Str) (span : Span)
  | escapedBrace (brace : Char) (span : Span)
  | componentOpen (name : Str) (nameSpan : Span) (attributes : List TokAttribute)
      (selfClosing : Bool) (span : Span)
  | componentClose (name : Str) (span : Span)
  | htmlElementOpen (tag : Str) (tagSpan : Span) (attributes : List TokAttribute)
      (closeBracketPos : Pos) (selfClosing : Bool) (span : Span)
  | htmlElementClose (tag : Str) (span : Span)
  | slotOpen (name : Option Str) (span : Span)
  | slotClose (name : Option Str) (span : Span)
  | fragmentStart (name : Str) (span : Span)
  | separator (span : Span)
deriving DecidableEq, Repr

/-- `Token::span`. -/
def Token.span : Token → Span
  | .indent _ s => s
  | .newline s => s
  | .eof p => { start := p, stop := p }
  | .controlStart _ _ s _ => s
  | .controlContinuation _ _ s _ => s
  | .endTok s => s
  | .pythonStatement _ s => s
  | .comment _ s => s
  | .decorator _ s => s
  | .text _ s => s
  | .expression _ s => s
  | .escapedBrace _ s => s
  | .componentOpen _ _ _ _ s => s
  | .componentClose _ s => s
  | .htmlElementOpen _ _ _ _ _ s => s
  | .htmlElementClose _ s => s
  | .slotOpen _ s => s
  | .slotClose _ s => s
  | .fragmentStart _ s => s
  | .separator s => s

/-! ## `parser/tokenizer.rs`: tokenizer state and low-level helpers

The Rust tokenizer holds the full source plus an absolute `position`; the
embedding keeps the unconsumed tail `rest` (the source suffix starting at
`position.byte`) together with `position` itself.  The byte-level peeks
(`is_html_element_start` and friends) inspect either an ASCII byte — which
is the next character's first byte — or a UTF-8 lead/continuation byte
that never satisfies the ASCII tests, so they are embedded at character
level with identical outcomes. -/

structure Tokenizer where
  rest : Str
  position : Pos
  inMultilineString : Option Str
deriving DecidableEq, Repr

/-- `QuoteCtx` from `parser/tokenizer.rs`. -/
inductive QuoteCtx where
  | none
  | double
  | single
deriving DecidableEq, Repr

/-- `Tokenizer::new` (the tree-sitter parser handle is the external
classifier oracle and is threaded separately). -/
def Tokenizer.mk' (source : Str) : Tokenizer :=
  { rest := source, position := Pos.new, inMultilineString := none }

def Tokenizer.at_eof (st : Tokenizer) : Bool := st.rest.isEmpty

def Tokenizer.at_newline (st : Tokenizer) : Bool :=
  match st.rest with
  | c :: _ => c == '\n' || c == '\r'
  | [] => false

def Tokenizer.peek_char (st : Tokenizer) : Option Char := st.rest.head?

def Tokenizer.peek_next_char (st : Tokenizer) : Option Char := st.rest.tail.head?

def Tokenizer.peek_line (st : Tokenizer) : Str :=
  st.rest.takeWhile fun c => c != '\n' && c != '\r'

/-- Advance one character, keeping byte/line/col in sync
(`Tokenizer::advance`). -/
def advanceChar (p : Pos) (c : Char) : Pos :=
  { byte := p.byte + charUtf8Len c
    line := if c = '\n' then p.line + 1 else p.line
    col := if c = '\n' then 0 else p.col + 1 }

def Tokenizer.advance (st : Tokenizer) : Tokenizer :=
  match st.rest with
  | [] => st
  | c :: rest => { st with rest := rest, position := advanceChar st.position c }

/-- `Tokenizer::consume_indent` (space = 1, tab = 4). -/
def consumeIndentGo : Str → Pos → Nat × Str × Pos
  | ' ' :: rest, p =>
    let (l, r, p') := consumeIndentGo rest (advanceChar p ' ')
    (l + 1, r, p')
  | '\t' :: rest, p =>
    let (l, r, p') := consumeIndentGo rest (advanceChar p '\t')
    (l + 4, r, p')
  | rest, p => (0, rest, p)

def Tokenizer.consume_indent (st : Tokenizer) : Nat × Tokenizer :=
  let (l, r, p) := consumeIndentGo st.rest st.position
  (l, { st with rest := r, position := p })

/-- `Tokenizer::consume_newline` (optional `\r`, then optional `\n`). -/
def Tokenizer.consume_newline (st : Tokenizer) : Tokenizer :=
  let st := if st.peek_char = some '\r' then st.advance else st
  if st.peek_char = some '\n' then st.advance else st

/-- `Tokenizer::consume_to_eol`: consume and return everything up to the
newline (or EOF). -/
def consumeToEolGo : Str → Pos → Str × Str × Pos
  | [], p => ([], [], p)
  | c :: rest, p =>
    if c = '\n' || c = '\r' then ([], c :: rest, p)
    else
      let (s, r, p') := consumeToEolGo rest (advanceChar p c)
      (c :: s, r, p')

def Tokenizer.consume_to_eol (st : Tokenizer) : Str × Tokenizer :=
  let (s, r, p) := consumeToEolGo st.rest st.position
  (s, { st with rest := r, position := p })

/-- `Tokenizer::skip_to_eol`. -/
def Tokenizer.skip_to_eol (st : Tokenizer) : Tokenizer :=
  (st.consume_to_eol).2

/-- `Tokenizer::skip_whitespace_inline`. -/
def skipWsInlineGo : Str → Pos → Str × Pos
  | [], p => ([], p)
  | c :: rest, p =>
    if c = '\n' || c = '\r' then (c :: rest, p)
    else if c = ' ' || c = '\t' then skipWsInlineGo rest (advanceChar p c)
    else (c :: rest, p)

def Tokenizer.skip_whitespace_inline (st : Tokenizer) : Tokenizer :=
  let (r, p) := skipWsInlineGo st.rest st.position
  { st with rest := r, position := p }

/-- `Tokenizer::consume_until_char`, including its brace-depth tracking
(which can also stop at an inner closing brace once the depth returns to
zero, exactly as the source does). -/
def consumeUntilCharGo (stop : Char) : Str → Pos → Int → Str × Str × Pos
  | [], p, _ => ([], [], p)
  | c :: rest, p, depth =>
    let depth1 : Int := if c = '\x7b' then depth + 1 else depth
    if c = '\x7d' ∧ depth1 = 0 ∧ stop = '\x7d' then ([], c :: rest, p)
    else
      let depth2 : Int := if c = '\x7d' then depth1 - 1 else depth1
      if c = stop ∧ depth2 = 0 then ([], c :: rest, p)
      else
        let (s, r, p') := consumeUntilCharGo stop rest (advanceChar p c) depth2
        (c :: s, r, p')

def Tokenizer.consume_until_char (st : Tokenizer) (stop : Char) :
    Str × Tokenizer :=
  let (s, r, p) := consumeUntilCharGo stop st.rest st.position 0
  (s, { st with rest := r, position := p })

/-- `Tokenizer::consume_while` (also stops at a newline). -/
def consumeWhileGo (pred : Char → Bool) : Str → Pos → Str × Str × Pos
  | [], p => ([], [], p)
  | c :: rest, p =>
    if c = '\n' || c = '\r' then ([], c :: rest, p)
    else if pred c then
      let (s, r, p') := consumeWhileGo pred rest (advanceChar p c)
      (c :: s, r, p')
    else ([], c :: rest, p)

def Tokenizer.consume_while (st : Tokenizer) (pred : Char → Bool) :
    Str × Tokenizer :=
  let (s, r, p) := consumeWhileGo pred st.rest st.position
  (s, { st with rest := r, position := p })

/-! ## `parser/tokenizer.rs`: line-classification helpers -/

/-- `Tokenizer::is_end_keyword`. -/
def is_end_keyword (line : Str) : Bool := rustTrim line = "end".toList

/-- The byte loop of `Tokenizer::strip_trailing_comment` (the `\\` arm
only `continue`s, so it is a no-op). -/
def stripTrailingCommentGo (line : Str) :
    Str → Nat → Option Char → Bool → Bool → Str
  | [], _, _, _, _ => line
  | c :: rest, i, prev, inS, inD =>
    if c = '"' ∧ ¬inS then
      stripTrailingCommentGo line rest (i + 1) (some c) inS (¬inD)
    else if c = '\'' ∧ ¬inD then
      stripTrailingCommentGo line rest (i + 1) (some c) (¬inS) inD
    else if c = '#' ∧ ¬inS ∧ ¬inD ∧ 0 < i ∧ prev = some ' ' then
      rustTrimEnd (line.take i)
    else
      stripTrailingCommentGo line rest (i + 1) (some c) inS inD

/-- `Tokenizer::strip_trailing_comment`. -/
def strip_trailing_comment (line : Str) : Str :=
  stripTrailingCommentGo line line 0 none false false

/-- `Tokenizer::is_control_flow`. -/
def is_control_flow (line : Str) : Bool :=
  let trimmed := rustTrim line
  let effective := strip_trailing_comment trimmed
  if rustStartsWith trimmed "for ".toList
      || rustStartsWith trimmed "async for ".toList then
    rustEndsWith effective [':']
  else if rustStartsWith trimmed "if ".toList
      || rustStartsWith trimmed "while ".toList
      || rustStartsWith trimmed "match ".toList
      || rustStartsWith trimmed "with ".toList
      || rustStartsWith trimmed "async with ".toList then
    rustEndsWith effective [':']
  else if trimmed = "try:".toList ∨ trimmed = "try :".toList then true
  else if rustStartsWith trimmed "def ".toList
      || rustStartsWith trimmed "async def ".toList then
    rustContainsChar effective '('
  else if rustStartsWith trimmed "class ".toList then
    match (trimmed.drop 6).head? with
    | some fc => (rustIsAlphabetic fc || fc = '_') && rustEndsWith effective [':']
    | none => false
  else false

/-- `Tokenizer::is_parameter_declaration` (the tokenizer's version). -/
def tokIsParameterDeclaration (line : Str) : Bool :=
  let trimmed := rustTrim line
  if ¬ rustContainsChar trimmed ':' then false
  else if rustStartsWith trimmed "**".toList || rustStartsWith trimmed "*".toList then
    true
  else
    match trimmed.head? with
    | some fc =>
      if rustIsAlphabetic fc || fc = '_' then
        match rustFind trimmed [':'], rustFind trimmed ['='] with
        | some colonPos, some equalsPos => colonPos < equalsPos
        | some _, none => true
        | none, _ => false
      else false
    | none => false

/-- `Tokenizer::is_control_continuation`. -/
def is_control_continuation (line : Str) : Bool :=
  let trimmed := rustTrim line
  rustStartsWith trimmed "else:".toList || rustStartsWith trimmed "else :".toList ||
  rustStartsWith trimmed "elif ".toList ||
  rustStartsWith trimmed "except".toList ||
  rustStartsWith trimmed "finally:".toList ||
  rustStartsWith trimmed "finally :".toList ||
  rustStartsWith trimmed "case ".toList

/-- `Tokenizer::is_css_at_rule`. -/
def is_css_at_rule (line : Str) : Bool :=
  let trimmed := rustTrim line
  rustStartsWith trimmed "@media".toList ||
  rustStartsWith trimmed "@keyframes".toList ||
  rustStartsWith trimmed "@import".toList ||
  rustStartsWith trimmed "@charset".toList ||
  rustStartsWith trimmed "@font-face".toList ||
  rustStartsWith trimmed "@supports".toList ||
  rustStartsWith trimmed "@namespace".toList ||
  rustStartsWith trimmed "@page".toList ||
  rustStartsWith trimmed "@counter-style".toList ||
  rustStartsWith trimmed "@layer".toList ||
  rustStartsWith trimmed "@property".toList ||
  rustStartsWith trimmed "@container".toList ||
  rustStartsWith trimmed "@scope".toList

/-- The punctuation class of `Tokenizer::is_obviously_content`
(the backtick is written via its code point). -/
def obviousPunct (c : Char) : Bool :=
  c = '<' ∨ c = '>' ∨ c = '&' ∨ c = '!' ∨ c = '?' ∨ c = '/' ∨ c = '*' ∨
  c = '+' ∨ c = '-' ∨ c = '.' ∨ c = ',' ∨ c = ';' ∨ c = ':' ∨
  c = '[' ∨ c = ']' ∨ c = '(' ∨ c = ')' ∨ c = '"' ∨ c = '\'' ∨
  c = Char.ofNat 96 ∨ c = '~' ∨ c = '^' ∨ c = '%' ∨ c = '$' ∨ c = '|'

/-- `Tokenizer::calculate_bracket_depth`: net bracket depth outside
strings and comments.  The `#`-comment skip is carried as an extra
`inComment` automaton state (the Rust code consumes those characters in
an inner loop). -/
def calcDepthGo : Str → Int → Bool → Char → Bool → Bool → Int
  | [], depth, _, _, _, _ => depth
  | c :: rest, depth, inString, stringChar, inTriple, inComment =>
    if inComment then
      if c = '\n' then calcDepthGo rest depth inString stringChar inTriple false
      else calcDepthGo rest depth inString stringChar inTriple true
    else if inString then
      if c = '\\' ∧ ¬inTriple then
        match rest with
        | [] => depth
        | _ :: r2 => calcDepthGo r2 depth inString stringChar inTriple false
      else if inTriple then
        if c = stringChar then
          match rest with
          | c2 :: rest2 =>
            if c2 = stringChar then
              match rest2 with
              | c3 :: rest3 =>
                if c3 = stringChar then calcDepthGo rest3 depth false stringChar false false
                else calcDepthGo (c3 :: rest3) depth true stringChar true false
              | [] => depth
            else calcDepthGo (c2 :: rest2) depth true stringChar true false
          | [] => depth
        else calcDepthGo rest depth true stringChar true false
      else if c = stringChar then calcDepthGo rest depth false stringChar false false
      else calcDepthGo rest depth true stringChar false false
    else if c = '"' ∨ c = '\'' then
      match rest with
      | c2 :: rest2 =>
        if c2 = c then
          match rest2 with
          | c3 :: rest3 =>
            if c3 = c then calcDepthGo rest3 depth true c true false
            else calcDepthGo (c3 :: rest3) depth inString stringChar inTriple false
          | [] => depth
        else calcDepthGo (c2 :: rest2) depth true c false false
      | [] => depth
    else if c = '#' then calcDepthGo rest depth inString stringChar inTriple true
    else if c = '(' ∨ c = '[' ∨ c = '\x7b' then
      calcDepthGo rest (depth + 1) inString stringChar inTriple false
    else if c = ')' ∨ c = ']' ∨ c = '\x7d' then
      calcDepthGo rest (max (depth - 1) 0) inString stringChar inTriple false
    else calcDepthGo rest depth inString stringChar inTriple false

/-- `Tokenizer::calculate_bracket_depth`. -/
def calculate_bracket_depth (code : Str) : Int :=
  calcDepthGo code 0 false ' ' false false

/-- `Tokenizer::looks_like_multiline_start`. -/
def looks_like_multiline_start (trimmed : Str) : Bool :=
  let depth := calculate_bracket_depth trimmed
  if depth ≤ 0 then false
  else
    let has_assignment := rustContainsStr trimmed " = ".toList ||
      rustContainsStr trimmed ": ".toList
    let has_call := rustContainsChar trimmed '(' && ¬ rustContainsChar trimmed ')'
    let starts_with_identifier :=
      match trimmed.head? with
      | some c => rustIsAlphabetic c || c = '_'
      | none => false
    starts_with_identifier && (has_assignment || has_call)

/-- `Tokenizer::is_obviously_content`: the fast path that skips the
external classifier. -/
def is_obviously_content (trimmed : Str) : Bool :=
  match trimmed.head? with
  | none => true
  | some first_char =>
    if rustStartsWith trimmed "\"\"\"".toList ||
        rustStartsWith trimmed "'''".toList then false
    else if obviousPunct first_char then true
    else if '0' ≤ first_char ∧ first_char ≤ '9' then true
    else if 'A' ≤ first_char ∧ first_char ≤ 'Z' then true
    else
      let needs_parsing :=
        rustContainsStr trimmed " = ".toList || rustContainsStr trimmed " += ".toList ||
        rustContainsStr trimmed " -= ".toList || rustContainsStr trimmed " *= ".toList ||
        rustContainsStr trimmed " /= ".toList || rustContainsStr trimmed " //= ".toList ||
        rustContainsStr trimmed " %= ".toList || rustContainsStr trimmed " **= ".toList ||
        rustContainsStr trimmed " &= ".toList || rustContainsStr trimmed " |= ".toList ||
        rustContainsStr trimmed " ^= ".toList || rustContainsStr trimmed " >>= ".toList ||
        rustContainsStr trimmed " <<= ".toList || rustContainsStr trimmed " := ".toList ||
        (rustContainsStr trimmed ": ".toList &&
          (let parts := rustSplitn2 trimmed ": ".toList
           parts.length = 2 &&
             (let name := rustTrim (parts.headD [])
              ¬ name.isEmpty &&
              (match name.head? with
               | some c => rustIsAlphabetic c || c = '_'
               | none => false) &&
              name.all fun c => rustIsAlphanumeric c || c = '_'))) ||
        rustStartsWith trimmed "import ".toList || rustStartsWith trimmed "from ".toList ||
        rustStartsWith trimmed "return ".toList ||
        rustStartsWith trimmed "return\n".toList || trimmed = "return".toList ||
        rustStartsWith trimmed "raise ".toList ||
        rustStartsWith trimmed "raise\n".toList || trimmed = "raise".toList ||
        rustStartsWith trimmed "assert ".toList ||
        trimmed = "pass".toList || trimmed = "break".toList ||
        trimmed = "continue".toList ||
        rustStartsWith trimmed "del ".toList ||
        rustStartsWith trimmed "global ".toList ||
        rustStartsWith trimmed "nonlocal ".toList ||
        rustStartsWith trimmed "yield ".toList ||
        rustStartsWith trimmed "yield\n".toList || trimmed = "yield".toList ||
        rustStartsWith trimmed "await ".toList ||
        (('a' ≤ first_char ∧ first_char ≤ 'z') && rustContainsChar trimmed '(' &&
          rustContainsChar trimmed ')')
      ¬ needs_parsing

/-- `Tokenizer::is_python_statement`.  The trailing tree-sitter block
(parsing `trimmed` and checking the whitelist of top-level statement
kinds) is the external classifier of spec §6 and is passed in as the
oracle `o`. -/
def is_python_statement (o : Str → Bool) (line : Str) : Bool :=
  let trimmed := rustTrim line
  if trimmed.isEmpty then false
  else if is_obviously_content trimmed then false
  else if rustStartsWith trimmed "class =".toList ||
      rustStartsWith trimmed "class=".toList then true
  else if looks_like_multiline_start trimmed then true
  else o trimmed

/-- `Tokenizer::is_html_assignment`. -/
def is_html_assignment (line : Str) : Bool :=
  let trimmed := rustTrim line
  match rustFind trimmed " = ".toList with
  | some eq_pos =>
    let after_eq := rustTrimStart (trimmed.drop (eq_pos + 3))
    if rustStartsWith after_eq "<".toList &&
        ¬ rustStartsWith after_eq "<=".toList &&
        ¬ rustStartsWith after_eq "<<".toList then
      let before_eq := rustTrim (trimmed.take eq_pos)
      let identifier :=
        match rustFind before_eq [':'] with
        | some colon_pos => rustTrim (before_eq.take colon_pos)
        | none => before_eq
      if ¬ identifier.isEmpty then
        match identifier.head? with
        | some first =>
          (rustIsAlphabetic first || first = '_') &&
            identifier.all (fun c => rustIsAlphanumeric c || c = '_')
        | none => false
      else false
    else false
  | none => false

/-! ## `parser/tokenizer.rs`: token producers -/

/-- Advance a position over a whole string. -/
def advanceStr (p : Pos) (s : Str) : Pos := s.foldl advanceChar p

/-- `s.find(|c| pred c)`: index of first matching char. -/
def findFirstIdx (pred : Char → Bool) : Str → Option Nat
  | [] => none
  | c :: rest =>
    if pred c then some 0 else (findFirstIdx pred rest).map (· + 1)

/-- `Tokenizer::is_html_element_start`: `<` followed by an ASCII letter. -/
def Tokenizer.is_html_element_start (st : Tokenizer) : Bool :=
  match st.rest with
  | '<' :: c :: _ => isAsciiAlphabetic c
  | _ => false

/-- `Tokenizer::is_html_element_close`: `</` followed by an ASCII letter. -/
def Tokenizer.is_html_element_close (st : Tokenizer) : Bool :=
  match st.rest with
  | '<' :: '/' :: c :: _ => isAsciiAlphabetic c
  | _ => false

/-- `Tokenizer::is_component_close`: `</` followed by a brace. -/
def Tokenizer.is_component_close (st : Tokenizer) : Bool :=
  match st.rest with
  | '<' :: '/' :: '\x7b' :: _ => true
  | _ => false

/-- Skip to `>` (no newline stop), as in `tokenize_component_close` and
the slot tokenizers; then step past the `>` when present. -/
def skipUntilGtGo : Str → Pos → Str × Pos
  | [], p => ([], p)
  | '>' :: rest, p => ('>' :: rest, p)
  | c :: rest, p => skipUntilGtGo rest (advanceChar p c)

def Tokenizer.skipToGtAndConsume (st : Tokenizer) : Tokenizer :=
  let (r, p) := skipUntilGtGo st.rest st.position
  let st := { st with rest := r, position := p }
  if st.peek_char = some '>' then st.advance else st

/-- Skip to `>` stopping also at a newline, as in
`tokenize_html_element_close`; then step past the `>` when present. -/
def skipUntilGtNlGo : Str → Pos → Str × Pos
  | [], p => ([], p)
  | c :: rest, p =>
    if c = '>' ∨ c = '\n' ∨ c = '\r' then (c :: rest, p)
    else skipUntilGtNlGo rest (advanceChar p c)

def Tokenizer.skipToGtNlAndConsume (st : Tokenizer) : Tokenizer :=
  let (r, p) := skipUntilGtNlGo st.rest st.position
  let st := { st with rest := r, position := p }
  if st.peek_char = some '>' then st.advance else st

/-- `Tokenizer::tokenize_comment`. -/
def tokenize_comment (st : Tokenizer) : List Token × Tokenizer :=
  let start := st.position
  let (text, st) := st.consume_to_eol
  ([Token.comment text ⟨start, st.position⟩], st)

/-- `Tokenizer::tokenize_decorator`. -/
def tokenize_decorator (st : Tokenizer) : List Token × Tokenizer :=
  let start := st.position
  let (code, st) := st.consume_to_eol
  ([Token.decorator code ⟨start, st.position⟩], st)

/-- `Tokenizer::tokenize_fragment_start`. -/
def tokenize_fragment_start (st : Tokenizer) : List Token × Tokenizer :=
  let start := st.position
  let (code, st) := st.consume_to_eol
  let trimmed := rustTrim code
  let name :=
    if rustStartsWith trimmed "fragment ".toList then
      let s := trimmed.drop 9
      if rustEndsWith s [':'] then rustTrim (s.take (s.length - 1)) else []
    else []
  ([Token.fragmentStart name ⟨start, st.position⟩], st)

/-- `Tokenizer::tokenize_control_start`, together with the modelled
`restSpan` (the span of `rest` inside the line; `rest` is always a suffix
of `effective`, which starts where the trimmed line starts). -/
def tokenize_control_start (st : Tokenizer) : List Token × Tokenizer :=
  let start := st.position
  let (code, st) := st.consume_to_eol
  let trimmed := rustTrim code
  let effective := strip_trailing_comment trimmed
  let (keyword, rest) :=
    if rustStartsWith effective "async for ".toList then
      ("async for".toList, rustTrimStart (effective.drop 10))
    else if rustStartsWith effective "async with ".toList then
      ("async with".toList, rustTrimStart (effective.drop 11))
    else if rustStartsWith effective "async def ".toList then
      ("async def".toList, rustTrimStart (effective.drop 10))
    else
      match findFirstIdx (fun c => rustIsWhitespace c || c = ':') effective with
      | some idx => (effective.take idx, rustTrimStart (effective.drop idx))
      | none => (effective, [])
  let lead := code.length - (rustTrimStart code).length
  let restOff := lead + (effective.length - rest.length)
  let restStart := advanceStr start (code.take restOff)
  let restSpan : Span := ⟨restStart, advanceStr restStart rest⟩
  ([Token.controlStart keyword rest ⟨start, st.position⟩ restSpan], st)

/-- `Tokenizer::tokenize_control_continuation`, with the modelled
`restSpan` (as for `tokenize_control_start`). -/
def tokenize_control_continuation (st : Tokenizer) : List Token × Tokenizer :=
  let start := st.position
  let (code, st) := st.consume_to_eol
  let trimmed := rustTrim code
  let (keyword, rest) :=
    match findFirstIdx (fun c => rustIsWhitespace c || c = ':') trimmed with
    | some idx =>
      let kw := trimmed.take idx
      let r := rustTrimStart (trimmed.drop idx)
      if r.isEmpty ∨ r = [':'] then (kw, none) else (kw, some r)
    | none => (trimmed, none)
  let lead := code.length - (rustTrimStart code).length
  let restSpan : Option Span :=
    match rest with
    | none => none
    | some r =>
      let restOff := lead + (trimmed.length - r.length)
      let restStart := advanceStr start (code.take restOff)
      some ⟨restStart, advanceStr restStart r⟩
  ([Token.controlContinuation keyword rest ⟨start, st.position⟩ restSpan], st)

/-- The character loop of `Tokenizer::tokenize_expression`: depth starts
at 1, braces inside strings are inert, the closing brace that brings the
depth to 0 is consumed but not recorded. -/
def tokExprGo : Str → Pos → Int → Bool → Char → Str × Str × Pos
  | [], p, _, _, _ => ([], [], p)
  | c :: rest, p, depth, inString, stringChar =>
    if inString then
      if c = '\\' then
        match rest with
        | [] => ([c], [], advanceChar p c)
        | next :: r2 =>
          let (e, r, p') :=
            tokExprGo r2 (advanceChar (advanceChar p c) next) depth inString stringChar
          (c :: next :: e, r, p')
      else if c = stringChar then
        let (e, r, p') := tokExprGo rest (advanceChar p c) depth false stringChar
        (c :: e, r, p')
      else
        let (e, r, p') := tokExprGo rest (advanceChar p c) depth true stringChar
        (c :: e, r, p')
    else if c = '"' ∨ c = '\'' then
      let (e, r, p') := tokExprGo rest (advanceChar p c) depth true c
      (c :: e, r, p')
    else if c = '\x7b' then
      let (e, r, p') := tokExprGo rest (advanceChar p c) (depth + 1) inString stringChar
      (c :: e, r, p')
    else if c = '\x7d' then
      if depth - 1 > 0 then
        let (e, r, p') := tokExprGo rest (advanceChar p c) (depth - 1) inString stringChar
        (c :: e, r, p')
      else ([], rest, advanceChar p c)
    else
      let (e, r, p') := tokExprGo rest (advanceChar p c) depth inString stringChar
      (c :: e, r, p')

/-- `Tokenizer::tokenize_expression`, including the `{...}` → `children`
slot-placeholder rewriting. -/
def tokenize_expression (st : Tokenizer) : Token × Tokenizer :=
  let start := st.position
  let st := st.advance
  let (expr, rest', pos') := tokExprGo st.rest st.position 1 false ' '
  let st := { st with rest := rest', position := pos' }
  let trimmed := rustTrim expr
  let final_expr :=
    if rustStartsWith trimmed "...".toList then
      let slot_name := rustTrim (trimmed.drop 3)
      if slot_name.isEmpty then "children".toList
      else "children_".toList ++ slot_name
    else expr
  (Token.expression final_expr ⟨start, st.position⟩, st)

/-- `Tokenizer::parse_attribute` (shared by components and elements). -/
def parse_attribute (st : Tokenizer) : Option TokAttribute × Tokenizer :=
  match st.peek_char with
  | none => (none, st)
  | some ch =>
    if ch = '\x7b' then
      let attr_start := st.position
      let st := st.advance
      if st.peek_char = some '*' ∧ st.peek_next_char = some '*' then
        let st := st.advance.advance
        let (expr, st) := st.consume_until_char '\x7d'
        let attr_end := st.position
        let st := st.advance
        (some { name := "**".toList
                value := .spread expr ⟨attr_start, attr_end⟩
                span := ⟨attr_start, st.position⟩ }, st)
      else if st.peek_char = some '.' then
        let st := st.advance.advance.advance
        let (slot_name, st) := st.consume_until_char '\x7d'
        let attr_end := st.position
        let st := st.advance
        (some { name := "...".toList ++ slot_name
                value := .slotAssignment (rustTrim slot_name) ⟨attr_start, attr_end⟩
                span := ⟨attr_start, st.position⟩ }, st)
      else
        let (expr, st) := st.consume_until_char '\x7d'
        let attr_end := st.position
        let st := st.advance
        (some { name := expr
                value := .shorthand expr ⟨attr_start, attr_end⟩
                span := ⟨attr_start, st.position⟩ }, st)
    else if rustIsAlphabetic ch ∨ ch = '_' ∨ ch = '-' ∨ ch = '@' ∨ ch = ':' then
      let attr_start := st.position
      let (attr_name, st) := st.consume_while
        (fun c => rustIsAlphanumeric c || c = '_' || c = '-' || c = '@' || c = ':')
      if st.peek_char = some '=' then
        let st := st.advance
        if st.peek_char = some '\x7b' then
          let val_start := st.position
          let st := st.advance
          let (expr, st) := st.consume_until_char '\x7d'
          let st := st.advance
          (some { name := attr_name
                  value := .expression expr ⟨val_start, st.position⟩
                  span := ⟨attr_start, st.position⟩ }, st)
        else if st.peek_char = some '"' then
          let st := st.advance
          let (val, st) := st.consume_until_char '"'
          let st := st.advance
          (some { name := attr_name, value := .string val
                  span := ⟨attr_start, st.position⟩ }, st)
        else if st.peek_char = some '\'' then
          let st := st.advance
          let (val, st) := st.consume_until_char '\''
          let st := st.advance
          (some { name := attr_name, value := .string val
                  span := ⟨attr_start, st.position⟩ }, st)
        else
          (some { name := attr_name, value := .bool
                  span := ⟨attr_start, st.position⟩ }, st)
      else
        (some { name := attr_name, value := .bool
                span := ⟨attr_start, st.position⟩ }, st)
    else (none, st)

/-- `Tokenizer::tokenize_html_element_close`. -/
def tokenize_html_element_close (st : Tokenizer) : Token × Tokenizer :=
  let start := st.position
  let st := st.advance.advance
  let (tag, st) := st.consume_while
    (fun c => rustIsAlphanumeric c || c = '-' || c = '_')
  let st := st.skipToGtNlAndConsume
  (Token.htmlElementClose tag ⟨start, st.position⟩, st)

/-- `Tokenizer::tokenize_component_close`. -/
def tokenize_component_close (st : Tokenizer) : Token × Tokenizer :=
  let start := st.position
  let st := st.advance.advance.advance
  let (name, st) := st.consume_until_char '\x7d'
  let st := st.advance
  let st := st.skipToGtAndConsume
  (Token.componentClose name ⟨start, st.position⟩, st)

/-- `Tokenizer::tokenize_slot_open`. -/
def tokenize_slot_open (st : Tokenizer) : List Token × Tokenizer :=
  let start := st.position
  let st := st.advance.advance.advance.advance.advance
  let (name_text, st) := st.consume_until_char '\x7d'
  let name := if (rustTrim name_text).isEmpty then none else some (rustTrim name_text)
  let st := st.advance
  let st := st.skipToGtAndConsume
  ([Token.slotOpen name ⟨start, st.position⟩], st)

/-- `Tokenizer::tokenize_slot_close`. -/
def tokenize_slot_close (st : Tokenizer) : List Token × Tokenizer :=
  let start := st.position
  let st := st.advance.advance.advance.advance.advance.advance
  let (name_text, st) := st.consume_until_char '\x7d'
  let name := if (rustTrim name_text).isEmpty then none else some (rustTrim name_text)
  let st := st.advance
  let st := st.skipToGtAndConsume
  ([Token.slotClose name ⟨start, st.position⟩], st)

/-- The attribute loop of `Tokenizer::tokenize_html_element_open`
(fuelled: each iteration consumes at least one character, and every call
passes `rest.length + 1`). -/
def htmlOpenLoop (tag : Str) (tagSpan : Span) (start : Pos) :
    Nat → List TokAttribute → Tokenizer → Token × Tokenizer
  | 0, attrs, st =>
    (Token.htmlElementOpen tag tagSpan attrs st.position false ⟨start, st.position⟩, st)
  | fuel + 1, attrs, st =>
    let st := st.skip_whitespace_inline
    if st.at_eof || st.at_newline then
      (Token.htmlElementOpen tag tagSpan attrs st.position false ⟨start, st.position⟩, st)
    else if st.peek_char = some '/' ∧ st.peek_next_char = some '>' then
      let close_pos := st.position
      let st := st.advance.advance
      (Token.htmlElementOpen tag tagSpan attrs close_pos true ⟨start, st.position⟩, st)
    else if st.peek_char = some '>' then
      let close_pos := st.position
      let st := st.advance
      (Token.htmlElementOpen tag tagSpan attrs close_pos false ⟨start, st.position⟩, st)
    else
      match parse_attribute st with
      | (some attr, st) => htmlOpenLoop tag tagSpan start fuel (attrs ++ [attr]) st
      | (none, st) => htmlOpenLoop tag tagSpan start fuel attrs st.advance

/-- `Tokenizer::tokenize_html_element_open`. -/
def tokenize_html_element_open (st : Tokenizer) : Token × Tokenizer :=
  let start := st.position
  let st := st.advance
  let (tag, st) := st.consume_while
    (fun c => rustIsAlphanumeric c || c = '-' || c = '_')
  let tag_end := st.position
  htmlOpenLoop tag ⟨start, tag_end⟩ start (st.rest.length + 1) [] st

/-- The state of `tokenize_content`'s accumulator: quote context, start
of the pending text, pending text, and the `after_structural` flag. -/
structure ContentAcc where
  quoteCtx : QuoteCtx
  textStart : Pos
  textBuf : Str
  afterStructural : Bool

/-- One text-flush in `tokenize_content`. -/
def contentFlush (acc : ContentAcc) (st : Tokenizer) : List Token :=
  if acc.textBuf.isEmpty then []
  else [Token.text acc.textBuf ⟨acc.textStart, st.position⟩]

/-- The character loop of `Tokenizer::tokenize_content` (fuelled: each
iteration consumes at least one character). -/
def tokenizeContentGo : Nat → Tokenizer → ContentAcc → List Token × Tokenizer
  | 0, st, acc => (contentFlush acc st, st)
  | fuel + 1, st, acc =>
    if st.at_eof || st.at_newline then (contentFlush acc st, st)
    else
      match st.peek_char with
      | none => (contentFlush acc st, st)
      | some ch =>
        if ch = '"' ∧ acc.quoteCtx = .none then
          tokenizeContentGo fuel st.advance
            { acc with quoteCtx := QuoteCtx.double
                       textBuf := acc.textBuf ++ [ch]
                       afterStructural := false }
        else if ch = '"' ∧ acc.quoteCtx = .double then
          tokenizeContentGo fuel st.advance
            { acc with quoteCtx := QuoteCtx.none, textBuf := acc.textBuf ++ [ch] }
        else if ch = '\'' ∧ acc.quoteCtx = .none then
          tokenizeContentGo fuel st.advance
            { acc with quoteCtx := QuoteCtx.single
                       textBuf := acc.textBuf ++ [ch]
                       afterStructural := false }
        else if ch = '\'' ∧ acc.quoteCtx = .single then
          tokenizeContentGo fuel st.advance
            { acc with quoteCtx := QuoteCtx.none, textBuf := acc.textBuf ++ [ch] }
        else if ch = '\\' ∧ (acc.quoteCtx = .double ∨ acc.quoteCtx = .single) then
          match st.advance.peek_char with
          | some next =>
            tokenizeContentGo fuel st.advance.advance
              { acc with textBuf := acc.textBuf ++ [ch, next] }
          | none =>
            tokenizeContentGo fuel st.advance { acc with textBuf := acc.textBuf ++ [ch] }
        else if ch = '#' ∧ acc.quoteCtx = .none ∧ acc.afterStructural ∧
            ¬ acc.textBuf.isEmpty ∧ acc.textBuf.all rustIsWhitespace then
          let comment_start := st.position
          let (comment, st) := st.consume_to_eol
          ([Token.comment comment ⟨comment_start, st.position⟩], st)
        else if ch = '\x7b' ∧ acc.quoteCtx = .none ∧ st.peek_next_char = some '\x7b' then
          let flushed := contentFlush acc st
          let brace_start := st.position
          let st := st.advance.advance
          let tok := Token.escapedBrace '\x7b' ⟨brace_start, st.position⟩
          let (toks, st') := tokenizeContentGo fuel st
            { quoteCtx := acc.quoteCtx, textStart := st.position, textBuf := [], afterStructural := true }
          (flushed ++ [tok] ++ toks, st')
        else if ch = '\x7d' ∧ acc.quoteCtx = .none ∧ st.peek_next_char = some '\x7d' then
          let flushed := contentFlush acc st
          let brace_start := st.position
          let st := st.advance.advance
          let tok := Token.escapedBrace '\x7d' ⟨brace_start, st.position⟩
          let (toks, st') := tokenizeContentGo fuel st
            { quoteCtx := acc.quoteCtx, textStart := st.position, textBuf := [], afterStructural := true }
          (flushed ++ [tok] ++ toks, st')
        else if ch = '\x7b' ∧ acc.quoteCtx = .none then
          let flushed := contentFlush acc st
          let (tok, st) := tokenize_expression st
          let (toks, st') := tokenizeContentGo fuel st
            { quoteCtx := acc.quoteCtx, textStart := st.position, textBuf := [], afterStructural := true }
          (flushed ++ [tok] ++ toks, st')
        else if ch = '<' ∧ acc.quoteCtx = .none ∧ st.is_html_element_start then
          let flushed := contentFlush acc st
          let (tok, st) := tokenize_html_element_open st
          let (toks, st') := tokenizeContentGo fuel st
            { quoteCtx := acc.quoteCtx, textStart := st.position, textBuf := [], afterStructural := true }
          (flushed ++ [tok] ++ toks, st')
        else if ch = '<' ∧ acc.quoteCtx = .none ∧ st.is_component_close then
          let flushed := contentFlush acc st
          let (tok, st) := tokenize_component_close st
          let (toks, st') := tokenizeContentGo fuel st
            { quoteCtx := acc.quoteCtx, textStart := st.position, textBuf := [], afterStructural := true }
          (flushed ++ [tok] ++ toks, st')
        else if ch = '<' ∧ acc.quoteCtx = .none ∧ st.is_html_element_close then
          let flushed := contentFlush acc st
          let (tok, st) := tokenize_html_element_close st
          let (toks, st') := tokenizeContentGo fuel st
            { quoteCtx := acc.quoteCtx, textStart := st.position, textBuf := [], afterStructural := true }
          (flushed ++ [tok] ++ toks, st')
        else
          tokenizeContentGo fuel st.advance
            { acc with textBuf := acc.textBuf ++ [ch]
                       afterStructural := if ¬ rustIsWhitespace ch then false else acc.afterStructural }

/-- `Tokenizer::tokenize_content`. -/
def tokenize_content (st : Tokenizer) : List Token × Tokenizer :=
  tokenizeContentGo (st.rest.length + 1) st
    { quoteCtx := QuoteCtx.none, textStart := st.position, textBuf := [], afterStructural := true }

/-- The attribute loop of `Tokenizer::tokenize_component_open`. -/
def componentOpenLoop (name : Str) (nameSpan : Span) (start : Pos) :
    Nat → List TokAttribute → Tokenizer → List Token × Tokenizer
  | 0, attrs, st =>
    ([Token.componentOpen name nameSpan attrs false ⟨start, st.position⟩], st)
  | fuel + 1, attrs, st =>
    let st := st.skip_whitespace_inline
    if st.at_eof || st.at_newline then
      ([Token.componentOpen name nameSpan attrs false ⟨start, st.position⟩], st)
    else if st.peek_char = some '/' ∧ st.peek_next_char = some '>' then
      let st := st.advance.advance
      ([Token.componentOpen name nameSpan attrs true ⟨start, st.position⟩], st)
    else if st.peek_char = some '>' then
      let st := st.advance
      let tok := Token.componentOpen name nameSpan attrs false ⟨start, st.position⟩
      if ¬ st.at_eof ∧ ¬ st.at_newline then
        let (toks, st') := tokenize_content st
        (tok :: toks, st')
      else ([tok], st)
    else
      match parse_attribute st with
      | (some attr, st) => componentOpenLoop name nameSpan start fuel (attrs ++ [attr]) st
      | (none, st) => componentOpenLoop name nameSpan start fuel attrs st.advance

/-- `Tokenizer::tokenize_component_open`. -/
def tokenize_component_open (st : Tokenizer) : List Token × Tokenizer :=
  let start := st.position
  let st := st.advance.advance
  let name_start := st.position
  let (name, st) := st.consume_until_char '\x7d'
  let name_end := st.position
  let st := st.advance
  componentOpenLoop name ⟨name_start, name_end⟩ start (st.rest.length + 1) [] st

/-- The `' '`/`'\t'` continuation-indent loop inside
`tokenize_python_statement`. -/
def Tokenizer.consumeIndentChars (st : Tokenizer) : Str × Tokenizer :=
  st.consume_while fun c => c = ' ' || c = '\t'

/-- The multi-line continuation loop of
`Tokenizer::tokenize_python_statement` (fuelled: each iteration consumes
at least one character). -/
def tokPyGo : Nat → Str → Int → Tokenizer → Str × Tokenizer
  | 0, code, _, st => (code, st)
  | fuel + 1, code, depth, st =>
    if depth > 0 ∧ ¬ st.at_eof then
      let (code, st) :=
        if st.at_newline then (code ++ ['\n'], st.consume_newline) else (code, st)
      let (ws, st) := st.consumeIndentChars
      let code := code ++ ws
      if st.at_eof || st.at_newline then tokPyGo fuel code depth st
      else
        let (line, st) := st.consume_to_eol
        let code := code ++ line
        tokPyGo fuel code (calculate_bracket_depth code) st
    else (code, st)

/-- `Tokenizer::tokenize_python_statement`. -/
def tokenize_python_statement (st : Tokenizer) : List Token × Tokenizer :=
  let start := st.position
  let (code, st) := st.consume_to_eol
  let depth := calculate_bracket_depth code
  let (code, st) := tokPyGo (st.rest.length + 1) code depth st
  ([Token.pythonStatement code ⟨start, st.position⟩], st)

/-- `Tokenizer::tokenize_html_assignment`. -/
def tokenize_html_assignment (st : Tokenizer) : List Token × Tokenizer :=
  let start := st.position
  let (line, st) := st.consume_to_eol
  let trimmed := rustTrim line
  match rustFind trimmed " = ".toList with
  | some eq_pos =>
    let left_side := trimmed.take eq_pos
    let right_side := trimmed.drop (eq_pos + 3)
    let html_content := rustTrim right_side
    let code := left_side ++ " = f\"\"\"".toList ++ html_content ++ "\"\"\"".toList
    ([Token.pythonStatement code ⟨start, st.position⟩], st)
  | none =>
    ([Token.pythonStatement line ⟨start, st.position⟩], st)

/-- Append the trailing `Newline` token when the line dispatcher left the
cursor on a newline (step 5 of `tokenize_line`). -/
def newlineTail (st : Tokenizer) : List Token × Tokenizer :=
  if st.at_newline then
    let nl_start := st.position
    let st' := st.consume_newline
    ([Token.newline ⟨nl_start, st'.position⟩], st')
  else ([], st)

/-- `Tokenizer::tokenize_line`, with the external Python classifier `o`.
The branch order mirrors the source exactly ("ORDER MATTERS!"). -/
def tokenize_line (o : Str → Bool) (st : Tokenizer) : List Token × Tokenizer :=
  let indent_start := st.position
  let (indent_level, st) := st.consume_indent
  let indentToks :=
    if indent_level > 0 then
      [Token.indent indent_level ⟨indent_start, st.position⟩]
    else []
  if st.at_eof then (indentToks, st)
  else if st.at_newline then
    let nl_start := st.position
    let st' := st.consume_newline
    (indentToks ++ [Token.newline ⟨nl_start, st'.position⟩], st')
  else
    match st.inMultilineString with
    | some delimiter =>
      let line_start := st.position
      let line_content := st.peek_line
      let st := st.skip_to_eol
      let st :=
        if rustContainsStr line_content delimiter then
          { st with inMultilineString := none }
        else st
      let toks := [Token.pythonStatement line_content ⟨line_start, st.position⟩]
      let (nl, st') := newlineTail st
      (indentToks ++ toks ++ nl, st')
    | none =>
      let line_content := st.peek_line
      let trimmed := rustTrim line_content
      if rustStartsWith trimmed "\"\"\"".toList ||
          rustStartsWith trimmed "'''".toList then
        let delimiter :=
          if rustStartsWith trimmed "\"\"\"".toList then "\"\"\"".toList
          else "'''".toList
        let countD := rustMatchCount trimmed delimiter
        let st :=
          if countD = 1 then { st with inMultilineString := some delimiter } else st
        let line_start := st.position
        let st := st.skip_to_eol
        let toks := [Token.pythonStatement line_content ⟨line_start, st.position⟩]
        let (nl, st') := newlineTail st
        (indentToks ++ toks ++ nl, st')
      else
        let (bodyToks, st) :=
          if trimmed = "---".toList then
            let sep_start := st.position
            let st := st.skip_to_eol
            ([Token.separator ⟨sep_start, st.position⟩], st)
          else if rustStartsWith line_content "#".toList then
            tokenize_comment st
          else if rustStartsWith line_content "@".toList ∧
              ¬ rustContainsChar line_content '<' ∧
              ¬ is_css_at_rule line_content then
            tokenize_decorator st
          else if rustStartsWith line_content "<\x7b...".toList then
            tokenize_slot_open st
          else if rustStartsWith line_content "</\x7b...".toList then
            tokenize_slot_close st
          else if rustStartsWith line_content "<\x7b".toList then
            tokenize_component_open st
          else if rustStartsWith line_content "</\x7b".toList then
            let (tok, st) := tokenize_component_close st
            ([tok], st)
          else if is_end_keyword line_content then
            let end_start := st.position
            let st := st.skip_to_eol
            ([Token.endTok ⟨end_start, st.position⟩], st)
          else if rustStartsWith (rustTrim line_content) "fragment ".toList ∧
              rustEndsWith (rustTrim line_content) [':'] then
            tokenize_fragment_start st
          else if is_control_flow line_content then
            tokenize_control_start st
          else if is_control_continuation line_content then
            tokenize_control_continuation st
          else if rustStartsWith line_content "<".toList then
            tokenize_content st
          else if is_html_assignment line_content then
            tokenize_html_assignment st
          else if tokIsParameterDeclaration line_content then
            tokenize_python_statement st
          else if is_python_statement o line_content then
            tokenize_python_statement st
          else
            tokenize_content st
        let (nl, st') := newlineTail st
        (indentToks ++ bodyToks ++ nl, st')

/-- The line loop of `Tokenizer::tokenize` (fuelled: every call of
`tokenize_line` away from EOF consumes at least one character; fuel
exhaustion — never reached from `tokenize` — yields a token list without
the final EOF marker). -/
def tokenizeGo (o : Str → Bool) : Nat → Tokenizer → List Token
  | 0, _ => []
  | fuel + 1, st =>
    if st.at_eof then [Token.eof st.position]
    else
      let (toks, st') := tokenize_line o st
      toks ++ tokenizeGo o fuel st'

/-- `tokenize` from `parser/tokenizer.rs`. -/
def tokenize (o : Str → Bool) (source : Str) : List Token :=
  tokenizeGo o (source.length + 1) (Tokenizer.mk' source)

/-! ## `error.rs`: `ErrorKind` and `ParseError` -/

/-- `ErrorKind` from `error.rs`. -/
inductive ErrorKind where
  | UnclosedElement
  | UnclosedComponent
  | UnclosedSlot
  | UnclosedBlock
  | MismatchedCloseTag
  | UnexpectedToken
  | InvalidSyntax
  | VoidElementWithContent
  | DuplicateAttribute
  | InvalidNesting
deriving DecidableEq, Repr

/-- `ParseError` from `error.rs` (rendering is out of scope). -/
structure ParseError where
  kind : ErrorKind
  message : Str
  span : Span
  related_span : Option Span
  related_label : Option Str
  help : Option Str
deriving DecidableEq, Repr

/-- `ParseError::new`. -/
def ParseError.new (kind : ErrorKind) (message : Str) (span : Span) : ParseError :=
  { kind := kind, message := message, span := span,
    related_span := none, related_label := none, help := none }

/-- `ParseError::with_related`. -/
def ParseError.with_related (e : ParseError) (span : Span) : ParseError :=
  { e with related_span := some span }

/-- `ParseError::with_related_label`. -/
def ParseError.with_related_label (e : ParseError) (label : Str) : ParseError :=
  { e with related_label := some label }

/-- `ParseError::with_help`. -/
def ParseError.with_help (e : ParseError) (help : Str) : ParseError :=
  { e with help := some help }

/-! ## `html.rs`: element classification tables -/

/-- `VOID_ELEMENTS` from `html.rs`. -/
def VOID_ELEMENTS : List Str :=
  ["area".toList, "base".toList, "br".toList, "col".toList, "embed".toList,
   "hr".toList, "img".toList, "input".toList, "link".toList, "meta".toList,
   "param".toList, "source".toList, "track".toList, "wbr".toList]

/-- `AUTO_CLOSE_ELEMENTS` from `html.rs`. -/
def AUTO_CLOSE_ELEMENTS : List Str := ["p".toList]

/-- `BLOCK_ELEMENTS` from `html.rs`. -/
def BLOCK_ELEMENTS : List Str :=
  ["address".toList, "article".toList, "aside".toList, "blockquote".toList,
   "details".toList, "dialog".toList, "dd".toList, "div".toList, "dl".toList,
   "dt".toList, "fieldset".toList, "figcaption".toList, "figure".toList,
   "footer".toList, "form".toList, "h1".toList, "h2".toList, "h3".toList,
   "h4".toList, "h5".toList, "h6".toList, "header".toList, "hgroup".toList,
   "hr".toList, "li".toList, "main".toList, "nav".toList, "ol".toList,
   "p".toList, "pre".toList, "section".toList, "table".toList, "ul".toList]

/-- `INTERACTIVE_ELEMENTS` from `html.rs`. -/
def INTERACTIVE_ELEMENTS : List Str := ["a".toList, "button".toList]

/-- `is_void_element` from `html.rs`. -/
def is_void_element (tag : Str) : Bool :=
  VOID_ELEMENTS.contains (strToAsciiLower tag)

/-- `is_auto_close_element` from `html.rs`. -/
def is_auto_close_element (tag : Str) : Bool :=
  AUTO_CLOSE_ELEMENTS.contains (strToAsciiLower tag)

/-- `is_block_element` from `html.rs`. -/
def is_block_element (tag : Str) : Bool :=
  BLOCK_ELEMENTS.contains (strToAsciiLower tag)

/-- `is_interactive_element` from `html.rs`. -/
def is_interactive_element (tag : Str) : Bool :=
  INTERACTIVE_ELEMENTS.contains (strToAsciiLower tag)

/-! ## `ast.rs`: the typed AST -/

/-- `DefinitionKind` from `ast.rs`. -/
inductive DefinitionKind where
  | function
  | classKind
deriving DecidableEq, Repr

/-- `AttributeKind` from `ast.rs`. -/
inductive AttributeKind where
  | static (name : Str) (value : Str)
  | dynamic (name : Str) (expr : Str) (expr_span : Span)
  | boolean (name : Str)
  | shorthand (name : Str) (expr_span : Span)
  | spread (expr : Str) (expr_span : Span)
  | slotAssignment (name : Str) (expr : Option Str) (expr_span : Option Span)
deriving DecidableEq, Repr

/-- `Attribute` from `ast.rs`. -/
structure AstAttribute where
  kind : AttributeKind
  span : Span
deriving DecidableEq, Repr

/-- Leaf node structs from `ast.rs` (no `Node` recursion). -/
structure TextNode where
  content : Str
  span : Span
deriving DecidableEq, Repr

structure ExpressionNode where
  expr : Str
  span : Span
  escape : Bool
deriving DecidableEq, Repr

structure StatementNode where
  stmt : Str
  span : Span
deriving DecidableEq, Repr

structure ImportNode where
  stmt : Str
  span : Span
deriving DecidableEq, Repr

structure ParameterNode where
  name : Str
  type_hint : Option Str
  default : Option Str
  span : Span
deriving DecidableEq, Repr

structure DecoratorNode where
  decorator : Str
  span : Span
deriving DecidableEq, Repr

/-!
`Node` from `ast.rs` and the node structs that recursively own children.
Lean's `structure` cannot appear in a `mutual` block, so those structs are
one-constructor inductives with named fields; projections are defined
below.
-/
mutual

inductive Node where
  | text (node : TextNode)
  | expression (node : ExpressionNode)
  | element (node : ElementNode)
  | component (node : ComponentNode)
  | fragment (node : FragmentNode)
  | slot (node : SlotNode)
  | ifNode (node : IfNode)
  | forNode (node : ForNode)
  | matchNode (node : MatchNode)
  | whileNode (node : WhileNode)
  | withNode (node : WithNode)
  | tryNode (node : TryNode)
  | statement (node : StatementNode)
  | definition (node : DefinitionNode)
  | importNode (node : ImportNode)
  | parameter (node : ParameterNode)
  | decorator (node : DecoratorNode)

inductive ElementNode where
  | mk (tag : Str) (tag_span : Span) (attributes : List AstAttribute)
      (children : List Node) (self_closing : Bool) (span : Span)

inductive ComponentNode where
  | mk (name : Str) (name_span : Span) (attributes : List AstAttribute)
      (children : List Node) (slots : List (Str × List Node)) (span : Span)

inductive FragmentNode where
  | mk (children : List Node) (span : Span)

inductive SlotNode where
  | mk (name : Option Str) (fallback : List Node) (span : Span)

inductive IfNode where
  | mk (condition : Str) (condition_span : Span) (then_branch : List Node)
      (elif_branches : List (Str × Span × List Node))
      (else_branch : Option (List Node)) (span : Span)

inductive ForNode where
  | mk (binding : Str) (iterable : Str) (iterable_span : Span)
      (body : List Node) (is_async : Bool) (span : Span)

inductive MatchNode where
  | mk (expr : Str) (expr_span : Span) (cases : List CaseNode) (span : Span)

inductive CaseNode where
  | mk (pattern : Str) (pattern_span : Span) (body : List Node) (span : Span)

inductive WhileNode where
  | mk (condition : Str) (condition_span : Span) (body : List Node) (span : Span)

inductive WithNode where
  | mk (items : Str) (items_span : Span) (body : List Node) (is_async : Bool)
      (span : Span)

inductive TryNode where
  | mk (body : List Node) (except_clauses : List ExceptClause)
      (else_clause : Option (List Node)) (finally_clause : Option (List Node))
      (span : Span)

inductive ExceptClause where
  | mk (exception : Option Str) (exception_span : Option Span)
      (body : List Node) (span : Span)

inductive DefinitionNode where
  | mk (kind : DefinitionKind) (signature : Str) (signature_span : Span)
      (body : List Node) (span : Span)

end

def ElementNode.tag : ElementNode → Str | .mk t _ _ _ _ _ => t
def ElementNode.tag_span : ElementNode → Span | .mk _ s _ _ _ _ => s
def ElementNode.attributes : ElementNode → List AstAttribute | .mk _ _ a _ _ _ => a
def ElementNode.children : ElementNode → List Node | .mk _ _ _ c _ _ => c
def ElementNode.self_closing : ElementNode → Bool | .mk _ _ _ _ b _ => b
def ElementNode.span : ElementNode → Span | .mk _ _ _ _ _ s => s

def ComponentNode.name : ComponentNode → Str | .mk n _ _ _ _ _ => n
def ComponentNode.name_span : ComponentNode → Span | .mk _ s _ _ _ _ => s
def ComponentNode.attributes : ComponentNode → List AstAttribute | .mk _ _ a _ _ _ => a
def ComponentNode.children : ComponentNode → List Node | .mk _ _ _ c _ _ => c
def ComponentNode.slots : ComponentNode → List (Str × List Node) | .mk _ _ _ _ s _ => s
def ComponentNode.span : ComponentNode → Span | .mk _ _ _ _ _ s => s

def FragmentNode.children : FragmentNode → List Node | .mk c _ => c
def FragmentNode.span : FragmentNode → Span | .mk _ s => s

def SlotNode.name : SlotNode → Option Str | .mk n _ _ => n
def SlotNode.fallback : SlotNode → List Node | .mk _ f _ => f
def SlotNode.span : SlotNode → Span | .mk _ _ s => s

def IfNode.condition : IfNode → Str | .mk c _ _ _ _ _ => c
def IfNode.condition_span : IfNode → Span | .mk _ s _ _ _ _ => s
def IfNode.then_branch : IfNode → List Node | .mk _ _ t _ _ _ => t
def IfNode.elif_branches : IfNode → List (Str × Span × List Node) | .mk _ _ _ e _ _ => e
def IfNode.else_branch : IfNode → Option (List Node) | .mk _ _ _ _ e _ => e
def IfNode.span : IfNode → Span | .mk _ _ _ _ _ s => s

def ForNode.binding : ForNode → Str | .mk b _ _ _ _ _ => b
def ForNode.iterable : ForNode → Str | .mk _ i _ _ _ _ => i
def ForNode.iterable_span : ForNode → Span | .mk _ _ s _ _ _ => s
def ForNode.body : ForNode → List Node | .mk _ _ _ b _ _ => b
def ForNode.is_async : ForNode → Bool | .mk _ _ _ _ a _ => a
def ForNode.span : ForNode → Span | .mk _ _ _ _ _ s => s

def MatchNode.expr : MatchNode → Str | .mk e _ _ _ => e
def MatchNode.expr_span : MatchNode → Span | .mk _ s _ _ => s
def MatchNode.cases : MatchNode → List CaseNode | .mk _ _ c _ => c
def MatchNode.span : MatchNode → Span | .mk _ _ _ s => s

def CaseNode.pattern : CaseNode → Str | .mk p _ _ _ => p
def CaseNode.pattern_span : CaseNode → Span | .mk _ s _ _ => s
def CaseNode.body : CaseNode → List Node | .mk _ _ b _ => b
def CaseNode.span : CaseNode → Span | .mk _ _ _ s => s

def WhileNode.condition : WhileNode → Str | .mk c _ _ _ => c
def WhileNode.condition_span : WhileNode → Span | .mk _ s _ _ => s
def WhileNode.body : WhileNode → List Node | .mk _ _ b _ => b
def WhileNode.span : WhileNode → Span | .mk _ _ _ s => s

def WithNode.items : WithNode → Str | .mk i _ _ _ _ => i
def WithNode.items_span : WithNode → Span | .mk _ s _ _ _ => s
def WithNode.body : WithNode → List Node | .mk _ _ b _ _ => b
def WithNode.is_async : WithNode → Bool | .mk _ _ _ a _ => a
def WithNode.span : WithNode → Span | .mk _ _ _ _ s => s

def TryNode.body : TryNode → List Node | .mk b _ _ _ _ => b
def TryNode.except_clauses : TryNode → List ExceptClause | .mk _ e _ _ _ => e
def TryNode.else_clause : TryNode → Option (List Node) | .mk _ _ e _ _ => e
def TryNode.finally_clause : TryNode → Option (List Node) | .mk _ _ _ f _ => f
def TryNode.span : TryNode → Span | .mk _ _ _ _ s => s

def ExceptClause.exception : ExceptClause → Option Str | .mk e _ _ _ => e
def ExceptClause.exception_span : ExceptClause → Option Span | .mk _ s _ _ => s
def ExceptClause.body : ExceptClause → List Node | .mk _ _ b _ => b
def ExceptClause.span : ExceptClause → Span | .mk _ _ _ s => s

def DefinitionNode.kind : DefinitionNode → DefinitionKind | .mk k _ _ _ _ => k
def DefinitionNode.signature : DefinitionNode → Str | .mk _ s _ _ _ => s
def DefinitionNode.signature_span : DefinitionNode → Span | .mk _ _ s _ _ => s
def DefinitionNode.body : DefinitionNode → List Node | .mk _ _ _ b _ => b
def DefinitionNode.span : DefinitionNode → Span | .mk _ _ _ _ s => s

/-! ## `parser/tree_builder.rs` -/

/-- `str::lines`: split on `\n`, dropping a final empty segment and any
trailing `\r` per line. -/
def rustLines (s : Str) : List Str :=
  if s.isEmpty then []
  else
    let parts := s.splitOn '\n'
    let parts := if rustEndsWith s ['\n'] then parts.dropLast else parts
    parts.map fun l => if rustEndsWith l ['\r'] then l.dropLast else l

/-- `TreeBuilder` state.  The Rust struct keeps the full token vector and
an index `pos`; the embedding keeps the unconsumed suffix in `tokens`.
`element_stack`'s top is the list head (Rust pushes/reads at the back). -/
structure TreeBuilder where
  tokens : List Token
  source : Str
  in_header : Bool
  element_stack : List Str
deriving Repr

/-- `TreeBuilder::new`. -/
def TreeBuilder.new (tokens : List Token) (source : Str) : TreeBuilder :=
  { tokens := tokens, source := source, in_header := true, element_stack := [] }

def TreeBuilder.peek (st : TreeBuilder) : Option Token := st.tokens.head?

def TreeBuilder.advance (st : TreeBuilder) : TreeBuilder :=
  { st with tokens := st.tokens.tail }

/-- `TreeBuilder::is_at_end`. -/
def TreeBuilder.is_at_end (st : TreeBuilder) : Bool :=
  match st.tokens with
  | [] => true
  | Token.eof _ :: _ => true
  | _ => false

/-- `TreeBuilder::current_span` (at EOF: a zero-width span at the end of
the source). -/
def TreeBuilder.current_span (st : TreeBuilder) : Span :=
  match st.tokens.head? with
  | some t => t.span
  | none =>
    let byte := utf8Len st.source
    let line := (rustLines st.source).length - 1
    let col :=
      match (rustLines st.source).getLast? with
      | some l => utf8Len l
      | none => 0
    { start := { byte := byte, line := line, col := col }
      stop := { byte := byte, line := line, col := col } }

/-- `TreeBuilder::skip_structural_tokens`. -/
def skipStructuralGo : List Token → List Token
  | Token.newline _ :: rest => skipStructuralGo rest
  | Token.indent _ _ :: rest => skipStructuralGo rest
  | toks => toks

def TreeBuilder.skip_structural_tokens (st : TreeBuilder) : TreeBuilder :=
  { st with tokens := skipStructuralGo st.tokens }

/-- `TreeBuilder::expect_end`. -/
def expect_end (st : TreeBuilder) (block_keyword : Str) (open_span : Span) :
    Except ParseError TreeBuilder :=
  match st.peek with
  | some (Token.endTok _) => .ok st.advance
  | _ =>
    .error ((((ParseError.new .UnclosedBlock
      ("This '".toList ++ block_keyword ++ "' block is never closed.".toList)
      st.current_span).with_related open_span).with_help
        "Close with 'end'".toList))

/-- `TreeBuilder::convert_attributes`. -/
def convert_attributes (token_attrs : List TokAttribute) : List AstAttribute :=
  token_attrs.map fun attr =>
    let kind : AttributeKind :=
      match attr.value with
      | .string s => .static attr.name s
      | .expression code span => .dynamic attr.name code span
      | .bool => .boolean attr.name
      | .shorthand name span => .shorthand name span
      | .spread code span => .spread code span
      | .slotAssignment name span => .slotAssignment name none (some span)
    { kind := kind, span := attr.span }

/-- `TreeBuilder::check_nesting`. -/
def check_nesting (st : TreeBuilder) (child_tag : Str) (child_span : Span) :
    Except ParseError Unit :=
  match st.element_stack.head? with
  | some parent =>
    if is_auto_close_element parent ∧ is_block_element child_tag then
      .error ((ParseError.new .InvalidNesting
        ("<".toList ++ child_tag ++ "> cannot appear inside <".toList ++
          parent ++ ">.".toList) child_span).with_help
        ("Browsers silently close <".toList ++ parent ++
          "> when they encounter <".toList ++ child_tag ++
          ">, so this renders\nas <".toList ++ parent ++ "></".toList ++
          parent ++ "><".toList ++ child_tag ++ ">...</".toList ++
          child_tag ++ "> — probably not what you want.".toList))
    else if is_interactive_element parent ∧ is_interactive_element child_tag then
      .error ((ParseError.new .InvalidNesting
        ("<".toList ++ child_tag ++ "> cannot appear inside <".toList ++
          parent ++ ">.".toList) child_span).with_help
        "Nesting clickable elements is invalid HTML and causes unpredictable behavior across browsers.".toList)
    else .ok ()
  | none => .ok ()

/-- The attribute name used for duplicate detection
(`check_duplicate_attributes`): spreads and slot assignments are exempt. -/
def attrDupName : AttributeKind → Option Str
  | .static name _ => some name
  | .dynamic name _ _ => some name
  | .boolean name => some name
  | .shorthand name _ => some name
  | .spread _ _ => none
  | .slotAssignment _ _ _ => none

def checkDupGo : List AstAttribute → List (Str × Span) → Except ParseError Unit
  | [], _ => .ok ()
  | attr :: rest, seen =>
    match attrDupName attr.kind with
    | some name =>
      match seen.lookup name with
      | some first_span =>
        .error (((ParseError.new .DuplicateAttribute
          ("\"".toList ++ name ++ "\" is set twice on this element.".toList)
          attr.span).with_related first_span).with_related_label
            "first use".toList)
      | none => checkDupGo rest (seen ++ [(name, attr.span)])
    | none => checkDupGo rest seen

/-- `TreeBuilder::check_duplicate_attributes`. -/
def check_duplicate_attributes (attrs : List AstAttribute) :
    Except ParseError Unit :=
  checkDupGo attrs []

/-- `TreeBuilder::is_parameter_declaration` (the tree builder's version:
the `*`/`**` test uses the trimmed text, the rest uses the raw text). -/
def tbIsParameterDeclaration (code : Str) : Bool :=
  let trimmed := rustTrim code
  if rustStartsWith trimmed "**".toList || rustStartsWith trimmed "*".toList then
    rustContainsChar trimmed ':'
  else if ¬ rustContainsChar code ':' then false
  else if rustStartsWith code "if ".toList || rustStartsWith code "for ".toList ||
      rustStartsWith code "while ".toList || rustStartsWith code "match ".toList ||
      rustStartsWith code "with ".toList then false
  else
    match rustFind code [':'], rustFind code ['='] with
    | some colon_pos, some equals_pos => colon_pos < equals_pos
    | some _, none => true
    | none, _ => false

/-- The result of a fuelled tree-builder step: success with the new
state, a parse error, or fuel exhaustion (`out` is never reached from
`parse`, which supplies ample fuel). -/
inductive PR (α : Type) where
  | ok (val : α) (st : TreeBuilder)
  | err (e : ParseError)
  | out

def PR.bind {α β : Type} : PR α → (α → TreeBuilder → PR β) → PR β
  | .ok a st, f => f a st
  | .err e, _ => .err e
  | .out, _ => .out

/-- `TreeBuilder::parse_parameter`. -/
def parse_parameter (st : TreeBuilder) (code : Str) (span : Span) :
    PR (Option Node) :=
  let parts := rustSplitn2 code [':']
  if h : parts.length ≠ 2 then
    .ok (some (Node.statement { stmt := code, span := span })) st.advance
  else
    let name := rustTrim (parts.headD [])
    let rest := rustTrim (parts.getLastD [])
    let (type_hint, default) :=
      if rustContainsChar rest '=' then
        let parts2 := rustSplitn2 rest ['=']
        (some (rustTrim (parts2.headD [])), some (rustTrim (parts2.getLastD [])))
      else (some rest, none)
    .ok (some (Node.parameter
      { name := name, type_hint := type_hint, default := default, span := span }))
      st.advance

/-- Prepend an optional node (parse loops collect only `Some` results). -/
def consOpt (n : Option Node) (ns : List Node) : List Node :=
  match n with
  | some x => x :: ns
  | none => ns

/-!
The mutually recursive parsing functions of `TreeBuilder`.  To keep the
definitions computable by kernel reduction (Lean compiles mutual
well-founded recursion to an irreducible fixpoint), the mutual recursion
is expressed as one fuelled step function `tbStep` over an inductive of
call descriptors; `parse_node`, `parse_until_block_end`, … below are thin
wrappers that each correspond to one Rust method.  Every recursive call
passes `fuel - 1`, and `parse` supplies fuel far above the call-tree
depth (which is linear in the token count, since every pass through
`parse_node` consumes at least one token).
-/

/-- One call descriptor per `TreeBuilder` method. -/
inductive TBCall where
  | node (st : TreeBuilder)
  | controlFlow (keyword rest : Str) (span restSpan : Span) (st : TreeBuilder)
  | ifCall (condition : Str) (span restSpan : Span) (st : TreeBuilder)
  | ifConts (acc : List (Str × Span × List Node)) (st : TreeBuilder)
  | forCall (rest : Str) (span restSpan : Span) (is_async : Bool) (st : TreeBuilder)
  | whileCall (condition : Str) (span restSpan : Span) (st : TreeBuilder)
  | matchCall (expr : Str) (span restSpan : Span) (st : TreeBuilder)
  | matchCases (acc : List CaseNode) (st : TreeBuilder)
  | withCall (items : Str) (span restSpan : Span) (is_async : Bool) (st : TreeBuilder)
  | tryCall (span : Span) (st : TreeBuilder)
  | tryConts (excepts : List ExceptClause) (elseClause : Option (List Node))
      (st : TreeBuilder)
  | functionCall (keyword rest : Str) (span : Span) (st : TreeBuilder)
  | classCall (rest : Str) (span : Span) (st : TreeBuilder)
  | untilBlockEnd (st : TreeBuilder)
  | untilCaseEnd (st : TreeBuilder)
  | untilElementClose (tag : Str) (open_span : Span) (st : TreeBuilder)
  | untilComponentClose (name : Str) (open_span : Span) (st : TreeBuilder)
  | untilSlotClose (name : Option Str) (open_span : Span) (st : TreeBuilder)
  | buildCall (st : TreeBuilder)

/-- The value returned by each call kind. -/
inductive TBVal where
  | optNode (v : Option Node)
  | nodes (v : List Node)
  | comps (v : List Node × List (Str × List Node))
  | ifConts (v : List (Str × Span × List Node) × Option (List Node))
  | cases (v : List CaseNode)
  | tryConts (v : List ExceptClause × Option (List Node) × Option (List Node))

/-- Generic tree-builder result. -/
inductive PRg where
  | ok (val : TBVal) (st : TreeBuilder)
  | err (e : ParseError)
  | out

def PRg.bindOptNode (r : PRg) (f : Option Node → TreeBuilder → PRg) : PRg :=
  match r with
  | .ok (.optNode v) st => f v st
  | .ok _ _ => .out
  | .err e => .err e
  | .out => .out

def PRg.bindNodes (r : PRg) (f : List Node → TreeBuilder → PRg) : PRg :=
  match r with
  | .ok (.nodes v) st => f v st
  | .ok _ _ => .out
  | .err e => .err e
  | .out => .out

def PRg.bindComps (r : PRg)
    (f : List Node × List (Str × List Node) → TreeBuilder → PRg) : PRg :=
  match r with
  | .ok (.comps v) st => f v st
  | .ok _ _ => .out
  | .err e => .err e
  | .out => .out

def PRg.bindIfConts (r : PRg)
    (f : List (Str × Span × List Node) × Option (List Node) → TreeBuilder → PRg) :
    PRg :=
  match r with
  | .ok (.ifConts v) st => f v st
  | .ok _ _ => .out
  | .err e => .err e
  | .out => .out

def PRg.bindCases (r : PRg) (f : List CaseNode → TreeBuilder → PRg) : PRg :=
  match r with
  | .ok (.cases v) st => f v st
  | .ok _ _ => .out
  | .err e => .err e
  | .out => .out

def PRg.bindTryConts (r : PRg)
    (f : List ExceptClause × Option (List Node) × Option (List Node) →
      TreeBuilder → PRg) : PRg :=
  match r with
  | .ok (.tryConts v) st => f v st
  | .ok _ _ => .out
  | .err e => .err e
  | .out => .out

/-- The fuelled step function realising all `TreeBuilder` methods. -/
def tbStep : Nat → TBCall → PRg
  | 0, _ => .out
  | fuel + 1, call =>
    match call with
    | .node st =>
      if st.is_at_end then .ok (.optNode none) st
      else
        match st.tokens.head? with
        | none => .ok (.optNode none) st
        | some tok =>
          match tok with
          | .newline _ => .ok (.optNode none) st.advance
          | .indent _ _ => .ok (.optNode none) st.advance
          | .text t span =>
            .ok (.optNode (some (.text { content := t, span := span }))) st.advance
          | .expression code span =>
            let trimmed := rustTrim code
            if trimmed = "children".toList ∨
                rustStartsWith trimmed "children_".toList then
              let slot_name :=
                if trimmed = "children".toList then none
                else some (trimmed.drop 9)
              .ok (.optNode (some (.slot (.mk slot_name [] span)))) st.advance
            else
              .ok (.optNode (some (.expression
                { expr := code, span := span, escape := true }))) st.advance
          | .htmlElementOpen tag tag_span attributes _ self_closing span =>
            let element_attrs := convert_attributes attributes
            match check_nesting st tag span with
            | .error e => .err e
            | .ok _ =>
              if ¬ self_closing ∧ is_void_element tag then
                let examples := (["br".toList, "img".toList, "input".toList,
                  "hr".toList, "meta".toList].filter (· ≠ tag)).take 3
                .err ((ParseError.new .VoidElementWithContent
                  ("<".toList ++ tag ++ "> cannot have content or a closing tag.".toList)
                  span).with_help
                  ("<".toList ++ tag ++ "> is a void element (like ".toList ++
                    (List.intercalate ", ".toList
                      (examples.map fun e => "<".toList ++ e ++ ">".toList)) ++
                    "). Write it as <".toList ++ tag ++ " /> instead.".toList))
              else
                match check_duplicate_attributes element_attrs with
                | .error e => .err e
                | .ok _ =>
                  let st := st.advance
                  if self_closing then
                    .ok (.optNode (some (.element
                      (.mk tag tag_span element_attrs [] true span)))) st
                  else
                    (tbStep fuel (.untilElementClose tag span
                        { st with element_stack := tag :: st.element_stack })).bindNodes
                      fun children st =>
                        .ok (.optNode (some (.element
                          (.mk tag tag_span element_attrs children false span)))) st
          | .htmlElementClose _ _ => .ok (.optNode none) st.advance
          | .componentOpen name name_span attributes self_closing span =>
            let component_attrs := convert_attributes attributes
            match check_duplicate_attributes component_attrs with
            | .error e => .err e
            | .ok _ =>
              let st := st.advance
              if self_closing then
                .ok (.optNode (some (.component
                  (.mk name name_span component_attrs [] [] span)))) st
              else
                (tbStep fuel (.untilComponentClose name span st)).bindComps
                  fun cs st =>
                    .ok (.optNode (some (.component
                      (.mk name name_span component_attrs cs.1 cs.2 span)))) st
          | .componentClose _ _ => .ok (.optNode none) st.advance
          | .controlStart keyword rest span restSpan =>
            tbStep fuel (.controlFlow keyword rest span restSpan st)
          | .pythonStatement code span =>
            if st.in_header ∧ tbIsParameterDeclaration code then
              match parse_parameter st code span with
              | .ok v st' => .ok (.optNode v) st'
              | .err e => .err e
              | .out => .out
            else
              .ok (.optNode (some (.statement { stmt := code, span := span })))
                st.advance
          | .decorator code span =>
            .ok (.optNode (some (.decorator { decorator := code, span := span })))
              st.advance
          | .comment _ _ => .ok (.optNode none) st.advance
          | .separator _ => .ok (.optNode none) { st.advance with in_header := false }
          | .slotOpen name span =>
            let st := st.advance
            match name with
            | some _ =>
              (tbStep fuel (.untilSlotClose name span st)).bindNodes
                fun fallback st =>
                  .ok (.optNode (some (.slot (.mk name fallback span)))) st
            | none => .ok (.optNode (some (.slot (.mk name [] span)))) st
          | .slotClose _ _ => .ok (.optNode none) st.advance
          | .escapedBrace brace span =>
            .ok (.optNode (some (.text { content := [brace], span := span })))
              st.advance
          | .eof _ => .ok (.optNode none) st
          | .endTok _ => .ok (.optNode none) st.advance
          | .controlContinuation _ _ _ _ => .ok (.optNode none) st.advance
          | .fragmentStart _ span =>
            .ok (.optNode (some (.fragment (.mk [] span)))) st.advance
    | .controlFlow keyword rest span restSpan st =>
      if keyword = "if".toList then tbStep fuel (.ifCall rest span restSpan st)
      else if keyword = "for".toList then
        tbStep fuel (.forCall rest span restSpan false st)
      else if keyword = "async for".toList then
        tbStep fuel (.forCall rest span restSpan true st)
      else if keyword = "while".toList then
        tbStep fuel (.whileCall rest span restSpan st)
      else if keyword = "match".toList then
        tbStep fuel (.matchCall rest span restSpan st)
      else if keyword = "with".toList then
        tbStep fuel (.withCall rest span restSpan false st)
      else if keyword = "async with".toList then
        tbStep fuel (.withCall rest span restSpan true st)
      else if keyword = "try".toList then tbStep fuel (.tryCall span st)
      else if keyword = "def".toList ∨ keyword = "async def".toList then
        tbStep fuel (.functionCall keyword rest span st)
      else if keyword = "class".toList then tbStep fuel (.classCall rest span st)
      else
        .err (ParseError.new .InvalidSyntax
          ("'".toList ++ keyword ++ "' is not a recognized block keyword.".toList)
          span)
    | .ifCall condition span restSpan st =>
      let condition_span := restSpan
      let if_span := span
      let st := st.advance
      (tbStep fuel (.untilBlockEnd st)).bindNodes fun then_branch st =>
        (tbStep fuel (.ifConts [] st)).bindIfConts fun conts st =>
          match expect_end st "if".toList if_span with
          | .error e => .err e
          | .ok st =>
            .ok (.optNode (some (.ifNode
              (.mk condition condition_span then_branch conts.1 conts.2 if_span)))) st
    | .ifConts acc st =>
      match st.peek with
      | some (.controlContinuation keyword rest span restSpan) =>
        if keyword = "elif".toList then
          let elif_cond := rest.getD []
          let elif_span := restSpan.getD span
          let st := st.advance
          (tbStep fuel (.untilBlockEnd st)).bindNodes fun elif_body st =>
            tbStep fuel (.ifConts (acc ++ [(elif_cond, elif_span, elif_body)]) st)
        else if keyword = "else".toList then
          let st := st.advance
          (tbStep fuel (.untilBlockEnd st)).bindNodes fun else_body st =>
            .ok (.ifConts (acc, some else_body)) st
        else .ok (.ifConts (acc, none)) st
      | _ => .ok (.ifConts (acc, none)) st
    | .forCall rest span restSpan is_async st =>
      let parts := rustSplitn2 rest " in ".toList
      if parts.length ≠ 2 then
        let keyword := if is_async then "async for".toList else "for".toList
        .err ((ParseError.new .InvalidSyntax
          ("This doesn't look like a valid ".toList ++ keyword ++ " loop.".toList)
          span).with_help ("Syntax: ".toList ++ keyword ++ " x in items:".toList))
      else
        let binding := rustTrim (parts.headD [])
        let iterable := rustTrim (parts.getLastD [])
        let binding_and_in_len := utf8Len (parts.headD []) + 4
        let iterable_span : Span :=
          { start := { line := restSpan.start.line
                       col := restSpan.start.col + binding_and_in_len
                       byte := restSpan.start.byte + binding_and_in_len }
            stop := restSpan.stop }
        let for_span := span
        let st := st.advance
        (tbStep fuel (.untilBlockEnd st)).bindNodes fun body st =>
          let keyword := if is_async then "async for".toList else "for".toList
          match expect_end st keyword for_span with
          | .error e => .err e
          | .ok st =>
            .ok (.optNode (some (.forNode
              (.mk binding iterable iterable_span body is_async for_span)))) st
    | .whileCall condition span restSpan st =>
      let condition_span := restSpan
      let while_span := span
      let st := st.advance
      (tbStep fuel (.untilBlockEnd st)).bindNodes fun body st =>
        match expect_end st "while".toList while_span with
        | .error e => .err e
        | .ok st =>
          .ok (.optNode (some (.whileNode
            (.mk condition condition_span body while_span)))) st
    | .matchCall expr span restSpan st =>
      let expr_span := restSpan
      let match_span := span
      let st := st.advance
      let st := st.skip_structural_tokens
      (tbStep fuel (.matchCases [] st)).bindCases fun cases st =>
        match expect_end st "match".toList match_span with
        | .error e => .err e
        | .ok st =>
          .ok (.optNode (some (.matchNode (.mk expr expr_span cases match_span)))) st
    | .matchCases acc st =>
      match st.peek with
      | some (.controlContinuation keyword rest span restSpan) =>
        if keyword = "case".toList then
          let pattern := rest.getD []
          let pattern_span := restSpan.getD span
          let case_span := span
          let st := st.advance
          (tbStep fuel (.untilCaseEnd st)).bindNodes fun body st =>
            let st := st.skip_structural_tokens
            tbStep fuel (.matchCases
              (acc ++ [CaseNode.mk pattern pattern_span body case_span]) st)
        else .ok (.cases acc) st
      | _ => .ok (.cases acc) st
    | .withCall items span restSpan is_async st =>
      let items_span := restSpan
      let with_span := span
      let st := st.advance
      (tbStep fuel (.untilBlockEnd st)).bindNodes fun body st =>
        let keyword := if is_async then "async with".toList else "with".toList
        match expect_end st keyword with_span with
        | .error e => .err e
        | .ok st =>
          .ok (.optNode (some (.withNode
            (.mk items items_span body is_async with_span)))) st
    | .tryCall span st =>
      let try_span := span
      let st := st.advance
      (tbStep fuel (.untilBlockEnd st)).bindNodes fun body st =>
        (tbStep fuel (.tryConts [] none st)).bindTryConts fun conts st =>
          match expect_end st "try".toList try_span with
          | .error e => .err e
          | .ok st =>
            .ok (.optNode (some (.tryNode
              (.mk body conts.1 conts.2.1 conts.2.2 try_span)))) st
    | .tryConts excepts elseClause st =>
      match st.peek with
      | some (.controlContinuation keyword rest span restSpan) =>
        if keyword = "except".toList then
          let exception := rest
          let exception_span :=
            match restSpan with
            | some s => some s
            | none => rest.map fun _ => span
          let except_span := span
          let st := st.advance
          (tbStep fuel (.untilBlockEnd st)).bindNodes fun except_body st =>
            tbStep fuel (.tryConts
              (excepts ++
                [ExceptClause.mk exception exception_span except_body except_span])
              elseClause st)
        else if keyword = "else".toList then
          let st := st.advance
          (tbStep fuel (.untilBlockEnd st)).bindNodes fun else_body st =>
            tbStep fuel (.tryConts excepts (some else_body) st)
        else if keyword = "finally".toList then
          let st := st.advance
          (tbStep fuel (.untilBlockEnd st)).bindNodes fun finally_body st =>
            .ok (.tryConts (excepts, elseClause, some finally_body)) st
        else .ok (.tryConts (excepts, elseClause, none)) st
      | _ => .ok (.tryConts (excepts, elseClause, none)) st
    | .functionCall keyword rest span st =>
      let rest_trimmed := rustTrim (rustTrimEndMatches rest ':')
      let signature := keyword ++ [' '] ++ rest_trimmed ++ [':']
      let signature_span := span
      let def_span := span
      let st := st.advance
      (tbStep fuel (.untilBlockEnd st)).bindNodes fun body st =>
        match expect_end st "def".toList def_span with
        | .error e => .err e
        | .ok st =>
          .ok (.optNode (some (.definition
            (.mk DefinitionKind.function signature signature_span body def_span)))) st
    | .classCall rest span st =>
      let rest_trimmed := rustTrim (rustTrimEndMatches rest ':')
      let signature := "class ".toList ++ rest_trimmed ++ [':']
      let signature_span := span
      let class_span := span
      let st := st.advance
      (tbStep fuel (.untilBlockEnd st)).bindNodes fun body st =>
        match expect_end st "class".toList class_span with
        | .error e => .err e
        | .ok st =>
          .ok (.optNode (some (.definition
            (.mk DefinitionKind.classKind signature signature_span body class_span)))) st
    | .untilBlockEnd st =>
      if st.is_at_end then .ok (.nodes []) st
      else
        match st.peek with
        | some (.endTok _) => .ok (.nodes []) st
        | some (.controlContinuation _ _ _ _) => .ok (.nodes []) st
        | _ =>
          (tbStep fuel (.node st)).bindOptNode fun n st =>
            (tbStep fuel (.untilBlockEnd st)).bindNodes fun ns st =>
              .ok (.nodes (consOpt n ns)) st
    | .untilCaseEnd st =>
      if st.is_at_end then .ok (.nodes []) st
      else
        let should_break :=
          match st.peek with
          | some (.endTok _) => true
          | some (.controlContinuation keyword _ _ _) => keyword = "case".toList
          | _ => false
        if should_break then .ok (.nodes []) st
        else
          (tbStep fuel (.node st)).bindOptNode fun n st =>
            (tbStep fuel (.untilCaseEnd st)).bindNodes fun ns st =>
              .ok (.nodes (consOpt n ns)) st
    | .untilElementClose tag open_span st =>
      if st.is_at_end then
        .err (((ParseError.new .UnclosedElement
          ("<".toList ++ tag ++ "> is never closed.".toList)
          st.current_span).with_related open_span).with_help
          ("Close with </".toList ++ tag ++ "> or <".toList ++ tag ++ " />".toList))
      else
        let isMatchingClose :=
          match st.peek with
          | some (.htmlElementClose close_tag _) => close_tag == tag
          | _ => false
        if isMatchingClose then
          let st := st.advance
          .ok (.nodes []) { st with element_stack := st.element_stack.tail }
        else
          (tbStep fuel (.node st)).bindOptNode fun n st =>
            (tbStep fuel (.untilElementClose tag open_span st)).bindNodes fun ns st =>
              .ok (.nodes (consOpt n ns)) st
    | .untilComponentClose name open_span st =>
      if st.is_at_end then
        .err (((ParseError.new .UnclosedComponent
          ("<\x7b".toList ++ name ++ "\x7d> is never closed.".toList)
          st.current_span).with_related open_span).with_help
          ("Close with </\x7b".toList ++ name ++ "\x7d> or <\x7b".toList ++
            name ++ "\x7d />".toList))
      else
        let isMatchingClose :=
          match st.peek with
          | some (.componentClose close_name _) => close_name == name
          | _ => false
        if isMatchingClose then .ok (.comps ([], [])) st.advance
        else
          (tbStep fuel (.node st)).bindOptNode fun n st =>
            (tbStep fuel (.untilComponentClose name open_span st)).bindComps
              fun cs st =>
                .ok (.comps (consOpt n cs.1, cs.2)) st
    | .untilSlotClose name open_span st =>
      if st.is_at_end then
        let slot_name :=
          match name with
          | some n => "...".toList ++ n
          | none => "...".toList
        .err (((ParseError.new .UnclosedSlot
          ("<\x7b".toList ++ slot_name ++ "\x7d> is never closed.".toList)
          st.current_span).with_related open_span).with_help
          ("Close with </\x7b".toList ++ slot_name ++ "\x7d>".toList))
      else
        let isMatchingClose :=
          match st.peek with
          | some (.slotClose close_name _) => close_name == name
          | _ => false
        if isMatchingClose then .ok (.nodes []) st.advance
        else
          (tbStep fuel (.node st)).bindOptNode fun n st =>
            (tbStep fuel (.untilSlotClose name open_span st)).bindNodes fun ns st =>
              .ok (.nodes (consOpt n ns)) st
    | .buildCall st =>
      if st.is_at_end then .ok (.nodes []) st
      else
        (tbStep fuel (.node st)).bindOptNode fun n st =>
          (tbStep fuel (.buildCall st)).bindNodes fun ns st =>
            .ok (.nodes (consOpt n ns)) st

/-- `TreeBuilder::parse_node`. -/
def parse_node (fuel : Nat) (st : TreeBuilder) : PR (Option Node) :=
  match tbStep fuel (.node st) with
  | .ok (.optNode v) st => .ok v st
  | .ok _ _ => .out
  | .err e => .err e
  | .out => .out

/-- `TreeBuilder::parse_until_block_end`. -/
def parse_until_block_end (fuel : Nat) (st : TreeBuilder) : PR (List Node) :=
  match tbStep fuel (.untilBlockEnd st) with
  | .ok (.nodes v) st => .ok v st
  | .ok _ _ => .out
  | .err e => .err e
  | .out => .out

/-- `TreeBuilder::parse_until_case_end`. -/
def parse_until_case_end (fuel : Nat) (st : TreeBuilder) : PR (List Node) :=
  match tbStep fuel (.untilCaseEnd st) with
  | .ok (.nodes v) st => .ok v st
  | .ok _ _ => .out
  | .err e => .err e
  | .out => .out

/-- `TreeBuilder::parse_until_element_close` (pushes the tag before the
loop; the loop pops it again on success or at end of input). -/
def parse_until_element_close (fuel : Nat) (tag : Str) (open_span : Span)
    (st : TreeBuilder) : PR (List Node) :=
  match tbStep fuel (.untilElementClose tag open_span
      { st with element_stack := tag :: st.element_stack }) with
  | .ok (.nodes v) st => .ok v st
  | .ok _ _ => .out
  | .err e => .err e
  | .out => .out

/-- `TreeBuilder::parse_until_component_close`. -/
def parse_until_component_close (fuel : Nat) (name : Str) (open_span : Span)
    (st : TreeBuilder) : PR (List Node × List (Str × List Node)) :=
  match tbStep fuel (.untilComponentClose name open_span st) with
  | .ok (.comps v) st => .ok v st
  | .ok _ _ => .out
  | .err e => .err e
  | .out => .out

/-- `TreeBuilder::parse_until_slot_close`. -/
def parse_until_slot_close (fuel : Nat) (name : Option Str) (open_span : Span)
    (st : TreeBuilder) : PR (List Node) :=
  match tbStep fuel (.untilSlotClose name open_span st) with
  | .ok (.nodes v) st => .ok v st
  | .ok _ _ => .out
  | .err e => .err e
  | .out => .out

/-- `TreeBuilder::build`. -/
def build (fuel : Nat) (st : TreeBuilder) : PR (List Node) :=
  match tbStep fuel (.buildCall st) with
  | .ok (.nodes v) st => .ok v st
  | .ok _ _ => .out
  | .err e => .err e
  | .out => .out

/-- Fuel that comfortably dominates the tree builder's call-tree depth
(which is linear in the token count). -/
def parseFuel (tokens : List Token) : Nat := 16 * tokens.length + 16

/-- `HyperParser::parse` (`parser/mod.rs`): tokenize, then build the AST.
The node list plays the role of `Ast::nodes`; the source is carried
alongside. -/
def parse (o : Str → Bool) (source : Str) : PR (List Node) :=
  let tokens := tokenize o source
  build (parseFuel tokens) (TreeBuilder.new tokens source)

/-! ## `transform/`: metadata and the three standard passes -/

/-- `TransformMetadata` from `transform/metadata.rs` (`HashSet`s are
modelled as duplicate-free lists with membership-guarded insertion). -/
structure TransformMetadata where
  helpers_used : List Str
  is_async : Bool
  slots_used : List Str
deriving Repr

def TransformMetadata.new : TransformMetadata :=
  { helpers_used := [], is_async := false, slots_used := [] }

/-- `HashSet::insert`. -/
def hsInsert (s : List Str) (x : Str) : List Str :=
  if s.contains x then s else s ++ [x]

/-- `HelperDetectionPlugin::enter` from `transform/helper_detect.rs`. -/
def helperEnter : Node → TransformMetadata → TransformMetadata × Bool
  | .expression e, m =>
    let m := if e.escape then { m with helpers_used := hsInsert m.helpers_used "escape".toList } else m
    let m := if rustContainsStr e.expr "safe(".toList then
        { m with helpers_used := hsInsert m.helpers_used "safe".toList } else m
    (m, true)
  | .element (.mk _ _ attrs _ _ _), m =>
    let m := attrs.foldl (fun m attr =>
      match attr.kind with
      | .dynamic _ expr _ =>
        let m := if rustContainsStr expr "render_class(".toList then
            { m with helpers_used := hsInsert m.helpers_used "render_class".toList } else m
        let m := if rustContainsStr expr "render_style(".toList then
            { m with helpers_used := hsInsert m.helpers_used "render_style".toList } else m
        let m := if rustContainsStr expr "render_attr(".toList then
            { m with helpers_used := hsInsert m.helpers_used "render_attr".toList } else m
        let m := if rustContainsStr expr "render_data(".toList then
            { m with helpers_used := hsInsert m.helpers_used "render_data".toList } else m
        let m := if rustContainsStr expr "render_aria(".toList then
            { m with helpers_used := hsInsert m.helpers_used "render_aria".toList } else m
        m
      | .spread expr _ =>
        if rustContainsStr expr "spread_attrs(".toList then
          { m with helpers_used := hsInsert m.helpers_used "spread_attrs".toList } else m
      | _ => m) m
    (m, true)
  | _, m => (m, true)

/-- `AsyncDetectionPlugin::enter` from `transform/async_detect.rs`. -/
def asyncEnter : Node → TransformMetadata → TransformMetadata × Bool
  | .expression e, m =>
    (if rustContainsStr e.expr "await ".toList then { m with is_async := true } else m, true)
  | .statement s, m =>
    (if rustContainsStr s.stmt "await ".toList then { m with is_async := true } else m, true)
  | .forNode (.mk _ iterable _ _ is_async _), m =>
    (if is_async || rustContainsStr iterable "await ".toList then
      { m with is_async := true } else m, true)
  | .withNode (.mk items _ _ is_async _), m =>
    (if is_async || rustContainsStr items "await ".toList then
      { m with is_async := true } else m, true)
  | .ifNode (.mk condition _ _ _ _ _), m =>
    (if rustContainsStr condition "await ".toList then { m with is_async := true } else m, true)
  | _, m => (m, true)

/-- `SlotDetectionPlugin::enter` from `transform/slot_detect.rs`. -/
def slotEnter : Node → TransformMetadata → TransformMetadata × Bool
  | .slot (.mk name _ _), m =>
    ({ m with slots_used := hsInsert m.slots_used (name.getD []) }, true)
  | .expression e, m =>
    (if e.expr = "...".toList then { m with slots_used := hsInsert m.slots_used [] } else m, true)
  | _, m => (m, true)

/-!
`Transformer::visit_nodes` from `transform/mod.rs`: generic pre-order
walk calling `enter` and recursing into every child-bearing field (the
three standard plugins use the default no-op `exit`).
-/
mutual

def visit_node (enter : Node → TransformMetadata → TransformMetadata × Bool) :
    Node → TransformMetadata → TransformMetadata
  | n, m =>
    let (m, cont) := enter n m
    if cont then
      match n with
      | .element (.mk _ _ _ children _ _) => visit_nodes enter children m
      | .component (.mk _ _ _ children slots _) =>
        visit_slotmap enter slots (visit_nodes enter children m)
      | .fragment (.mk children _) => visit_nodes enter children m
      | .slot (.mk _ fallback _) => visit_nodes enter fallback m
      | .ifNode (.mk _ _ then_branch elifs else_branch _) =>
        visit_optnodes enter else_branch
          (visit_elifs enter elifs (visit_nodes enter then_branch m))
      | .forNode (.mk _ _ _ body _ _) => visit_nodes enter body m
      | .matchNode (.mk _ _ cases _) => visit_cases enter cases m
      | .whileNode (.mk _ _ body _) => visit_nodes enter body m
      | .withNode (.mk _ _ body _ _) => visit_nodes enter body m
      | .tryNode (.mk body excepts else_clause finally_clause _) =>
        visit_optnodes enter finally_clause
          (visit_optnodes enter else_clause
            (visit_excepts enter excepts (visit_nodes enter body m)))
      | .definition (.mk _ _ _ body _) => visit_nodes enter body m
      | _ => m
    else m

def visit_nodes (enter : Node → TransformMetadata → TransformMetadata × Bool) :
    List Node → TransformMetadata → TransformMetadata
  | [], m => m
  | n :: rest, m => visit_nodes enter rest (visit_node enter n m)

def visit_slotmap (enter : Node → TransformMetadata → TransformMetadata × Bool) :
    List (Str × List Node) → TransformMetadata → TransformMetadata
  | [], m => m
  | (_, ns) :: rest, m => visit_slotmap enter rest (visit_nodes enter ns m)

def visit_elifs (enter : Node → TransformMetadata → TransformMetadata × Bool) :
    List (Str × Span × List Node) → TransformMetadata → TransformMetadata
  | [], m => m
  | (_, _, body) :: rest, m => visit_elifs enter rest (visit_nodes enter body m)

def visit_optnodes (enter : Node → TransformMetadata → TransformMetadata × Bool) :
    Option (List Node) → TransformMetadata → TransformMetadata
  | none, m => m
  | some l, m => visit_nodes enter l m

def visit_cases (enter : Node → TransformMetadata → TransformMetadata × Bool) :
    List CaseNode → TransformMetadata → TransformMetadata
  | [], m => m
  | CaseNode.mk _ _ body _ :: rest, m => visit_cases enter rest (visit_nodes enter body m)

def visit_excepts (enter : Node → TransformMetadata → TransformMetadata × Bool) :
    List ExceptClause → TransformMetadata → TransformMetadata
  | [], m => m
  | ExceptClause.mk _ _ body _ :: rest, m =>
    visit_excepts enter rest (visit_nodes enter body m)

end

/-- `standard_plugins().transform(ast)`: the three passes run in
sequence, each as a complete walk. -/
def standardMetadata (nodes : List Node) : TransformMetadata :=
  let m := TransformMetadata.new
  let m := visit_nodes helperEnter nodes m
  let m := visit_nodes asyncEnter nodes m
  visit_nodes slotEnter nodes m

/-! ## `generate/output.rs`: the `Output` accumulator -/

/-- `Mapping` from `generate/output.rs`. -/
structure Mapping where
  gen_line : Nat
  gen_col : Nat
  src_line : Nat
  src_col : Nat
deriving DecidableEq, Repr

/-- `Output` from `generate/output.rs`. -/
structure Output where
  lines : List Str
  current_line : Str
  line_number : Nat
  mappings : List Mapping
  ranges : List Range
deriving Repr

def Output.new : Output :=
  { lines := [], current_line := [], line_number := 0, mappings := [], ranges := [] }

/-- `Output::push`. -/
def Output.push (out : Output) (text : Str) : Output :=
  { out with current_line := out.current_line ++ text }

/-- `Output::push_mapped` (`gen_col` is the byte length of the current
line; unused by the Python generator). -/
def Output.push_mapped (out : Output) (text : Str) (source_pos : Pos) : Output :=
  let start_col := utf8Len out.current_line
  { out with current_line := out.current_line ++ text
             mappings := out.mappings ++
               [{ gen_line := out.line_number, gen_col := start_col,
                  src_line := source_pos.line, src_col := 0 }] }

/-- `Output::newline`. -/
def Output.newline (out : Output) : Output :=
  { out with lines := out.lines ++ [out.current_line ++ ['\n']]
             current_line := []
             line_number := out.line_number + 1 }

/-- `Output::add_range`. -/
def Output.add_range (out : Output) (range : Range) : Output :=
  { out with ranges := out.ranges ++ [range] }

/-- `Output::position`: current UTF-16 position. -/
def Output.position (out : Output) : Nat :=
  utf16Len (out.lines.flatten ++ out.current_line)

/-- `Output::finish`. -/
def Output.finish (out : Output) : Str × List Mapping × List Range :=
  let lines :=
    if out.current_line.isEmpty then out.lines else out.lines ++ [out.current_line]
  (lines.flatten, out.mappings, out.ranges)

/-! ## `generate/python.rs`: the Python generator -/

/-- `PythonGenerator::safe_var_name`. -/
def safe_var_name (name : Str) : Str :=
  if name = "class".toList then "_class".toList
  else if name = "type".toList then "_type".toList
  else name

/-- `PythonGenerator::is_boolean_attribute`. -/
def is_boolean_attribute (name : Str) : Bool :=
  ["disabled".toList, "checked".toList, "readonly".toList, "required".toList,
   "autofocus".toList, "autoplay".toList, "controls".toList, "loop".toList,
   "muted".toList, "selected".toList, "open".toList, "hidden".toList,
   "async".toList, "defer".toList, "novalidate".toList, "formnovalidate".toList,
   "ismap".toList, "multiple".toList, "reversed".toList, "scoped".toList
  ].contains name

/-- `escape_string` from `generate/python.rs`. -/
def escape_string (s : Str) : Str :=
  rustReplace (rustReplace (rustReplace (rustReplace s
    ['\\'] "\\\\".toList) ['"'] "\\\"".toList) ['\n'] "\\n".toList)
    ['\t'] "\\t".toList

/-- ASCII uppercase for `to_pascal_case`. -/
def toAsciiUpper (c : Char) : Char :=
  if 'a' ≤ c && c ≤ 'z' then Char.ofNat (c.toNat - 32) else c

/-- `to_pascal_case` from `generate/python.rs`. -/
def to_pascal_case (s : Str) : Str :=
  ((s.splitOn '_').map fun word =>
    match word with
    | [] => []
    | c :: rest => toAsciiUpper c :: rest).flatten

/-- The indexed loop of `PythonGenerator::component_to_func_name`. -/
def ctfnGo : Str → Nat → Str
  | [], _ => []
  | c :: rest, i =>
    (if rustIsUppercase c ∧ 0 < i then ['_'] else []) ++
      [toAsciiLower c] ++ ctfnGo rest (i + 1)

/-- `PythonGenerator::component_to_func_name`. -/
def component_to_func_name (name : Str) : Str := '_' :: ctfnGo name 0

/-- `PythonGenerator::indent`. -/
def emitIndent (out : Output) (level : Nat) : Output :=
  (List.range level).foldl (fun out _ => out.push "    ".toList) out

/-!
`PythonGenerator::is_combinable`, `node_has_expressions`,
`node_has_markers` — recursive queries over the node tree.
-/
mutual

def is_combinable : Node → Bool
  | .text _ => true
  | .expression _ => true
  | .element (.mk _ _ _ children _ _) => allCombinable children
  | _ => false

def allCombinable : List Node → Bool
  | [] => true
  | n :: rest => is_combinable n && allCombinable rest

end

mutual

def node_has_expressions : Node → Bool
  | .expression _ => true
  | .element (.mk _ _ attrs children _ _) =>
    attrs.any (fun attr =>
      match attr.kind with
      | .static _ _ => false
      | .boolean _ => false
      | _ => true) ||
    anyNodeHasExpressions children
  | _ => false

def anyNodeHasExpressions : List Node → Bool
  | [] => false
  | n :: rest => node_has_expressions n || anyNodeHasExpressions rest

end

mutual

def node_has_markers : Node → Bool
  | .expression e => e.escape
  | .element (.mk _ _ attrs children _ _) =>
    attrs.any (fun attr =>
      match attr.kind with
      | .dynamic name _ _ =>
        name = "class".toList || name = "style".toList || is_boolean_attribute name
      | .shorthand _ _ => true
      | .spread _ _ => true
      | _ => false) ||
    anyNodeHasMarkers children
  | _ => false

def anyNodeHasMarkers : List Node → Bool
  | [] => false
  | n :: rest => node_has_markers n || anyNodeHasMarkers rest

end

/-- `PythonGenerator::content_has_markers`. -/
def content_has_markers (nodes : List Node) : Bool := anyNodeHasMarkers nodes

/-- `PythonGenerator::emit_attribute_content` (not recursive). -/
def emit_attribute_content (attr : AstAttribute) (out : Output) (in_fstring : Bool) :
    Output :=
  match attr.kind with
  | .static name value =>
    ((((out.push " ".toList).push name).push "=\"".toList).push value).push "\"".toList
  | .dynamic name expr expr_span =>
    if in_fstring then
      let out := (out.push " ".toList).push name
      let content_start := expr_span.start.byte + 1
      let content_end := expr_span.stop.byte - 1
      let safe_expr := safe_var_name (rustTrim expr)
      if name = "class".toList then
        let out := out.push "=‹CLASS:\x7b".toList
        let start := out.position
        let out := out.push safe_expr
        let stop := out.position
        let out := out.add_range
          { range_type := .python, source_start := content_start,
            source_end := content_end, compiled_start := start,
            compiled_end := stop, needs_injection := true }
        out.push "\x7d›".toList
      else if name = "style".toList then
        let out := out.push "=‹STYLE:\x7b".toList
        let start := out.position
        let out := out.push safe_expr
        let stop := out.position
        let out := out.add_range
          { range_type := .python, source_start := content_start,
            source_end := content_end, compiled_start := start,
            compiled_end := stop, needs_injection := true }
        out.push "\x7d›".toList
      else if is_boolean_attribute name then
        let out := out.push "=‹BOOL:\x7b".toList
        let start := out.position
        let out := out.push safe_expr
        let stop := out.position
        let out := out.add_range
          { range_type := .python, source_start := content_start,
            source_end := content_end, compiled_start := start,
            compiled_end := stop, needs_injection := true }
        out.push "\x7d›".toList
      else
        let out := out.push "=\"\x7b".toList
        let start := out.position
        let out := out.push safe_expr
        let stop := out.position
        let out := out.add_range
          { range_type := .python, source_start := content_start,
            source_end := content_end, compiled_start := start,
            compiled_end := stop, needs_injection := true }
        out.push "\x7d\"".toList
    else out
  | .boolean name => (out.push " ".toList).push name
  | .shorthand name _ =>
    if in_fstring then
      let out := (out.push " ".toList).push name
      let var_name := safe_var_name name
      if name = "class".toList then
        ((out.push "=‹CLASS:\x7b".toList).push var_name).push "\x7d›".toList
      else if name = "style".toList then
        ((out.push "=‹STYLE:\x7b".toList).push var_name).push "\x7d›".toList
      else if name = "data".toList then
        ((out.push "=‹DATA:\x7b".toList).push var_name).push "\x7d›".toList
      else if name = "aria".toList then
        ((out.push "=‹ARIA:\x7b".toList).push var_name).push "\x7d›".toList
      else if is_boolean_attribute name then
        ((out.push "=‹BOOL:\x7b".toList).push var_name).push "\x7d›".toList
      else
        ((out.push "=‹SPREAD:\x7b".toList).push var_name).push "\x7d›".toList
    else out
  | .spread expr _ =>
    if in_fstring then
      let trimmed_expr := rustTrim expr
      let safe_expr := safe_var_name trimmed_expr
      if trimmed_expr = "class".toList then
        ((out.push " class=‹CLASS:\x7b".toList).push safe_expr).push "\x7d›".toList
      else if trimmed_expr = "style".toList then
        ((out.push " style=‹STYLE:\x7b".toList).push safe_expr).push "\x7d›".toList
      else if trimmed_expr = "data".toList then
        ((out.push " data=‹DATA:\x7b".toList).push safe_expr).push "\x7d›".toList
      else if trimmed_expr = "aria".toList then
        ((out.push " aria=‹ARIA:\x7b".toList).push safe_expr).push "\x7d›".toList
      else
        ((out.push " ‹SPREAD:\x7b".toList).push safe_expr).push "\x7d›".toList
    else out
  | .slotAssignment name expr _ =>
    match expr with
    | some e =>
      if in_fstring then
        (((((out.push " slot:".toList).push name).push "=\"\x7b".toList).push e).push "\x7d\"".toList)
      else out
    | none => ((out.push " slot:".toList).push name)

mutual

/-- `PythonGenerator::emit_node_content`: a node's contribution inside a
merged string literal.  Expression ranges deliberately cover the braces
(`{expr}`), per the source comment "include the braces so they get
f-string highlighting". -/
def emit_node_content : Node → Output → Bool → Output
  | .text t, out, _ => out.push t.content
  | .expression e, out, in_fstring =>
    if in_fstring then
      let (start, stop, out) :=
        if e.escape then
          let out := out.push "‹ESCAPE:".toList
          let start := out.position
          let out := ((out.push "\x7b".toList).push e.expr).push "\x7d".toList
          let stop := out.position
          let out := out.push "›".toList
          (start, stop, out)
        else
          let start := out.position
          let out := ((out.push "\x7b".toList).push e.expr).push "\x7d".toList
          let stop := out.position
          (start, stop, out)
      let content_start := e.span.start.byte
      let content_end := e.span.stop.byte
      out.add_range
        { range_type := .python, source_start := content_start,
          source_end := content_end, compiled_start := start,
          compiled_end := stop, needs_injection := true }
    else out
  | .element el, out, in_fstring => emit_element_content el out in_fstring
  | _, out, _ => out

/-- `PythonGenerator::emit_element_content`. -/
def emit_element_content : ElementNode → Output → Bool → Output
  | .mk tag _ attrs children self_closing _, out, in_fstring =>
    let out := (out.push "<".toList).push tag
    let out := attrs.foldl (fun out attr => emit_attribute_content attr out in_fstring) out
    if self_closing then out.push " />".toList
    else
      let out := out.push ">".toList
      let out := emit_node_contents children out in_fstring
      ((out.push "</".toList).push tag).push ">".toList

def emit_node_contents : List Node → Output → Bool → Output
  | [], out, _ => out
  | n :: rest, out, in_fstring =>
    emit_node_contents rest (emit_node_content n out in_fstring) in_fstring

end

/-- `PythonGenerator::emit_combined_nodes`: a run of combinable nodes as
one `yield` of a (possibly `replace_markers`-wrapped f-)string. -/
def emit_combined_nodes (nodes : List Node) (out : Output) (indent : Nat) : Output :=
  let out := emitIndent out indent
  let has_expressions := anyNodeHasExpressions nodes
  let has_markers := content_has_markers nodes
  let out :=
    if has_markers then out.push "yield replace_markers(f\"\"\"".toList
    else if has_expressions then out.push "yield f\"\"\"".toList
    else out.push "yield \"\"\"".toList
  let out := emit_node_contents nodes out has_expressions
  let out :=
    if has_markers then out.push "\"\"\")".toList
    else out.push "\"\"\"".toList
  out.newline

/-- `PythonGenerator::emit_text`. -/
def emit_text (t : TextNode) (out : Output) (indent : Nat) : Output :=
  let out := emitIndent out indent
  ((((out.push "yield \"".toList).push (escape_string t.content)).push "\"".toList)).newline

/-- `PythonGenerator::emit_expression`. -/
def emit_expression (e : ExpressionNode) (out : Output) (indent : Nat) : Output :=
  let out := emitIndent out indent
  let out :=
    if e.escape then ((out.push "yield escape(".toList).push e.expr).push ")".toList
    else ((out.push "yield str(".toList).push e.expr).push ")".toList
  out.newline

/-- `PythonGenerator::emit_attribute` (the plain-string form). -/
def emit_attribute (attr : AstAttribute) (out : Output) : Output :=
  match attr.kind with
  | .static name value =>
    ((((out.push " ".toList).push name).push "=\\\"".toList).push
      (escape_string value)).push "\\\"".toList
  | .dynamic name expr _ =>
    ((((out.push " ".toList).push name).push "=\\\"\x7b".toList).push expr).push
      "\x7d\\\"".toList
  | .boolean name => (out.push " ".toList).push name
  | .shorthand name _ =>
    ((((out.push " ".toList).push name).push "=\\\"\x7b".toList).push name).push
      "\x7d\\\"".toList
  | .spread expr _ =>
    ((out.push " \x7b".toList).push expr).push "\x7d".toList
  | .slotAssignment name expr _ =>
    match expr with
    | some e =>
      ((((out.push " slot:".toList).push name).push "=\\\"\x7b".toList).push e).push
        "\x7d\\\"".toList
    | none => (out.push " slot:".toList).push name

/-- `PythonGenerator::emit_slot`. -/
def emit_slot (s : SlotNode) (out : Output) (indent : Nat) : Output :=
  let slot_var :=
    match s.name with
    | some name => "_".toList ++ name ++ "_content".toList
    | none => "_content".toList
  let out := emitIndent out indent
  let out := (((out.push "if ".toList).push slot_var).push " is not None:".toList).newline
  let out := emitIndent out (indent + 1)
  (((out.push "yield from ".toList).push slot_var)).newline

/-- `PythonGenerator::emit_statement`, with the reserved-keyword textual
replacements. -/
def emit_statement (stmt : StatementNode) (out : Output) (indent : Nat) : Output :=
  let out := emitIndent out indent
  let statement :=
    rustReplace (rustReplace (rustReplace (rustReplace stmt.stmt
      "class =".toList "_class =".toList)
      "class=".toList "_class=".toList)
      "type =".toList "_type =".toList)
      "type=".toList "_type=".toList
  (out.push statement).newline

/-- `PythonGenerator::emit_import`. -/
def emit_import (imp : ImportNode) (out : Output) (_indent : Nat) : Output :=
  (out.push imp.stmt).newline

/-- `PythonGenerator::emit_decorator`. -/
def emit_decorator (dec : DecoratorNode) (out : Output) (indent : Nat) : Output :=
  ((emitIndent out indent).push dec.decorator).newline

/-!
`PythonGenerator::emit_nodes` / `emit_node` and the statement-level
emitters for child-bearing nodes.  `emitNodesGo` realises the run-merging
loop of `emit_nodes` with an accumulator holding the current combinable
run (flushed, still maximal, at the first non-combinable node or at the
end).
-/
mutual

def emitNodesGo : List Node → List Node → Output → Nat → Output
  | run, [], out, ind =>
    if run.isEmpty then out else emit_combined_nodes run out ind
  | run, n :: rest, out, ind =>
    if is_combinable n then emitNodesGo (run ++ [n]) rest out ind
    else
      let out := if run.isEmpty then out else emit_combined_nodes run out ind
      emitNodesGo [] rest (emit_node n out ind) ind

def emit_node : Node → Output → Nat → Output
  | .text t, out, ind => emit_text t out ind
  | .expression e, out, ind => emit_expression e out ind
  | .element el, out, ind => emit_element el out ind
  | .component c, out, ind => emit_component c out ind
  | .fragment f, out, ind => emit_fragment f out ind
  | .slot s, out, ind => emit_slot s out ind
  | .ifNode i, out, ind => emit_if i out ind
  | .forNode f, out, ind => emit_for f out ind
  | .matchNode m, out, ind => emit_match m out ind
  | .whileNode w, out, ind => emit_while w out ind
  | .withNode w, out, ind => emit_with w out ind
  | .tryNode t, out, ind => emit_try t out ind
  | .statement s, out, ind => emit_statement s out ind
  | .definition d, out, ind => emit_definition d out ind
  | .importNode i, out, ind => emit_import i out ind
  | .parameter _, out, _ => out
  | .decorator d, out, ind => emit_decorator d out ind

/-- `PythonGenerator::emit_element` (children are emitted one by one via
`emit_node`, at the same indent). -/
def emit_element : ElementNode → Output → Nat → Output
  | .mk tag _ attrs children self_closing _, out, ind =>
    let out := emitIndent out ind
    let out := (out.push "yield \"<".toList).push tag
    let out := attrs.foldl (fun out attr => emit_attribute attr out) out
    if self_closing then (out.push " />\"".toList).newline
    else
      let out := (out.push ">\"".toList).newline
      let out := emitElementChildren children out ind
      let out := emitIndent out ind
      (((out.push "yield \"</".toList).push tag).push ">\"".toList).newline

def emitElementChildren : List Node → Output → Nat → Output
  | [], out, _ => out
  | n :: rest, out, ind => emitElementChildren rest (emit_node n out ind) ind

/-- `PythonGenerator::emit_component`. -/
def emit_component : ComponentNode → Output → Nat → Output
  | .mk name _ attrs children _ _, out, ind =>
    if ¬ children.isEmpty then
      let func_name := component_to_func_name name
      let out := emitIndent out ind
      let out := (((out.push "# <\x7b".toList).push name).push "\x7d>".toList).newline
      let out := emitIndent out ind
      let out := (((out.push "def ".toList).push func_name).push "():".toList).newline
      let out := emitNodesGo [] children out (ind + 1)
      let out := emitIndent out ind
      let out := (((((out.push "yield from ".toList).push name).push "(".toList).push
        func_name).push "()".toList)
      let out := attrs.foldl (fun out attr =>
        let out := out.push ", ".toList
        match attr.kind with
        | .static n v =>
          (((out.push n).push "=\"".toList).push (escape_string v)).push "\"".toList
        | .dynamic n e _ => ((out.push n).push "=".toList).push e
        | _ => out) out
      let out := (out.push ")".toList).newline
      let out := emitIndent out ind
      ((((out.push "# </\x7b".toList).push name).push "\x7d>".toList)).newline
    else
      let out := emitIndent out ind
      let out := (((out.push "yield from ".toList).push name).push "(".toList)
      let out := (attrs.foldl (fun (acc : Output × Bool) attr =>
        let (out, first) := acc
        let out := if ¬ first then out.push ", ".toList else out
        let out :=
          match attr.kind with
          | .static n v =>
            (((out.push n).push "=\"".toList).push (escape_string v)).push "\"".toList
          | .dynamic n e _ => ((out.push n).push "=".toList).push e
          | _ => out
        (out, false)) (out, true)).1
      ((out.push ")".toList)).newline

/-- `PythonGenerator::emit_fragment`. -/
def emit_fragment : FragmentNode → Output → Nat → Output
  | .mk children _, out, ind => emitNodesGo [] children out ind

/-- `PythonGenerator::emit_if`: condition range, then branches with a
`pass` placeholder for every empty body. -/
def emit_if : IfNode → Output → Nat → Output
  | .mk condition condition_span then_branch elifs else_branch _, out, ind =>
    let out := emitIndent out ind
    let out := out.push "if ".toList
    let cond := rustTrim (rustTrimEndMatches condition ':')
    let cond_start := out.position
    let out := out.push cond
    let cond_end := out.position
    let source_end := condition_span.start.byte + utf8Len cond
    let out := out.add_range
      { range_type := .python, source_start := condition_span.start.byte,
        source_end := source_end, compiled_start := cond_start,
        compiled_end := cond_end, needs_injection := true }
    let out := (out.push ":".toList).newline
    let out :=
      if then_branch.isEmpty then
        ((emitIndent out (ind + 1)).push "pass".toList).newline
      else emitNodesGo [] then_branch out (ind + 1)
    let out := emitIfElifs elifs out ind
    match else_branch with
    | some eb =>
      let out := ((emitIndent out ind).push "else:".toList).newline
      if eb.isEmpty then ((emitIndent out (ind + 1)).push "pass".toList).newline
      else emitNodesGo [] eb out (ind + 1)
    | none => out

def emitIfElifs : List (Str × Span × List Node) → Output → Nat → Output
  | [], out, _ => out
  | (condition, condition_span, body) :: rest, out, ind =>
    let out := emitIndent out ind
    let out := out.push "elif ".toList
    let cond := rustTrim (rustTrimEndMatches condition ':')
    let cond_start := out.position
    let out := out.push cond
    let cond_end := out.position
    let source_end := condition_span.start.byte + utf8Len cond
    let out := out.add_range
      { range_type := .python, source_start := condition_span.start.byte,
        source_end := source_end, compiled_start := cond_start,
        compiled_end := cond_end, needs_injection := true }
    let out := (out.push ":".toList).newline
    let out :=
      if body.isEmpty then ((emitIndent out (ind + 1)).push "pass".toList).newline
      else emitNodesGo [] body out (ind + 1)
    emitIfElifs rest out ind

/-- `PythonGenerator::emit_for`. -/
def emit_for : ForNode → Output → Nat → Output
  | .mk binding iterable iterable_span body is_async _, out, ind =>
    let out := emitIndent out ind
    let out :=
      if is_async then out.push "async for ".toList else out.push "for ".toList
    let out := (out.push binding).push " in ".toList
    let iter := rustTrim (rustTrimEndMatches iterable ':')
    let iter_start := out.position
    let out := out.push iter
    let iter_end := out.position
    let source_end := iterable_span.start.byte + utf8Len iter
    let out := out.add_range
      { range_type := .python, source_start := iterable_span.start.byte,
        source_end := source_end, compiled_start := iter_start,
        compiled_end := iter_end, needs_injection := true }
    let out := (out.push ":".toList).newline
    if body.isEmpty then ((emitIndent out (ind + 1)).push "pass".toList).newline
    else emitNodesGo [] body out (ind + 1)

/-- `PythonGenerator::emit_match`. -/
def emit_match : MatchNode → Output → Nat → Output
  | .mk expr expr_span cases _, out, ind =>
    let out := emitIndent out ind
    let out := out.push "match ".toList
    let e := rustTrim (rustTrimEndMatches expr ':')
    let expr_start := out.position
    let out := out.push e
    let expr_end := out.position
    let source_end := expr_span.start.byte + utf8Len e
    let out := out.add_range
      { range_type := .python, source_start := expr_span.start.byte,
        source_end := source_end, compiled_start := expr_start,
        compiled_end := expr_end, needs_injection := true }
    let out := (out.push ":".toList).newline
    emitMatchCases cases out ind

def emitMatchCases : List CaseNode → Output → Nat → Output
  | [], out, _ => out
  | CaseNode.mk pattern pattern_span body _ :: rest, out, ind =>
    let out := emitIndent out (ind + 1)
    let out := out.push "case ".toList
    let pat := rustTrim (rustTrimEndMatches pattern ':')
    let pat_start := out.position
    let out := out.push pat
    let pat_end := out.position
    let source_end := pattern_span.start.byte + utf8Len pat
    let out := out.add_range
      { range_type := .python, source_start := pattern_span.start.byte,
        source_end := source_end, compiled_start := pat_start,
        compiled_end := pat_end, needs_injection := true }
    let out := (out.push ":".toList).newline
    let out :=
      if body.isEmpty then ((emitIndent out (ind + 2)).push "pass".toList).newline
      else emitNodesGo [] body out (ind + 2)
    emitMatchCases rest out ind

/-- `PythonGenerator::emit_while`. -/
def emit_while : WhileNode → Output → Nat → Output
  | .mk condition condition_span body _, out, ind =>
    let out := emitIndent out ind
    let out := out.push "while ".toList
    let cond := rustTrim (rustTrimEndMatches condition ':')
    let cond_start := out.position
    let out := out.push cond
    let cond_end := out.position
    let source_end := condition_span.start.byte + utf8Len cond
    let out := out.add_range
      { range_type := .python, source_start := condition_span.start.byte,
        source_end := source_end, compiled_start := cond_start,
        compiled_end := cond_end, needs_injection := true }
    let out := (out.push ":".toList).newline
    if body.isEmpty then ((emitIndent out (ind + 1)).push "pass".toList).newline
    else emitNodesGo [] body out (ind + 1)

/-- `PythonGenerator::emit_with`. -/
def emit_with : WithNode → Output → Nat → Output
  | .mk items items_span body is_async _, out, ind =>
    let out := emitIndent out ind
    let out :=
      if is_async then out.push "async with ".toList else out.push "with ".toList
    let its := rustTrim (rustTrimEndMatches items ':')
    let items_start := out.position
    let out := out.push its
    let items_end := out.position
    let source_end := items_span.start.byte + utf8Len its
    let out := out.add_range
      { range_type := .python, source_start := items_span.start.byte,
        source_end := source_end, compiled_start := items_start,
        compiled_end := items_end, needs_injection := true }
    let out := (out.push ":".toList).newline
    if body.isEmpty then ((emitIndent out (ind + 1)).push "pass".toList).newline
    else emitNodesGo [] body out (ind + 1)

/-- `PythonGenerator::emit_try`. -/
def emit_try : TryNode → Output → Nat → Output
  | .mk body excepts else_clause finally_clause _, out, ind =>
    let out := ((emitIndent out ind).push "try:".toList).newline
    let out :=
      if body.isEmpty then ((emitIndent out (ind + 1)).push "pass".toList).newline
      else emitNodesGo [] body out (ind + 1)
    let out := emitTryExcepts excepts out ind
    let out :=
      match else_clause with
      | some ec =>
        let out := ((emitIndent out ind).push "else:".toList).newline
        if ec.isEmpty then ((emitIndent out (ind + 1)).push "pass".toList).newline
        else emitNodesGo [] ec out (ind + 1)
      | none => out
    match finally_clause with
    | some fc =>
      let out := ((emitIndent out ind).push "finally:".toList).newline
      if fc.isEmpty then ((emitIndent out (ind + 1)).push "pass".toList).newline
      else emitNodesGo [] fc out (ind + 1)
    | none => out

def emitTryExcepts : List ExceptClause → Output → Nat → Output
  | [], out, _ => out
  | ExceptClause.mk exception _ body _ :: rest, out, ind =>
    let out := (emitIndent out ind).push "except".toList
    let out :=
      match exception with
      | some e => (out.push " ".toList).push e
      | none => out
    let out := (out.push ":".toList).newline
    let out :=
      if body.isEmpty then ((emitIndent out (ind + 1)).push "pass".toList).newline
      else emitNodesGo [] body out (ind + 1)
    emitTryExcepts rest out ind

/-- `PythonGenerator::emit_definition`. -/
def emit_definition : DefinitionNode → Output → Nat → Output
  | .mk _ signature _ body _, out, ind =>
    let out := ((emitIndent out ind).push signature).newline
    if body.isEmpty then ((emitIndent out (ind + 1)).push "pass".toList).newline
    else emitNodesGo [] body out (ind + 1)

end

/-- `PythonGenerator::emit_nodes`. -/
def emit_nodes (nodes : List Node) (out : Output) (indent : Nat) : Output :=
  emitNodesGo [] nodes out indent

/-! ## `generate/mod.rs` and `PythonGenerator::generate` -/

/-- `GenerateOptions` from `generate/mod.rs`. -/
structure GenerateOptions where
  function_name : Option Str
  include_ranges : Bool

/-- `GenerateResult` from `generate/mod.rs`. -/
structure GenerateResult where
  code : Str
  mappings : List Mapping
  ranges : List Range
  injections : List Injection

/-- Lexicographic byte order on strings (Rust `String`'s `Ord`), used for
`sorted_slots.sort()`. -/
def strLexLe : Str → Str → Bool
  | [], _ => true
  | _ :: _, [] => false
  | a :: as_, b :: bs =>
    if a.toNat < b.toNat then true
    else if b.toNat < a.toNat then false
    else strLexLe as_ bs

/-- `InjectionAnalyzer::analyze` from `generate/injection_analyzer.rs`:
the ranges tracked during generation pass through unchanged, and the
injections are computed from them.  (`collect_node_ranges`, which would
mark parameter ranges `needs_injection = false`, is never called.) -/
def analyze (code : Str) (ranges : List Range) : List Range × List Injection :=
  (ranges, compute_injections code ranges)

/-- `PythonGenerator::generate` (the `Generator` impl in
`generate/python.rs`). -/
def generate (nodes : List Node) (metadata : TransformMetadata)
    (options : GenerateOptions) : GenerateResult :=
  let output := Output.new
  let parameters := nodes.filterMap fun n =>
    match n with | .parameter p => some p | _ => none
  let imports := nodes.filterMap fun n =>
    match n with | .importNode i => some i | _ => none
  let decorators := nodes.filterMap fun n =>
    match n with | .decorator d => some d | _ => none
  let body_nodes := nodes.filter fun n =>
    match n with
    | .parameter _ => false
    | .importNode _ => false
    | .decorator _ => false
    | _ => true
  let output := imports.foldl (fun out imp => (out.push imp.stmt).newline) output
  let output := decorators.foldl (fun out dec => (out.push dec.decorator).newline) output
  let func_name :=
    match options.function_name with
    | some name => to_pascal_case name
    | none => "Render".toList
  let output :=
    if metadata.is_async then output.push "async def ".toList
    else output.push "def ".toList
  let output := (output.push func_name).push "(".toList
  let has_default_slot := metadata.slots_used.contains ([] : Str)
  let has_named_slots := metadata.slots_used.any fun s => ¬ s.isEmpty
  let (output, param_count) :=
    if has_default_slot then
      (output.push "_content: Iterable[str] | None = None".toList, 1)
    else (output, 0)
  let output :=
    if ¬ parameters.isEmpty then
      let output :=
        if param_count > 0 then output.push ", *, ".toList
        else output.push "*, ".toList
      (parameters.foldl (fun (acc : Output × Nat) param =>
        let (output, i) := acc
        let output := if i > 0 then output.push ", ".toList else output
        let param_start := output.position
        let output := output.push param.name
        let output :=
          match param.type_hint with
          | some type_hint => (output.push ": ".toList).push type_hint
          | none => output
        let output :=
          match param.default with
          | some default => (output.push " = ".toList).push default
          | none => output
        let param_end := output.position
        let output := output.add_range
          { range_type := .python, source_start := param.span.start.byte,
            source_end := param.span.stop.byte, compiled_start := param_start,
            compiled_end := param_end, needs_injection := true }
        (output, i + 1)) (output, 0)).1
    else output
  let output :=
    if has_named_slots then
      let sorted_slots := List.insertionSort (fun a b => strLexLe a b = true)
        (metadata.slots_used.filter fun s => ¬ s.isEmpty)
      sorted_slots.foldl (fun out slot_name =>
        let out :=
          if param_count > 0 ∨ ¬ parameters.isEmpty then out.push ", ".toList
          else out
        ((out.push "_".toList).push slot_name).push
          "_content: Iterable[str] | None = None".toList) output
    else output
  let output := (output.push "):".toList).newline
  let output := emit_nodes body_nodes output 1
  let (code, mappings, tracked_ranges) := output.finish
  let has_default_slot := metadata.slots_used.contains ([] : Str)
  let has_named_slots := metadata.slots_used.any fun s => ¬ s.isEmpty
  let needs_iterable := has_default_slot || has_named_slots
  let hyper_imports := ["component".toList]
  let hyper_imports :=
    if rustContainsChar code '‹' then hyper_imports ++ ["replace_markers".toList]
    else hyper_imports
  let hyper_imports :=
    if metadata.helpers_used.contains "escape".toList ||
        rustContainsStr code "escape(".toList then
      hyper_imports ++ ["escape".toList]
    else hyper_imports
  let hyper_imports :=
    if metadata.helpers_used.contains "safe".toList then
      hyper_imports ++ ["safe".toList]
    else hyper_imports
  let import_lines :=
    if needs_iterable then "from collections.abc import Iterable\n".toList else []
  let import_lines := import_lines ++ "from hyper import ".toList ++
    List.intercalate ", ".toList hyper_imports ++ ['\n']
  let import_lines := import_lines ++ "\n\n".toList
  let import_lines := import_lines ++ "@component\n".toList
  let (code, import_offset) :=
    match rustFind code "async def ".toList with
    | some def_pos =>
      (code.take def_pos ++ import_lines ++ code.drop def_pos, utf8Len import_lines)
    | none =>
      match rustFind code "def ".toList with
      | some def_pos =>
        (code.take def_pos ++ import_lines ++ code.drop def_pos, utf8Len import_lines)
      | none => (import_lines ++ code, utf8Len import_lines)
  let (ranges, injections) :=
    if options.include_ranges then
      let adjusted_ranges := tracked_ranges.map fun r =>
        { r with compiled_start := r.compiled_start + import_offset
                 compiled_end := r.compiled_end + import_offset }
      analyze code adjusted_ranges
    else ([], [])
  { code := code, mappings := mappings, ranges := ranges, injections := injections }

/-- Modelled from the spec: the `Pipeline` driver used by `main.rs` is
not among the sources (only its callers are).  Spec §2's data flow is
source → Lexer → Tree Builder → Transform Passes → Code Generator, which
this composition realises from the in-source stages. -/
def compile (o : Str → Bool) (source : Str) (options : GenerateOptions) :
    Option (Except ParseError GenerateResult) :=
  match parse o source with
  | .ok nodes _ => some (.ok (generate nodes (standardMetadata nodes) options))
  | .err e => some (.error e)
  | .out => none

/-! ## C1: ordering and suffix shape of `compute_injections` -/

/-- The per-type ranges selected and sorted by `compute_injections`. -/
def selectedRanges (ranges : List Range) (t : RangeType) : List Range :=
  List.insertionSort rangeLe
    (ranges.filter fun r => r.range_type == t && r.needs_injection)

theorem computeInjectionsGo_nil (ts code : Str) (p : Nat) :
    computeInjectionsGo ts code p [] = [] := rfl

theorem compute_injections_eq (code : Str) (ranges : List Range) :
    compute_injections code ranges =
      computeInjectionsGo (rangeTypeStr .python) code 0 (selectedRanges ranges .python) ++
      computeInjectionsGo (rangeTypeStr .html) code 0 (selectedRanges ranges .html) := by
  unfold compute_injections selectedRanges
  simp only [List.flatMap_cons, List.flatMap_nil, List.append_nil]
  congr 1
  · by_cases h : (List.insertionSort rangeLe
      (ranges.filter fun r => r.range_type == RangeType.python && r.needs_injection)).isEmpty
    · rw [if_pos h]
      rw [List.isEmpty_iff] at h
      rw [h, computeInjectionsGo_nil]
    · rw [if_neg h]
  · by_cases h : (List.insertionSort rangeLe
      (ranges.filter fun r => r.range_type == RangeType.html && r.needs_injection)).isEmpty
    · rw [if_pos h]
      rw [List.isEmpty_iff] at h
      rw [h, computeInjectionsGo_nil]
    · rw [if_neg h]

theorem computeInjectionsGo_type (ts code : Str) :
    ∀ (rs : List Range) (p : Nat) (x : Injection),
      x ∈ computeInjectionsGo ts code p rs → x.injection_type = ts := by
  intro rs
  induction rs with
  | nil => intro p x hx; simp [computeInjectionsGo] at hx
  | cons r rest ih =>
    intro p x hx
    cases rest with
    | nil =>
      simp only [computeInjectionsGo, List.mem_singleton] at hx
      subst hx; rfl
    | cons r2 rest2 =>
      simp only [computeInjectionsGo, List.mem_cons] at hx
      rcases hx with h | h
      · subst h; rfl
      · exact ih _ _ h

theorem computeInjectionsGo_pairs (ts code : Str) :
    ∀ (rs : List Range) (p : Nat),
      (computeInjectionsGo ts code p rs).map (fun i => (i.start, i.stop)) =
        rs.map fun r => (r.source_start, r.source_end) := by
  intro rs
  induction rs with
  | nil => intro p; rfl
  | cons r rest ih =>
    intro p
    cases rest with
    | nil => rfl
    | cons r2 rest2 =>
      simp only [computeInjectionsGo, List.map_cons]
      rw [ih]
      rfl

theorem computeInjectionsGo_dropLast_suffix (ts code : Str) :
    ∀ (rs : List Range) (p : Nat) (x : Injection),
      x ∈ (computeInjectionsGo ts code p rs).dropLast → x.suffix = [] := by
  intro rs
  induction rs with
  | nil => intro p x hx; simp [computeInjectionsGo] at hx
  | cons r rest ih =>
    intro p x hx
    cases rest with
    | nil => simp [computeInjectionsGo] at hx
    | cons r2 rest2 =>
      have hcons : ∃ y ys, computeInjectionsGo ts code r.compiled_end (r2 :: rest2) = y :: ys := by
        cases rest2 with
        | nil => exact ⟨_, _, rfl⟩
        | cons r3 rest3 => exact ⟨_, _, rfl⟩
      obtain ⟨y, ys, hy⟩ := hcons
      simp only [computeInjectionsGo, hy, List.dropLast_cons₂, List.mem_cons] at hx
      rcases hx with h | h
      · subst h; rfl
      · rw [← hy] at h
        exact ih _ _ h

theorem selectedRanges_sorted (ranges : List Range) (t : RangeType) :
    List.Sorted rangeLe (selectedRanges ranges t) :=
  List.sorted_insertionSort rangeLe _

theorem compute_injections_filter_eq (code : Str) (ranges : List Range)
    (t : RangeType) :
    (compute_injections code ranges).filter
        (fun i => i.injection_type == rangeTypeStr t) =
      computeInjectionsGo (rangeTypeStr t) code 0 (selectedRanges ranges t) := by
  rw [compute_injections_eq, List.filter_append]
  have hself : ∀ (t' : RangeType), (computeInjectionsGo (rangeTypeStr t') code 0
      (selectedRanges ranges t')).filter
        (fun i => i.injection_type == rangeTypeStr t') =
      computeInjectionsGo (rangeTypeStr t') code 0 (selectedRanges ranges t') := by
    intro t'
    apply List.filter_eq_self.mpr
    intro x hx
    have := computeInjectionsGo_type _ _ _ _ x hx
    simp [this]
  have hother : ∀ (t1 t2 : RangeType), t1 ≠ t2 →
      (computeInjectionsGo (rangeTypeStr t1) code 0
        (selectedRanges ranges t1)).filter
          (fun i => i.injection_type == rangeTypeStr t2) = [] := by
    intro t1 t2 hne
    apply List.filter_eq_nil_iff.mpr
    intro x hx
    have hx' := computeInjectionsGo_type _ _ _ _ x hx
    rw [hx']
    cases t1 <;> cases t2 <;> simp_all <;> decide
  cases t
  · rw [hself .python, hother .html .python (by decide)]
    simp
  · rw [hself .html, hother .python .html (by decide)]
    simp

/-- C1: for each fragment kind (`python`, `html`), `compute_injections`
selects the ranges of that kind with `needs_injection` set, sorted by
`source_start`; the per-kind injections carry exactly those
(source-start, source-end) pairs in sorted order, and every injection of
a kind other than its last carries the empty suffix (so only the last
one can carry a non-empty suffix). -/
theorem compute_injections_per_kind_sorted_and_suffixes
    (code : Str) (ranges : List Range) (t : RangeType) :
    List.Sorted rangeLe (selectedRanges ranges t) ∧
    ((compute_injections code ranges).filter
        (fun i => i.injection_type == rangeTypeStr t)).map
          (fun i => (i.start, i.stop)) =
      (selectedRanges ranges t).map (fun r => (r.source_start, r.source_end)) ∧
    List.Pairwise (fun a b => a.start ≤ b.start)
      ((compute_injections code ranges).filter
        (fun i => i.injection_type == rangeTypeStr t)) ∧
    ∀ x ∈ ((compute_injections code ranges).filter
        (fun i => i.injection_type == rangeTypeStr t)).dropLast,
      x.suffix = [] := by
  refine ⟨selectedRanges_sorted ranges t, ?_, ?_, ?_⟩
  · rw [compute_injections_filter_eq]
    exact computeInjectionsGo_pairs _ _ _ _
  · rw [compute_injections_filter_eq]
    have hsorted := selectedRanges_sorted ranges t
    have hpairsStarts : List.Pairwise (fun a b : Nat × Nat => a.1 ≤ b.1)
        ((selectedRanges ranges t).map fun r => (r.source_start, r.source_end)) := by
      rw [List.pairwise_map]
      exact hsorted
    rw [← computeInjectionsGo_pairs (rangeTypeStr t) code (selectedRanges ranges t) 0]
      at hpairsStarts
    rw [List.pairwise_map] at hpairsStarts
    exact hpairsStarts
  · rw [compute_injections_filter_eq]
    exact fun x hx => computeInjectionsGo_dropLast_suffix _ _ _ _ x hx

def c1Code : Str := "0123456789".toList

def c1Ranges : List Range :=
  [{ range_type := .python, source_start := 5, source_end := 6,
     compiled_start := 4, compiled_end := 5, needs_injection := true },
   { range_type := .python, source_start := 1, source_end := 2,
     compiled_start := 2, compiled_end := 3, needs_injection := true }]

/-- Witness for C1 at a concrete input: the two python ranges come back
sorted by source position, and the first (non-last) injection's suffix is
empty. -/
theorem compute_injections_per_kind_witness :
    ((compute_injections c1Code c1Ranges).filter
        (fun i => i.injection_type == rangeTypeStr .python)).map
          (fun i => (i.start, i.stop)) = [(1, 2), (5, 6)] ∧
    { injection_type := "python".toList, start := 1, stop := 2,
      prefixStr := [Char.toNat '0', Char.toNat '1'],
      suffix := [] : Injection }.suffix = ([] : List Nat) := by
  constructor
  · have h := (compute_injections_per_kind_sorted_and_suffixes c1Code c1Ranges .python).2.1
    rw [h]
    decide
  · exact (compute_injections_per_kind_sorted_and_suffixes c1Code c1Ranges .python).2.2.2
      _ (by decide)

/-!
## Pipeline projections and concrete oracles

Helpers that project the interesting pieces out of a `compile` / `parse`
result, plus concrete classifier-oracle instances used where a closed
statement is needed.
-/

/-- Ranges of a successful compile, `none` on error or fuel exhaustion. -/
def resultRanges : Option (Except ParseError GenerateResult) → Option (List Range)
  | some (.ok r) => some r.ranges
  | _ => none

/-- Generated code of a successful compile. -/
def resultCode : Option (Except ParseError GenerateResult) → Option Str
  | some (.ok r) => some r.code
  | _ => none

/-- Error kind of a failed compile. -/
def resultErrKind : Option (Except ParseError GenerateResult) → Option ErrorKind
  | some (.error e) => some e.kind
  | _ => none

/-- Related span of a failed compile's error. -/
def resultErrRelated : Option (Except ParseError GenerateResult) → Option (Option Span)
  | some (.error e) => some e.related_span
  | _ => none

/-- Error kind of a failed parse. -/
def parseErrKind {α : Type} : PR α → Option ErrorKind
  | .err e => some e.kind
  | _ => none

/-- Related span of a failed parse's error. -/
def parseErrRelated {α : Type} : PR α → Option (Option Span)
  | .err e => some e.related_span
  | _ => none

/-- A tree-sitter oracle instance under which no line parses as a Python
statement.  The concrete runs below never reach an oracle call whose answer
matters, so any instance would do; this one makes the statements closed. -/
def treeSitterNone : Str → Bool := fun _ => false

/-- The standard options used by the analysis pipeline: default function
name, source-range tracking enabled. -/
def optsInj : GenerateOptions := { function_name := none, include_ranges := true }

/-!
## C3: needs_injection on parameter ranges

The spec says `needs_injection` is false exactly for parameter ranges.  In
the live generation path (`PythonGenerator::generate`), the range pushed
for each declared parameter is constructed with `needs_injection: true`;
the analyzer path that would set it to false (`collect_node_ranges`) is
never invoked by the pipeline.  On the input
"name: str\n---\n<div>\x7bname\x7d</div>" the parameter declaration
"name: str" occupies source bytes [0, 9), and its range comes back with
`needs_injection = true`.
-/

/-- C3: on the input "name: str\n---\n<div>\x7bname\x7d</div>" the full
pipeline produces exactly two ranges — the parameter range over source
bytes [0, 9) (the declaration "name: str") and the expression range over
[19, 25) — and both carry `needs_injection = true`.  In particular the
parameter range does not carry `needs_injection = false`, contradicting
the spec sentence that parameters are the ranges with the flag unset. -/
theorem parameter_range_needs_injection_true : ∀ (o : Str → Bool),
    resultRanges (compile o "name: str\n---\n<div>\x7bname\x7d</div>".toList optsInj) =
      some [{ range_type := .python, source_start := 0, source_end := 9,
              compiled_start := 80, compiled_end := 89, needs_injection := true },
            { range_type := .python, source_start := 19, source_end := 25,
              compiled_start := 135, compiled_end := 141, needs_injection := true }] ∧
    ∀ r ∈ ([{ range_type := .python, source_start := 0, source_end := 9,
               compiled_start := 80, compiled_end := 89, needs_injection := true },
            { range_type := .python, source_start := 19, source_end := 25,
              compiled_start := 135, compiled_end := 141, needs_injection := true }] : List Range),
      r.needs_injection = true :=
  fun _ => ⟨rfl, by decide⟩

/-!
## C4: which source bytes a range covers

In the source, `emit_node_content` records an expression's range with
`source_start = expr.span.start.byte` and `source_end = expr.span.end.byte`,
and the tokenizer's expression span includes the surrounding braces.  So
for "name: str\n---\n<div>\x7bname\x7d</div>" the expression range covers
bytes [19, 25) — the whole "\x7bname\x7d" — and no range covers [20, 24),
the bare identifier, refuting the claim's "not the enclosing braces" part.
Dynamic attribute values, by contrast, get a content range that excludes
the braces, control-flow iterables get a range excluding the trailing
colon, and shorthand/spread attribute values produce no range at all.
-/

set_option maxHeartbeats 8000000 in
/-- C4 counterexample: on the claim's own input
"name: str\n---\n<div>\x7bname\x7d</div>", no produced range covers the
source byte span [20, 24) of the bare identifier "name", while exactly one
range covers [19, 25), the expression including its enclosing braces. -/
theorem expression_range_includes_braces_cex :
    ((resultRanges (compile treeSitterNone
        "name: str\n---\n<div>\x7bname\x7d</div>".toList optsInj)).getD []).countP
      (fun r => r.source_start == 20 && r.source_end == 24) = 0 ∧
    ((resultRanges (compile treeSitterNone
        "name: str\n---\n<div>\x7bname\x7d</div>".toList optsInj)).getD []).countP
      (fun r => r.source_start == 19 && r.source_end == 25) = 1 := by
  exact ⟨by decide, by decide⟩

set_option maxHeartbeats 16000000 in
/-- C4 amended: each source construct produces exactly the ranges the code
computes, with these spans.  (1) An expression node's range covers the
expression INCLUDING the enclosing braces: on
"name: str\n---\n<div>\x7bname\x7d</div>" the two ranges are the parameter
declaration [0, 9) and the braced expression [19, 25).  (2) A dynamic
attribute value's range excludes the braces: on "<div a=\x7bx\x7d></div>\n"
the single range covers just "x" at [8, 9).  (3) A control-flow
condition range excludes the trailing colon: on "if flag:\nend" the single
range covers "flag" at [3, 7), with the colon at byte 7 excluded.
(4) A shorthand/spread attribute value produces NO range: on
"<div \x7bx\x7d></div>\n" the range list is empty. -/
theorem range_spans_per_construct : ∀ (o : Str → Bool),
    resultRanges (compile o "name: str\n---\n<div>\x7bname\x7d</div>".toList optsInj) =
      some [{ range_type := .python, source_start := 0, source_end := 9,
              compiled_start := 80, compiled_end := 89, needs_injection := true },
            { range_type := .python, source_start := 19, source_end := 25,
              compiled_start := 135, compiled_end := 141, needs_injection := true }] ∧
    resultRanges (compile o "<div a=\x7bx\x7d></div>\n".toList optsInj) =
      some [{ range_type := .python, source_start := 8, source_end := 9,
              compiled_start := 78, compiled_end := 79, needs_injection := true }] ∧
    resultRanges (compile o "if flag:\nend".toList optsInj) =
      some [{ range_type := .python, source_start := 3, source_end := 7,
              compiled_start := 62, compiled_end := 66, needs_injection := true }] ∧
    resultRanges (compile o "<div \x7bx\x7d></div>\n".toList optsInj) = some [] :=
  fun _ => ⟨rfl, rfl, rfl, rfl⟩

/-!
## C6: void elements must be self-closing

`parse_node` raises `VoidElementWithContent` for a non-self-closing open
tag of a void element, and accepts the self-closing form as a childless
element node.
-/

/-- Does a parse result consist of exactly one element node with the given
tag, no children, and the self-closing flag set? -/
def isSingleEmptyElement (tag : Str) : PR (List Node) → Bool
  | .ok [Node.element (.mk t _ _ children self_closing _)] _ =>
      t == tag && children.isEmpty && self_closing
  | _ => false

/-- C6: for every tag on the fixed void-element allowlist, the
non-self-closing open tag `<tag>` fails to parse with kind
`VoidElementWithContent`, while the self-closing form `<tag />` parses to
exactly one element node with that tag and no children. -/
theorem void_elements_require_self_closing : ∀ (o : Str → Bool),
    VOID_ELEMENTS.all (fun t =>
      (parseErrKind (parse o ('<' :: (t ++ ">\n".toList))) ==
        some .VoidElementWithContent) &&
      isSingleEmptyElement t (parse o ('<' :: (t ++ " />\n".toList)))) = true :=
  fun _ => rfl

/-!
## C8: empty bodies get exactly one pass placeholder
-/

/-- The character sequence `PythonGenerator::indent` emits for a given
indentation level: `level` copies of four spaces. -/
def indentChars (n : Nat) : Str := (List.replicate n "    ".toList).flatten

theorem Output.push_push (out : Output) (a b : Str) :
    (out.push a).push b = out.push (a ++ b) := by
  simp [Output.push]

theorem emitIndent_eq (out : Output) (n : Nat) :
    emitIndent out n = out.push (indentChars n) := by
  induction n with
  | zero => simp [emitIndent, indentChars, Output.push]
  | succ n ih =>
    rw [emitIndent, List.range_succ, List.foldl_append]
    rw [emitIndent] at ih
    rw [ih]
    simp only [List.foldl_cons, List.foldl_nil]
    rw [Output.push_push]
    have h : indentChars n ++ "    ".toList = indentChars (n + 1) := by
      rw [indentChars, indentChars, List.replicate_succ', List.flatten_append]
      simp
    rw [h]

/-- C8: every control-flow emitter whose body (or clause body) is empty
emits exactly one `pass` placeholder line as that body, one indentation
level deeper than the header: shown for if/elif/else, for, match case,
while, with, try/except/else/finally and def/class definitions, and on the
concrete input "if flag:\nend", whose generated code contains exactly one
occurrence of "pass". -/
theorem empty_body_emits_single_pass :
    (∀ (condition c2 : Str) (cs cs2 sp : Span) (out : Output) (ind : Nat),
      (emit_if (.mk condition cs [] [(c2, cs2, [])] (some []) sp) out ind).lines =
        out.lines ++
          [out.current_line ++ indentChars ind ++ "if ".toList ++
             rustTrim (rustTrimEndMatches condition ':') ++ ":\n".toList,
           indentChars (ind + 1) ++ "pass\n".toList,
           indentChars ind ++ "elif ".toList ++
             rustTrim (rustTrimEndMatches c2 ':') ++ ":\n".toList,
           indentChars (ind + 1) ++ "pass\n".toList,
           indentChars ind ++ "else:\n".toList,
           indentChars (ind + 1) ++ "pass\n".toList]) ∧
    (∀ (binding iterable : Str) (isp sp : Span) (is_async : Bool) (out : Output) (ind : Nat),
      (emit_for (.mk binding iterable isp [] is_async sp) out ind).lines =
        out.lines ++
          [out.current_line ++ indentChars ind ++
             (if is_async then "async for ".toList else "for ".toList) ++ binding ++
             " in ".toList ++ rustTrim (rustTrimEndMatches iterable ':') ++ ":\n".toList,
           indentChars (ind + 1) ++ "pass\n".toList]) ∧
    (∀ (e pat : Str) (esp psp csp sp : Span) (out : Output) (ind : Nat),
      (emit_match (.mk e esp [.mk pat psp [] csp] sp) out ind).lines =
        out.lines ++
          [out.current_line ++ indentChars ind ++ "match ".toList ++
             rustTrim (rustTrimEndMatches e ':') ++ ":\n".toList,
           indentChars (ind + 1) ++ "case ".toList ++
             rustTrim (rustTrimEndMatches pat ':') ++ ":\n".toList,
           indentChars (ind + 2) ++ "pass\n".toList]) ∧
    (∀ (condition : Str) (cs sp : Span) (out : Output) (ind : Nat),
      (emit_while (.mk condition cs [] sp) out ind).lines =
        out.lines ++
          [out.current_line ++ indentChars ind ++ "while ".toList ++
             rustTrim (rustTrimEndMatches condition ':') ++ ":\n".toList,
           indentChars (ind + 1) ++ "pass\n".toList]) ∧
    (∀ (items : Str) (isp sp : Span) (is_async : Bool) (out : Output) (ind : Nat),
      (emit_with (.mk items isp [] is_async sp) out ind).lines =
        out.lines ++
          [out.current_line ++ indentChars ind ++
             (if is_async then "async with ".toList else "with ".toList) ++
             rustTrim (rustTrimEndMatches items ':') ++ ":\n".toList,
           indentChars (ind + 1) ++ "pass\n".toList]) ∧
    (∀ (exc : Str) (esp xsp sp : Span) (out : Output) (ind : Nat),
      (emit_try (.mk [] [.mk (some exc) (some esp) [] xsp] (some []) (some []) sp)
          out ind).lines =
        out.lines ++
          [out.current_line ++ indentChars ind ++ "try:\n".toList,
           indentChars (ind + 1) ++ "pass\n".toList,
           indentChars ind ++ "except ".toList ++ exc ++ ":\n".toList,
           indentChars (ind + 1) ++ "pass\n".toList,
           indentChars ind ++ "else:\n".toList,
           indentChars (ind + 1) ++ "pass\n".toList,
           indentChars ind ++ "finally:\n".toList,
           indentChars (ind + 1) ++ "pass\n".toList]) ∧
    (∀ (kind : DefinitionKind) (signature : Str) (ssp sp : Span) (out : Output) (ind : Nat),
      (emit_definition (.mk kind signature ssp [] sp) out ind).lines =
        out.lines ++
          [out.current_line ++ indentChars ind ++ signature ++ ['\n'],
           indentChars (ind + 1) ++ "pass\n".toList]) ∧
    (∀ (o : Str → Bool),
      resultCode (compile o "if flag:\nend".toList optsInj) =
        some "from hyper import component\n\n\n@component\ndef Render():\n    if flag:\n        pass\n".toList ∧
      rustMatchCount
        "from hyper import component\n\n\n@component\ndef Render():\n    if flag:\n        pass\n".toList
        "pass".toList = 1) := by
  refine ⟨?_, ?_, ?_, ?_, ?_, ?_, ?_, ?_⟩
  · intro condition c2 cs cs2 sp out ind
    simp [emit_if, emitIfElifs, emitIndent_eq, Output.push, Output.newline,
      Output.add_range, List.append_assoc]
  · intro binding iterable isp sp is_async out ind
    cases is_async <;>
      simp [emit_for, emitIndent_eq, Output.push, Output.newline,
        Output.add_range, List.append_assoc]
  · intro e pat esp psp csp sp out ind
    simp [emit_match, emitMatchCases, emitIndent_eq, Output.push, Output.newline,
      Output.add_range, List.append_assoc]
  · intro condition cs sp out ind
    simp [emit_while, emitIndent_eq, Output.push, Output.newline,
      Output.add_range, List.append_assoc]
  · intro items isp sp is_async out ind
    cases is_async <;>
      simp [emit_with, emitIndent_eq, Output.push, Output.newline,
        Output.add_range, List.append_assoc]
  · intro exc esp xsp sp out ind
    simp [emit_try, emitTryExcepts, emitIndent_eq, Output.push, Output.newline,
      Output.add_range, List.append_assoc]
  · intro kind signature ssp sp out ind
    simp [emit_definition, emitIndent_eq, Output.push, Output.newline,
      List.append_assoc]
  · intro o
    exact ⟨rfl, by decide⟩

/-!
## C9: attribute-keyword rewriting in emitted statements

`emit_statement` runs four plain textual `replace` calls over the raw
statement text — "class =", "class=", "type =", "type=" each get an
underscore prefixed — before pushing the line.  The replacement is purely
textual: it fires inside string literals and inside longer identifiers.
-/

/-- An oracle instance under which the single line of the C9 input is
classified as a Python statement, as the real tree-sitter classifier
does for an assignment. -/
def treeSitterAssignC9 : Str → Bool := fun s => s == "x = \"class=a\"".toList

/-- C9: the generator emits a statement node as the statement text with
every "class =", "class=", "type =", "type=" occurrence replaced by its
underscore-prefixed form, plus indentation and a newline; the replacement
fires inside a string literal ("x = \"class=a\"" emits "x = \"_class=a\"",
also end-to-end through the pipeline) and inside a longer identifier
("subtype = 1" emits "sub_type = 1"), so such statements are not emitted
verbatim. -/
theorem statement_attribute_keywords_rewritten :
    (∀ (stmt : Str) (sp : Span) (out : Output) (ind : Nat),
      (emit_statement ⟨stmt, sp⟩ out ind).lines =
        out.lines ++
          [out.current_line ++ indentChars ind ++
             rustReplace (rustReplace (rustReplace (rustReplace stmt
               "class =".toList "_class =".toList)
               "class=".toList "_class=".toList)
               "type =".toList "_type =".toList)
               "type=".toList "_type=".toList ++ ['\n']]) ∧
    (∀ (sp : Span),
      (emit_statement ⟨"x = \"class=a\"".toList, sp⟩ Output.new 0).lines =
        ["x = \"_class=a\"\n".toList] ∧
      (emit_statement ⟨"subtype = 1".toList, sp⟩ Output.new 0).lines =
        ["sub_type = 1\n".toList]) ∧
    resultCode (compile treeSitterAssignC9 "x = \"class=a\"".toList optsInj) =
      some "from hyper import component\n\n\n@component\ndef Render():\n    x = \"_class=a\"\n".toList := by
  refine ⟨?_, ?_, rfl⟩
  · intro stmt sp out ind
    simp [emit_statement, emitIndent_eq, Output.push, Output.newline,
      List.append_assoc]
  · intro sp
    exact ⟨rfl, rfl⟩

/-!
## C10: MismatchedCloseTag is never reported

`parse_node` consumes a non-matching `htmlElementClose`, `componentClose`
or `slotClose` token and returns no node and no diagnostic; the error kind
`MismatchedCloseTag` exists in `ErrorKind` but no code path constructs it.
-/

/-- Every error an intermediate tree-builder result can carry has a kind
other than `MismatchedCloseTag`. -/
def NC (r : PRg) : Prop :=
  ∀ e, r = PRg.err e → e.kind ≠ ErrorKind.MismatchedCloseTag

theorem NC_ok (v : TBVal) (st : TreeBuilder) : NC (.ok v st) :=
  fun _ h => nomatch h

theorem NC_out : NC .out := fun _ h => nomatch h

theorem NC_err {e' : ParseError} (hk : e'.kind ≠ ErrorKind.MismatchedCloseTag) :
    NC (.err e') := fun e h => by cases h; exact hk

theorem NC_bindOptNode {r : PRg} {f : Option Node → TreeBuilder → PRg}
    (hr : NC r) (hf : ∀ v st, NC (f v st)) : NC (r.bindOptNode f) := by
  cases r with
  | ok val st =>
    cases val
    case optNode v => exact hf v st
    all_goals exact NC_out
  | err e => exact NC_err (hr e rfl)
  | out => exact NC_out

theorem NC_bindNodes {r : PRg} {f : List Node → TreeBuilder → PRg}
    (hr : NC r) (hf : ∀ v st, NC (f v st)) : NC (r.bindNodes f) := by
  cases r with
  | ok val st =>
    cases val
    case nodes v => exact hf v st
    all_goals exact NC_out
  | err e => exact NC_err (hr e rfl)
  | out => exact NC_out

theorem NC_bindComps {r : PRg}
    {f : List Node × List (Str × List Node) → TreeBuilder → PRg}
    (hr : NC r) (hf : ∀ v st, NC (f v st)) : NC (r.bindComps f) := by
  cases r with
  | ok val st =>
    cases val
    case comps v => exact hf v st
    all_goals exact NC_out
  | err e => exact NC_err (hr e rfl)
  | out => exact NC_out

theorem NC_bindIfConts {r : PRg}
    {f : List (Str × Span × List Node) × Option (List Node) → TreeBuilder → PRg}
    (hr : NC r) (hf : ∀ v st, NC (f v st)) : NC (r.bindIfConts f) := by
  cases r with
  | ok val st =>
    cases val
    case ifConts v => exact hf v st
    all_goals exact NC_out
  | err e => exact NC_err (hr e rfl)
  | out => exact NC_out

theorem NC_bindCases {r : PRg} {f : List CaseNode → TreeBuilder → PRg}
    (hr : NC r) (hf : ∀ v st, NC (f v st)) : NC (r.bindCases f) := by
  cases r with
  | ok val st =>
    cases val
    case cases v => exact hf v st
    all_goals exact NC_out
  | err e => exact NC_err (hr e rfl)
  | out => exact NC_out

theorem NC_bindTryConts {r : PRg}
    {f : List ExceptClause × Option (List Node) × Option (List Node) →
      TreeBuilder → PRg}
    (hr : NC r) (hf : ∀ v st, NC (f v st)) : NC (r.bindTryConts f) := by
  cases r with
  | ok val st =>
    cases val
    case tryConts v => exact hf v st
    all_goals exact NC_out
  | err e => exact NC_err (hr e rfl)
  | out => exact NC_out

/-- `expect_end` only ever reports `UnclosedBlock`, related to the opener. -/
theorem expect_end_error {st : TreeBuilder} {kw : Str} {sp : Span}
    {e : ParseError} (h : expect_end st kw sp = .error e) :
    e.kind = ErrorKind.UnclosedBlock ∧ e.related_span = some sp := by
  unfold expect_end at h
  split at h
  · exact absurd h (by simp)
  · cases h
    exact ⟨rfl, rfl⟩

/-- `check_nesting` only ever reports `InvalidNesting`. -/
theorem check_nesting_error {st : TreeBuilder} {t : Str} {s : Span}
    {e : ParseError} (h : check_nesting st t s = .error e) :
    e.kind = ErrorKind.InvalidNesting := by
  unfold check_nesting at h
  split at h
  · split at h
    · cases h; rfl
    · split at h
      · cases h; rfl
      · exact absurd h (by simp)
  · exact absurd h (by simp)

theorem checkDupGo_error : ∀ (attrs : List AstAttribute)
    (seen : List (Str × Span)) {e : ParseError},
    checkDupGo attrs seen = .error e → e.kind = ErrorKind.DuplicateAttribute := by
  intro attrs
  induction attrs with
  | nil => intro seen e h; exact absurd h (by simp [checkDupGo])
  | cons attr rest ih =>
    intro seen e h
    unfold checkDupGo at h
    split at h
    · split at h
      · cases h; rfl
      · exact ih _ h
    · exact ih _ h

/-- `check_duplicate_attributes` only ever reports `DuplicateAttribute`. -/
theorem check_dup_error {attrs : List AstAttribute} {e : ParseError}
    (h : check_duplicate_attributes attrs = .error e) :
    e.kind = ErrorKind.DuplicateAttribute :=
  checkDupGo_error attrs [] h

/-- `parse_parameter` never fails. -/
theorem parse_parameter_no_err {st : TreeBuilder} {code : Str} {sp : Span}
    {e : ParseError} : parse_parameter st code sp ≠ .err e := by
  by_cases hc : (rustSplitn2 code [':']).length ≠ 2 <;>
    simp [parse_parameter, hc] <;>
    split <;> simp

/-- No tree-builder step, at any fuel, returns an error whose kind is
`MismatchedCloseTag`. -/
theorem tbStep_NC : ∀ (fuel : Nat) (call : TBCall), NC (tbStep fuel call) := by
  intro fuel
  induction fuel with
  | zero => intro call; exact NC_out
  | succ fuel ih =>
    intro call
    cases call
    all_goals (
      simp only [tbStep]
      repeat'
        first
        | exact NC_ok _ _
        | exact NC_out
        | exact ih _
        | exact NC_err (by
            simp only [ParseError.with_help, ParseError.with_related,
              ParseError.with_related_label, ParseError.new]
            simp)
        | (apply NC_bindOptNode (ih _); intro v st_x)
        | (apply NC_bindNodes (ih _); intro ns st_x)
        | (apply NC_bindComps (ih _); intro cs st_x)
        | (apply NC_bindIfConts (ih _); intro ic st_x)
        | (apply NC_bindCases (ih _); intro cas st_x)
        | (apply NC_bindTryConts (ih _); intro tc st_x)
        | (rename_i heq
           first
           | exact absurd heq parse_parameter_no_err
           | exact NC_err (by have h2 := (expect_end_error heq).1; simp [h2])
           | exact NC_err (by have h2 := check_nesting_error heq; simp [h2])
           | exact NC_err (by have h2 := check_dup_error heq; simp [h2]))
        | split)

/-- Nodes of a successful parse. -/
def parseNodes : PR (List Node) → Option (List Node)
  | .ok ns _ => some ns
  | _ => none

/-- Lifting `tbStep_NC` through `TreeBuilder::build`. -/
theorem build_err_kind {fuel : Nat} {st : TreeBuilder} {e : ParseError}
    (h : build fuel st = .err e) : e.kind ≠ ErrorKind.MismatchedCloseTag := by
  unfold build at h
  revert h
  cases htb : tbStep fuel (.buildCall st) with
  | ok val st2 => cases val <;> intro h <;> exact absurd h (by simp)
  | err e2 => intro h; cases h; exact tbStep_NC fuel _ _ htb
  | out => intro h; exact absurd h (by simp)

/-- C10: the parser never reports `MismatchedCloseTag` on any input —
every stray closing tag is silently consumed without a diagnostic — and
the input "</div></span>\n", consisting only of closing tags, parses
successfully to an empty node list. -/
theorem mismatched_close_never_reported :
    (∀ (o : Str → Bool) (source : Str) (e : ParseError),
      parse o source = PR.err e → e.kind ≠ ErrorKind.MismatchedCloseTag) ∧
    (∀ (o : Str → Bool), parseNodes (parse o "</div></span>\n".toList) = some []) :=
  ⟨fun _ _ _ h => build_err_kind h, fun _ => rfl⟩

/-- Witness for C10 at a concrete erroring input: parsing "<br>\n" fails
with the void-element error, whose kind is not `MismatchedCloseTag`. -/
theorem mismatched_close_witness :
    ({ kind := ErrorKind.VoidElementWithContent,
       message := "<br> cannot have content or a closing tag.".toList,
       span := { start := { byte := 0, line := 0, col := 0 },
                 stop := { byte := 4, line := 0, col := 4 } },
       related_span := none, related_label := none,
       help := some "<br> is a void element (like <img>, <input>, <hr>). Write it as <br /> instead.".toList } : ParseError).kind ≠
      ErrorKind.MismatchedCloseTag :=
  mismatched_close_never_reported.1 treeSitterNone "<br>\n".toList _ rfl

/-!
## C5: unclosed constructs

Machinery: inversion lemmas for the `PRg` binds, a token-suffix invariant
for `tbStep` (the tree builder only ever consumes tokens), and from these:
if no matching close token exists, the element/component/slot loops can
never succeed, and when they fail the error is either the corresponding
`Unclosed*` error related to the opener or an error raised by an inner
`parse_node` call.
-/

theorem bindOptNode_ok_inv {r : PRg} {f : Option Node → TreeBuilder → PRg}
    {v : TBVal} {st' : TreeBuilder} (h : PRg.bindOptNode r f = .ok v st') :
    ∃ n st1, r = .ok (.optNode n) st1 ∧ f n st1 = .ok v st' := by
  cases r with
  | ok val st =>
    cases val
    case optNode n => exact ⟨n, st, rfl, h⟩
    all_goals exact absurd h (by simp [PRg.bindOptNode])
  | err e => exact absurd h (by simp [PRg.bindOptNode])
  | out => exact absurd h (by simp [PRg.bindOptNode])

theorem bindNodes_ok_inv {r : PRg} {f : List Node → TreeBuilder → PRg}
    {v : TBVal} {st' : TreeBuilder} (h : PRg.bindNodes r f = .ok v st') :
    ∃ n st1, r = .ok (.nodes n) st1 ∧ f n st1 = .ok v st' := by
  cases r with
  | ok val st =>
    cases val
    case nodes n => exact ⟨n, st, rfl, h⟩
    all_goals exact absurd h (by simp [PRg.bindNodes])
  | err e => exact absurd h (by simp [PRg.bindNodes])
  | out => exact absurd h (by simp [PRg.bindNodes])

theorem bindComps_ok_inv {r : PRg}
    {f : List Node × List (Str × List Node) → TreeBuilder → PRg}
    {v : TBVal} {st' : TreeBuilder} (h : PRg.bindComps r f = .ok v st') :
    ∃ n st1, r = .ok (.comps n) st1 ∧ f n st1 = .ok v st' := by
  cases r with
  | ok val st =>
    cases val
    case comps n => exact ⟨n, st, rfl, h⟩
    all_goals exact absurd h (by simp [PRg.bindComps])
  | err e => exact absurd h (by simp [PRg.bindComps])
  | out => exact absurd h (by simp [PRg.bindComps])

theorem bindIfConts_ok_inv {r : PRg}
    {f : List (Str × Span × List Node) × Option (List Node) → TreeBuilder → PRg}
    {v : TBVal} {st' : TreeBuilder} (h : PRg.bindIfConts r f = .ok v st') :
    ∃ n st1, r = .ok (.ifConts n) st1 ∧ f n st1 = .ok v st' := by
  cases r with
  | ok val st =>
    cases val
    case ifConts n => exact ⟨n, st, rfl, h⟩
    all_goals exact absurd h (by simp [PRg.bindIfConts])
  | err e => exact absurd h (by simp [PRg.bindIfConts])
  | out => exact absurd h (by simp [PRg.bindIfConts])

theorem bindCases_ok_inv {r : PRg} {f : List CaseNode → TreeBuilder → PRg}
    {v : TBVal} {st' : TreeBuilder} (h : PRg.bindCases r f = .ok v st') :
    ∃ n st1, r = .ok (.cases n) st1 ∧ f n st1 = .ok v st' := by
  cases r with
  | ok val st =>
    cases val
    case cases n => exact ⟨n, st, rfl, h⟩
    all_goals exact absurd h (by simp [PRg.bindCases])
  | err e => exact absurd h (by simp [PRg.bindCases])
  | out => exact absurd h (by simp [PRg.bindCases])

theorem bindTryConts_ok_inv {r : PRg}
    {f : List ExceptClause × Option (List Node) × Option (List Node) →
      TreeBuilder → PRg}
    {v : TBVal} {st' : TreeBuilder} (h : PRg.bindTryConts r f = .ok v st') :
    ∃ n st1, r = .ok (.tryConts n) st1 ∧ f n st1 = .ok v st' := by
  cases r with
  | ok val st =>
    cases val
    case tryConts n => exact ⟨n, st, rfl, h⟩
    all_goals exact absurd h (by simp [PRg.bindTryConts])
  | err e => exact absurd h (by simp [PRg.bindTryConts])
  | out => exact absurd h (by simp [PRg.bindTryConts])

theorem bindOptNode_err_inv {r : PRg} {f : Option Node → TreeBuilder → PRg}
    {e : ParseError} (h : PRg.bindOptNode r f = .err e) :
    r = .err e ∨ ∃ n st1, r = .ok (.optNode n) st1 ∧ f n st1 = .err e := by
  cases r with
  | ok val st =>
    cases val
    case optNode n => exact .inr ⟨n, st, rfl, h⟩
    all_goals exact absurd h (by simp [PRg.bindOptNode])
  | err e2 => exact .inl h
  | out => exact absurd h (by simp [PRg.bindOptNode])

theorem bindNodes_err_inv {r : PRg} {f : List Node → TreeBuilder → PRg}
    {e : ParseError} (h : PRg.bindNodes r f = .err e) :
    r = .err e ∨ ∃ n st1, r = .ok (.nodes n) st1 ∧ f n st1 = .err e := by
  cases r with
  | ok val st =>
    cases val
    case nodes n => exact .inr ⟨n, st, rfl, h⟩
    all_goals exact absurd h (by simp [PRg.bindNodes])
  | err e2 => exact .inl h
  | out => exact absurd h (by simp [PRg.bindNodes])

theorem bindComps_err_inv {r : PRg}
    {f : List Node × List (Str × List Node) → TreeBuilder → PRg}
    {e : ParseError} (h : PRg.bindComps r f = .err e) :
    r = .err e ∨ ∃ n st1, r = .ok (.comps n) st1 ∧ f n st1 = .err e := by
  cases r with
  | ok val st =>
    cases val
    case comps n => exact .inr ⟨n, st, rfl, h⟩
    all_goals exact absurd h (by simp [PRg.bindComps])
  | err e2 => exact .inl h
  | out => exact absurd h (by simp [PRg.bindComps])

/-- The tree-builder state a call descriptor starts from. -/
def callState : TBCall → TreeBuilder
  | .node st => st
  | .controlFlow _ _ _ _ st => st
  | .ifCall _ _ _ st => st
  | .ifConts _ st => st
  | .forCall _ _ _ _ st => st
  | .whileCall _ _ _ st => st
  | .matchCall _ _ _ st => st
  | .matchCases _ st => st
  | .withCall _ _ _ _ st => st
  | .tryCall _ st => st
  | .tryConts _ _ st => st
  | .functionCall _ _ _ st => st
  | .classCall _ _ st => st
  | .untilBlockEnd st => st
  | .untilCaseEnd st => st
  | .untilElementClose _ _ st => st
  | .untilComponentClose _ _ st => st
  | .untilSlotClose _ _ st => st
  | .buildCall st => st

/-- "Every success state's tokens are a suffix of `ts`". -/
def S (r : PRg) (ts : List Token) : Prop :=
  ∀ v st', r = PRg.ok v st' → st'.tokens.IsSuffix ts

theorem S_out {ts : List Token} : S .out ts := fun _ _ h => nomatch h

theorem S_err {e : ParseError} {ts : List Token} : S (.err e) ts :=
  fun _ _ h => nomatch h

theorem S_ok {v : TBVal} {st' : TreeBuilder} {ts : List Token}
    (h : st'.tokens.IsSuffix ts) : S (.ok v st') ts := by
  intro v2 st2 h2
  cases h2
  exact h

theorem S_mono {r : PRg} {ts ts' : List Token} (hr : S r ts)
    (h : ts.IsSuffix ts') : S r ts' :=
  fun v st' hok => (hr v st' hok).trans h

theorem S_bindOptNode {r : PRg} {f : Option Node → TreeBuilder → PRg}
    {ts : List Token} (hr : S r ts)
    (hf : ∀ n st1, S (f n st1) st1.tokens) : S (r.bindOptNode f) ts := by
  intro v st' h
  rcases bindOptNode_ok_inv h with ⟨n, st1, h1, h2⟩
  exact (hf n st1 v st' h2).trans (hr _ _ h1)

theorem S_bindNodes {r : PRg} {f : List Node → TreeBuilder → PRg}
    {ts : List Token} (hr : S r ts)
    (hf : ∀ n st1, S (f n st1) st1.tokens) : S (r.bindNodes f) ts := by
  intro v st' h
  rcases bindNodes_ok_inv h with ⟨n, st1, h1, h2⟩
  exact (hf n st1 v st' h2).trans (hr _ _ h1)

theorem S_bindComps {r : PRg}
    {f : List Node × List (Str × List Node) → TreeBuilder → PRg}
    {ts : List Token} (hr : S r ts)
    (hf : ∀ n st1, S (f n st1) st1.tokens) : S (r.bindComps f) ts := by
  intro v st' h
  rcases bindComps_ok_inv h with ⟨n, st1, h1, h2⟩
  exact (hf n st1 v st' h2).trans (hr _ _ h1)

theorem S_bindIfConts {r : PRg}
    {f : List (Str × Span × List Node) × Option (List Node) → TreeBuilder → PRg}
    {ts : List Token} (hr : S r ts)
    (hf : ∀ n st1, S (f n st1) st1.tokens) : S (r.bindIfConts f) ts := by
  intro v st' h
  rcases bindIfConts_ok_inv h with ⟨n, st1, h1, h2⟩
  exact (hf n st1 v st' h2).trans (hr _ _ h1)

theorem S_bindCases {r : PRg} {f : List CaseNode → TreeBuilder → PRg}
    {ts : List Token} (hr : S r ts)
    (hf : ∀ n st1, S (f n st1) st1.tokens) : S (r.bindCases f) ts := by
  intro v st' h
  rcases bindCases_ok_inv h with ⟨n, st1, h1, h2⟩
  exact (hf n st1 v st' h2).trans (hr _ _ h1)

theorem S_bindTryConts {r : PRg}
    {f : List ExceptClause × Option (List Node) × Option (List Node) →
      TreeBuilder → PRg}
    {ts : List Token} (hr : S r ts)
    (hf : ∀ n st1, S (f n st1) st1.tokens) : S (r.bindTryConts f) ts := by
  intro v st' h
  rcases bindTryConts_ok_inv h with ⟨n, st1, h1, h2⟩
  exact (hf n st1 v st' h2).trans (hr _ _ h1)

theorem skipStructuralGo_suffix : ∀ (ts : List Token),
    (skipStructuralGo ts).IsSuffix ts := by
  intro ts
  induction ts with
  | nil => exact List.suffix_refl _
  | cons t rest ih =>
    cases t <;>
      first
        | exact List.suffix_refl _
        | (simp only [skipStructuralGo]
           exact ih.trans (List.suffix_cons _ _))

/-- `expect_end` succeeds only by consuming the `end` token. -/
theorem expect_end_ok {st st' : TreeBuilder} {kw : Str} {sp : Span}
    (h : expect_end st kw sp = .ok st') : st' = st.advance := by
  unfold expect_end at h
  split at h
  · cases h; rfl
  · exact absurd h (by simp)

/-- `parse_parameter` always returns the one-token-advanced state. -/
theorem parse_parameter_ok_state {st st' : TreeBuilder} {code : Str} {sp : Span}
    {v : Option Node} (h : parse_parameter st code sp = .ok v st') :
    st' = st.advance := by
  revert h
  by_cases hc : (rustSplitn2 code [':']).length ≠ 2 <;>
    simp [parse_parameter, hc] <;>
    (try split) <;>
    (intro h1 h2; exact h2.symm)

/-- Token-suffix invariant: every successful tree-builder step ends in a
state whose token list is a suffix of the starting state's. -/
theorem tbStep_S : ∀ (fuel : Nat) (call : TBCall),
    S (tbStep fuel call) (callState call).tokens := by
  intro fuel
  induction fuel with
  | zero => intro call; exact S_out
  | succ fuel ih =>
    intro call
    cases call
    all_goals (
      simp only [tbStep, callState]
      repeat'
        first
        | exact S_out
        | exact S_err
        | exact S_ok (List.suffix_refl _)
        | exact S_ok (List.tail_suffix _)
        | exact ih _
        | exact S_mono (ih _) (List.tail_suffix _)
        | exact S_mono (ih _) (skipStructuralGo_suffix _)
        | exact S_mono (ih _) ((skipStructuralGo_suffix _).trans (List.tail_suffix _))
        | apply S_bindOptNode
        | apply S_bindNodes
        | apply S_bindComps
        | apply S_bindIfConts
        | apply S_bindCases
        | apply S_bindTryConts
        | (rename_i heq
           first
           | exact S_ok (by rw [expect_end_ok heq]; exact List.tail_suffix _)
           | exact S_ok (by rw [parse_parameter_ok_state heq]; exact List.tail_suffix _))
        | split
        | intro a1 a2)

/-- No closing tag for `tag` occurs among the tokens. -/
def noElementClose (tag : Str) (tokens : List Token) : Bool :=
  tokens.all fun t =>
    match t with
    | .htmlElementClose ct _ => !(ct == tag)
    | _ => true

/-- No closing tag for component `name` occurs among the tokens. -/
def noComponentClose (name : Str) (tokens : List Token) : Bool :=
  tokens.all fun t =>
    match t with
    | .componentClose cn _ => !(cn == name)
    | _ => true

/-- No closing tag for slot `name` occurs among the tokens. -/
def noSlotClose (name : Option Str) (tokens : List Token) : Bool :=
  tokens.all fun t =>
    match t with
    | .slotClose cn _ => !(cn == name)
    | _ => true

theorem all_of_suffix {α : Type} {p : α → Bool} {ts ts' : List α}
    (h : ts'.all p = true) (hs : ts.IsSuffix ts') : ts.all p = true := by
  rw [List.all_eq_true] at h ⊢
  exact fun x hx => h x (hs.subset hx)

/-- If the tokens hold no matching close tag, the element-children loop
can never succeed. -/
theorem untilElementClose_not_ok (tag : Str) (osp : Span) :
    ∀ (fuel : Nat) (st : TreeBuilder),
      noElementClose tag st.tokens = true →
      ∀ (v : TBVal) (st' : TreeBuilder),
        tbStep fuel (.untilElementClose tag osp st) ≠ .ok v st' := by
  intro fuel
  induction fuel with
  | zero => intro st h v st' hc; simp [tbStep] at hc
  | succ fuel ih =>
    intro st h v st' hc
    simp only [tbStep] at hc
    split at hc
    · exact absurd hc (by simp)
    · split at hc
      · rename_i hm
        revert hm
        cases hpk : st.tokens with
        | nil => simp [TreeBuilder.peek, hpk]
        | cons t rest =>
          cases t <;> simp [TreeBuilder.peek, hpk]
          intro hct
          simp [noElementClose, hpk, hct] at h
      · rcases bindOptNode_ok_inv hc with ⟨n, st1, h1, h2⟩
        rcases bindNodes_ok_inv h2 with ⟨ns, st2, h3, _⟩
        have hsfx : st1.tokens.IsSuffix st.tokens := tbStep_S fuel (.node st) _ _ h1
        exact ih st1 (all_of_suffix h hsfx) _ _ h3

/-- If the tokens hold no matching component close, the component loop can
never succeed. -/
theorem untilComponentClose_not_ok (name : Str) (osp : Span) :
    ∀ (fuel : Nat) (st : TreeBuilder),
      noComponentClose name st.tokens = true →
      ∀ (v : TBVal) (st' : TreeBuilder),
        tbStep fuel (.untilComponentClose name osp st) ≠ .ok v st' := by
  intro fuel
  induction fuel with
  | zero => intro st h v st' hc; simp [tbStep] at hc
  | succ fuel ih =>
    intro st h v st' hc
    simp only [tbStep] at hc
    split at hc
    · exact absurd hc (by simp)
    · split at hc
      · rename_i hm
        revert hm
        cases hpk : st.tokens with
        | nil => simp [TreeBuilder.peek, hpk]
        | cons t rest =>
          cases t <;> simp [TreeBuilder.peek, hpk]
          intro hct
          simp [noComponentClose, hpk, hct] at h
      · rcases bindOptNode_ok_inv hc with ⟨n, st1, h1, h2⟩
        rcases bindComps_ok_inv h2 with ⟨ns, st2, h3, _⟩
        have hsfx : st1.tokens.IsSuffix st.tokens := tbStep_S fuel (.node st) _ _ h1
        exact ih st1 (all_of_suffix h hsfx) _ _ h3

/-- If the tokens hold no matching slot close, the slot-fallback loop can
never succeed. -/
theorem untilSlotClose_not_ok (name : Option Str) (osp : Span) :
    ∀ (fuel : Nat) (st : TreeBuilder),
      noSlotClose name st.tokens = true →
      ∀ (v : TBVal) (st' : TreeBuilder),
        tbStep fuel (.untilSlotClose name osp st) ≠ .ok v st' := by
  intro fuel
  induction fuel with
  | zero => intro st h v st' hc; simp [tbStep] at hc
  | succ fuel ih =>
    intro st h v st' hc
    simp only [tbStep] at hc
    split at hc
    · exact absurd hc (by simp)
    · split at hc
      · rename_i hm
        revert hm
        cases hpk : st.tokens with
        | nil => simp [TreeBuilder.peek, hpk]
        | cons t rest =>
          cases t <;> simp [TreeBuilder.peek, hpk]
          intro hct
          simp [noSlotClose, hpk, hct] at h
      · rcases bindOptNode_ok_inv hc with ⟨n, st1, h1, h2⟩
        rcases bindNodes_ok_inv h2 with ⟨ns, st2, h3, _⟩
        have hsfx : st1.tokens.IsSuffix st.tokens := tbStep_S fuel (.node st) _ _ h1
        exact ih st1 (all_of_suffix h hsfx) _ _ h3

/-- When the element-children loop fails, the error is either the
`UnclosedElement` error related to the opening tag's span, or an error
raised by an inner `parse_node` call. -/
theorem untilElementClose_err (tag : Str) (osp : Span) :
    ∀ (fuel : Nat) (st : TreeBuilder) (e : ParseError),
      tbStep fuel (.untilElementClose tag osp st) = .err e →
      (e.kind = ErrorKind.UnclosedElement ∧ e.related_span = some osp) ∨
      (∃ (f : Nat) (st2 : TreeBuilder), tbStep f (.node st2) = .err e) := by
  intro fuel
  induction fuel with
  | zero => intro st e h; simp [tbStep] at h
  | succ fuel ih =>
    intro st e h
    simp only [tbStep] at h
    split at h
    · cases h; exact .inl ⟨rfl, rfl⟩
    · split at h
      · exact absurd h (by simp)
      · rcases bindOptNode_err_inv h with h1 | ⟨n, st1, h1, h2⟩
        · exact .inr ⟨fuel, st, h1⟩
        · rcases bindNodes_err_inv h2 with h3 | ⟨ns, st2, h3, h4⟩
          · exact ih st1 e h3
          · exact absurd h4 (by simp)

/-- Component analogue of `untilElementClose_err`. -/
theorem untilComponentClose_err (name : Str) (osp : Span) :
    ∀ (fuel : Nat) (st : TreeBuilder) (e : ParseError),
      tbStep fuel (.untilComponentClose name osp st) = .err e →
      (e.kind = ErrorKind.UnclosedComponent ∧ e.related_span = some osp) ∨
      (∃ (f : Nat) (st2 : TreeBuilder), tbStep f (.node st2) = .err e) := by
  intro fuel
  induction fuel with
  | zero => intro st e h; simp [tbStep] at h
  | succ fuel ih =>
    intro st e h
    simp only [tbStep] at h
    split at h
    · cases h; exact .inl ⟨rfl, rfl⟩
    · split at h
      · exact absurd h (by simp)
      · rcases bindOptNode_err_inv h with h1 | ⟨n, st1, h1, h2⟩
        · exact .inr ⟨fuel, st, h1⟩
        · rcases bindComps_err_inv h2 with h3 | ⟨ns, st2, h3, h4⟩
          · exact ih st1 e h3
          · exact absurd h4 (by simp)

/-- Slot analogue of `untilElementClose_err`. -/
theorem untilSlotClose_err (name : Option Str) (osp : Span) :
    ∀ (fuel : Nat) (st : TreeBuilder) (e : ParseError),
      tbStep fuel (.untilSlotClose name osp st) = .err e →
      (e.kind = ErrorKind.UnclosedSlot ∧ e.related_span = some osp) ∨
      (∃ (f : Nat) (st2 : TreeBuilder), tbStep f (.node st2) = .err e) := by
  intro fuel
  induction fuel with
  | zero => intro st e h; simp [tbStep] at h
  | succ fuel ih =>
    intro st e h
    simp only [tbStep] at h
    split at h
    · split at h <;> (cases h; exact .inl ⟨rfl, rfl⟩)
    · split at h
      · exact absurd h (by simp)
      · rcases bindOptNode_err_inv h with h1 | ⟨n, st1, h1, h2⟩
        · exact .inr ⟨fuel, st, h1⟩
        · rcases bindNodes_err_inv h2 with h3 | ⟨ns, st2, h3, h4⟩
          · exact ih st1 e h3
          · exact absurd h4 (by simp)

/-- C5 counterexample: the input "<div><br>\n" leaves its `<div>` element
unclosed (no `</div>` token is ever produced), yet parsing fails with
`VoidElementWithContent` — raised for the inner `<br>` before the element
loop can reach end of input — and the error's related span is `none`, not
a span pointing at the `<div>` opener.  So not every input missing a close
fails with an `Unclosed*` kind related to the opener. -/
theorem unclosed_error_preempted_cex :
    noElementClose "div".toList (tokenize treeSitterNone "<div><br>\n".toList) = true ∧
    parseErrKind (parse treeSitterNone "<div><br>\n".toList) =
      some ErrorKind.VoidElementWithContent ∧
    parseErrRelated (parse treeSitterNone "<div><br>\n".toList) = some none :=
  ⟨by decide, rfl, rfl⟩

/-- C5 amended: when an element, component, or slot is opened and no
matching close token follows, the corresponding parse loop can never
succeed; when such a loop fails, the error is either the matching
`Unclosed*` kind with its related span at the opener, or an error raised
by an inner `parse_node` call (which can preempt the `Unclosed*` report,
as the counterexample shows); a missing `end` surfaces through
`expect_end`, whose only error is `UnclosedBlock` related to the opening
keyword's span.  Concretely, "<div>\n", "<\x7bCard\x7d>\n",
"<\x7b...items\x7d>\n" and "if x:\n" fail with `UnclosedElement`,
`UnclosedComponent`, `UnclosedSlot` and `UnclosedBlock` respectively, each
with the related span at the opener. -/
theorem unclosed_construct_fails_with_opener :
    (∀ (tag : Str) (osp : Span) (fuel : Nat) (st : TreeBuilder),
      noElementClose tag st.tokens = true →
      ∀ (v : TBVal) (st' : TreeBuilder),
        tbStep fuel (.untilElementClose tag osp st) ≠ .ok v st') ∧
    (∀ (tag : Str) (osp : Span) (fuel : Nat) (st : TreeBuilder) (e : ParseError),
      tbStep fuel (.untilElementClose tag osp st) = .err e →
      (e.kind = ErrorKind.UnclosedElement ∧ e.related_span = some osp) ∨
      (∃ (f : Nat) (st2 : TreeBuilder), tbStep f (.node st2) = .err e)) ∧
    (∀ (name : Str) (osp : Span) (fuel : Nat) (st : TreeBuilder),
      noComponentClose name st.tokens = true →
      ∀ (v : TBVal) (st' : TreeBuilder),
        tbStep fuel (.untilComponentClose name osp st) ≠ .ok v st') ∧
    (∀ (name : Str) (osp : Span) (fuel : Nat) (st : TreeBuilder) (e : ParseError),
      tbStep fuel (.untilComponentClose name osp st) = .err e →
      (e.kind = ErrorKind.UnclosedComponent ∧ e.related_span = some osp) ∨
      (∃ (f : Nat) (st2 : TreeBuilder), tbStep f (.node st2) = .err e)) ∧
    (∀ (name : Option Str) (osp : Span) (fuel : Nat) (st : TreeBuilder),
      noSlotClose name st.tokens = true →
      ∀ (v : TBVal) (st' : TreeBuilder),
        tbStep fuel (.untilSlotClose name osp st) ≠ .ok v st') ∧
    (∀ (name : Option Str) (osp : Span) (fuel : Nat) (st : TreeBuilder) (e : ParseError),
      tbStep fuel (.untilSlotClose name osp st) = .err e →
      (e.kind = ErrorKind.UnclosedSlot ∧ e.related_span = some osp) ∨
      (∃ (f : Nat) (st2 : TreeBuilder), tbStep f (.node st2) = .err e)) ∧
    (∀ (st : TreeBuilder) (kw : Str) (osp : Span) (e : ParseError),
      expect_end st kw osp = .error e →
      e.kind = ErrorKind.UnclosedBlock ∧ e.related_span = some osp) ∧
    (∀ (o : Str → Bool),
      parseErrKind (parse o "<div>\n".toList) = some ErrorKind.UnclosedElement ∧
      parseErrRelated (parse o "<div>\n".toList) =
        some (some { start := { byte := 0, line := 0, col := 0 },
                     stop := { byte := 5, line := 0, col := 5 } }) ∧
      parseErrKind (parse o "<\x7bCard\x7d>\n".toList) =
        some ErrorKind.UnclosedComponent ∧
      parseErrRelated (parse o "<\x7bCard\x7d>\n".toList) =
        some (some { start := { byte := 0, line := 0, col := 0 },
                     stop := { byte := 8, line := 0, col := 8 } }) ∧
      parseErrKind (parse o "<\x7b...items\x7d>\n".toList) =
        some ErrorKind.UnclosedSlot ∧
      parseErrRelated (parse o "<\x7b...items\x7d>\n".toList) =
        some (some { start := { byte := 0, line := 0, col := 0 },
                     stop := { byte := 12, line := 0, col := 12 } }) ∧
      parseErrKind (parse o "if x:\n".toList) = some ErrorKind.UnclosedBlock ∧
      parseErrRelated (parse o "if x:\n".toList) =
        some (some { start := { byte := 0, line := 0, col := 0 },
                     stop := { byte := 5, line := 0, col := 5 } })) :=
  ⟨fun tag osp => untilElementClose_not_ok tag osp,
   fun tag osp => untilElementClose_err tag osp,
   fun name osp => untilComponentClose_not_ok name osp,
   fun name osp => untilComponentClose_err name osp,
   fun name osp => untilSlotClose_not_ok name osp,
   fun name osp => untilSlotClose_err name osp,
   fun _ _ _ _ h => expect_end_error h,
   fun _ => ⟨rfl, rfl, rfl, rfl, rfl, rfl, rfl, rfl⟩⟩

/-- Witness for C5 at concrete inputs: `expect_end` on an empty token
stream fails with `UnclosedBlock` related to the opener span, and the
element-close loop on an empty (closeless) token stream is not a
success. -/
theorem unclosed_construct_witness :
    ((((ParseError.new ErrorKind.UnclosedBlock
        "This 'if' block is never closed.".toList
        { start := { byte := 0, line := 0, col := 0 },
          stop := { byte := 0, line := 0, col := 0 } }).with_related
        { start := { byte := 0, line := 0, col := 0 },
          stop := { byte := 5, line := 0, col := 5 } }).with_help
        "Close with 'end'".toList).kind = ErrorKind.UnclosedBlock ∧
      ((((ParseError.new ErrorKind.UnclosedBlock
        "This 'if' block is never closed.".toList
        { start := { byte := 0, line := 0, col := 0 },
          stop := { byte := 0, line := 0, col := 0 } }).with_related
        { start := { byte := 0, line := 0, col := 0 },
          stop := { byte := 5, line := 0, col := 5 } }).with_help
        "Close with 'end'".toList)).related_span =
        some { start := { byte := 0, line := 0, col := 0 },
               stop := { byte := 5, line := 0, col := 5 } }) ∧
    tbStep 1 (.untilElementClose "div".toList
        { start := { byte := 0, line := 0, col := 0 },
          stop := { byte := 5, line := 0, col := 5 } }
        (TreeBuilder.new [] [])) ≠
      PRg.ok (TBVal.nodes []) (TreeBuilder.new [] []) :=
  ⟨unclosed_construct_fails_with_opener.2.2.2.2.2.2.1
      (TreeBuilder.new [] []) "if".toList
      { start := { byte := 0, line := 0, col := 0 },
        stop := { byte := 5, line := 0, col := 5 } } _ rfl,
   unclosed_construct_fails_with_opener.1 "div".toList
      { start := { byte := 0, line := 0, col := 0 },
        stop := { byte := 5, line := 0, col := 5 } } 1
      (TreeBuilder.new [] []) (by decide) (TBVal.nodes []) (TreeBuilder.new [] [])⟩

/-!
## C7: the lexer is total and ends in an EOF token

`tokenize` supplies fuel `source.length + 1` to the line loop; every
`tokenize_line` call away from EOF strictly shrinks the unconsumed rest,
so the fuel never runs out and the loop always reaches the `Eof` marker.
The lemmas below establish that every consuming helper is non-increasing
on the rest, and strictly decreasing where `tokenize_line` relies on it.
-/

theorem consumeIndentGo_le : ∀ (s : Str) (p : Pos),
    (consumeIndentGo s p).2.1.length ≤ s.length := by
  intro s
  induction s with
  | nil => intro p; simp [consumeIndentGo]
  | cons c rest ih =>
    intro p
    by_cases h1 : c = ' '
    · subst h1; exact le_trans (ih _) (Nat.le_succ _)
    · by_cases h2 : c = '\t'
      · subst h2; exact le_trans (ih _) (Nat.le_succ _)
      · simp [consumeIndentGo, h1, h2]

theorem consumeToEolGo_le : ∀ (s : Str) (p : Pos),
    (consumeToEolGo s p).2.1.length ≤ s.length := by
  intro s
  induction s with
  | nil => intro p; simp [consumeToEolGo]
  | cons c rest ih =>
    intro p
    simp only [consumeToEolGo]
    split
    · simp
    · exact le_trans (ih _) (Nat.le_succ _)

theorem skipWsInlineGo_le : ∀ (s : Str) (p : Pos),
    (skipWsInlineGo s p).1.length ≤ s.length := by
  intro s
  induction s with
  | nil => intro p; simp [skipWsInlineGo]
  | cons c rest ih =>
    intro p
    simp only [skipWsInlineGo]
    split
    · simp
    · split
      · exact le_trans (ih _) (Nat.le_succ _)
      · simp

theorem consumeUntilCharGo_le (stop : Char) : ∀ (s : Str) (p : Pos) (d : Int),
    (consumeUntilCharGo stop s p d).2.1.length ≤ s.length := by
  intro s
  induction s with
  | nil => intro p d; simp [consumeUntilCharGo]
  | cons c rest ih =>
    intro p d
    simp only [consumeUntilCharGo]
    repeat' split
    all_goals
      first
      | exact le_trans (ih _ _) (Nat.le_succ _)
      | simp

theorem consumeWhileGo_le (pred : Char → Bool) : ∀ (s : Str) (p : Pos),
    (consumeWhileGo pred s p).2.1.length ≤ s.length := by
  intro s
  induction s with
  | nil => intro p; simp [consumeWhileGo]
  | cons c rest ih =>
    intro p
    simp only [consumeWhileGo]
    split
    · simp
    · split
      · exact le_trans (ih _) (Nat.le_succ _)
      · simp

theorem skipUntilGtGo_le : ∀ (s : Str) (p : Pos),
    (skipUntilGtGo s p).1.length ≤ s.length := by
  intro s
  induction s with
  | nil => intro p; simp [skipUntilGtGo]
  | cons c rest ih =>
    intro p
    by_cases h : c = '>'
    · subst h; simp [skipUntilGtGo]
    · calc (skipUntilGtGo (c :: rest) p).1.length
          = (skipUntilGtGo rest (advanceChar p c)).1.length := by
            simp [skipUntilGtGo, h]
        _ ≤ rest.length := ih _
        _ ≤ (c :: rest).length := Nat.le_succ _

theorem skipUntilGtNlGo_le : ∀ (s : Str) (p : Pos),
    (skipUntilGtNlGo s p).1.length ≤ s.length := by
  intro s
  induction s with
  | nil => intro p; simp [skipUntilGtNlGo]
  | cons c rest ih =>
    intro p
    simp only [skipUntilGtNlGo]
    split
    · simp
    · exact le_trans (ih _) (Nat.le_succ _)

theorem tokExprGo_le : ∀ (n : Nat) (s : Str), s.length ≤ n → ∀ (p : Pos) (d : Int)
    (i : Bool) (sc : Char), (tokExprGo s p d i sc).2.1.length ≤ s.length := by
  intro n
  induction n with
  | zero =>
    intro s hs p d i sc
    rw [Nat.le_zero, List.length_eq_zero] at hs
    subst hs
    simp [tokExprGo]
  | succ n ihn =>
    intro s hs p d i sc
    cases s with
    | nil => simp [tokExprGo]
    | cons c rest =>
      have hrest : rest.length ≤ n := by
        simp only [List.length_cons] at hs
        omega
      unfold tokExprGo
      repeat' split
      all_goals try simp
      all_goals try (refine le_trans (ihn _ ?_ _ _ _ _) ?_ <;>
        ((try simp only [List.length_cons] at hrest);
         (try simp only [List.length_cons]); omega))
      all_goals rename_i x s1 r1 p1 heq
      all_goals have h2 := congrArg (fun t => List.length t.2.1) heq
      all_goals simp only [List.length_cons] at h2 ⊢
      all_goals rw [← h2]
      all_goals (refine le_trans (ihn _ ?_ _ _ _ _) ?_ <;>
        ((try simp only [List.length_cons] at hrest);
         (try simp only [List.length_cons]); omega))

/-! Tokenizer-level consequences: every consuming operation is
non-increasing on `rest`, and strictly decreasing where `tokenize_line`
relies on it. -/

theorem advance_le (st : Tokenizer) : st.advance.rest.length ≤ st.rest.length := by
  cases st with
  | mk rest pos ml => cases rest <;> simp [Tokenizer.advance]

theorem advance_lt {st : Tokenizer} (h : st.rest ≠ []) :
    st.advance.rest.length < st.rest.length := by
  cases st with
  | mk rest pos ml =>
    cases rest with
    | nil => exact absurd rfl h
    | cons c r => simp [Tokenizer.advance]

theorem consume_newline_le (st : Tokenizer) :
    st.consume_newline.rest.length ≤ st.rest.length := by
  simp only [Tokenizer.consume_newline]
  split <;> split <;>
    first
    | exact le_trans (advance_le _) (advance_le _)
    | exact advance_le _
    | exact le_refl _

theorem consume_newline_lt {st : Tokenizer} (h : st.at_newline = true) :
    st.consume_newline.rest.length < st.rest.length := by
  have hne : st.rest ≠ [] := by
    cases st with
    | mk rest pos ml => cases rest <;> simp_all [Tokenizer.at_newline]
  simp only [Tokenizer.consume_newline]
  split
  · split
    · exact lt_of_le_of_lt (advance_le _) (advance_lt hne)
    · exact advance_lt hne
  · split
    · exact advance_lt hne
    · rename_i h1 h2
      cases st with
      | mk rest pos ml =>
        cases rest with
        | nil => simp [Tokenizer.at_newline] at h
        | cons c r =>
          simp [Tokenizer.at_newline] at h
          simp [Tokenizer.peek_char] at h1 h2
          rcases h with h | h <;> simp_all

theorem consume_indent_le (st : Tokenizer) :
    (st.consume_indent).2.rest.length ≤ st.rest.length :=
  consumeIndentGo_le st.rest st.position

theorem consume_to_eol_le (st : Tokenizer) :
    (st.consume_to_eol).2.rest.length ≤ st.rest.length :=
  consumeToEolGo_le st.rest st.position

theorem skip_to_eol_le (st : Tokenizer) :
    st.skip_to_eol.rest.length ≤ st.rest.length :=
  consume_to_eol_le st

theorem consume_to_eol_lt {st : Tokenizer} (h1 : st.at_eof = false)
    (h2 : st.at_newline = false) :
    (st.consume_to_eol).2.rest.length < st.rest.length := by
  show (consumeToEolGo st.rest st.position).2.1.length < st.rest.length
  rcases hr : st.rest with _ | ⟨c, rest⟩
  · simp [Tokenizer.at_eof, hr] at h1
  · simp only [consumeToEolGo]
    split
    · rename_i hcond
      simp [Tokenizer.at_newline, hr] at h2
      simp [h2.1, h2.2] at hcond
    · calc (consumeToEolGo rest (advanceChar st.position c)).2.1.length
          ≤ rest.length := consumeToEolGo_le rest _
        _ < (c :: rest).length := by simp

theorem skip_to_eol_lt {st : Tokenizer} (h1 : st.at_eof = false)
    (h2 : st.at_newline = false) :
    st.skip_to_eol.rest.length < st.rest.length :=
  consume_to_eol_lt h1 h2

theorem skip_whitespace_inline_le (st : Tokenizer) :
    st.skip_whitespace_inline.rest.length ≤ st.rest.length :=
  skipWsInlineGo_le st.rest st.position

theorem consume_until_char_le (st : Tokenizer) (stop : Char) :
    (st.consume_until_char stop).2.rest.length ≤ st.rest.length :=
  consumeUntilCharGo_le stop st.rest st.position 0

theorem consume_while_le (st : Tokenizer) (pred : Char → Bool) :
    (st.consume_while pred).2.rest.length ≤ st.rest.length :=
  consumeWhileGo_le pred st.rest st.position

theorem skipToGtAndConsume_le (st : Tokenizer) :
    st.skipToGtAndConsume.rest.length ≤ st.rest.length := by
  have hle := skipUntilGtGo_le st.rest st.position
  show (if ({ rest := (skipUntilGtGo st.rest st.position).1,
              position := (skipUntilGtGo st.rest st.position).2,
              inMultilineString := st.inMultilineString } : Tokenizer).peek_char = some '>' then
          ({ rest := (skipUntilGtGo st.rest st.position).1,
             position := (skipUntilGtGo st.rest st.position).2,
             inMultilineString := st.inMultilineString } : Tokenizer).advance
        else
          { rest := (skipUntilGtGo st.rest st.position).1,
            position := (skipUntilGtGo st.rest st.position).2,
            inMultilineString := st.inMultilineString }).rest.length ≤
      st.rest.length
  split
  · exact le_trans (advance_le _) hle
  · exact hle

theorem skipToGtNlAndConsume_le (st : Tokenizer) :
    st.skipToGtNlAndConsume.rest.length ≤ st.rest.length := by
  have hle := skipUntilGtNlGo_le st.rest st.position
  show (if ({ rest := (skipUntilGtNlGo st.rest st.position).1,
              position := (skipUntilGtNlGo st.rest st.position).2,
              inMultilineString := st.inMultilineString } : Tokenizer).peek_char = some '>' then
          ({ rest := (skipUntilGtNlGo st.rest st.position).1,
             position := (skipUntilGtNlGo st.rest st.position).2,
             inMultilineString := st.inMultilineString } : Tokenizer).advance
        else
          { rest := (skipUntilGtNlGo st.rest st.position).1,
            position := (skipUntilGtNlGo st.rest st.position).2,
            inMultilineString := st.inMultilineString }).rest.length ≤
      st.rest.length
  split
  · exact le_trans (advance_le _) hle
  · exact hle

theorem consumeIndentChars_le (st : Tokenizer) :
    st.consumeIndentChars.2.rest.length ≤ st.rest.length :=
  consume_while_le st _

theorem tokenize_expression_le (st : Tokenizer) :
    (tokenize_expression st).2.rest.length ≤ st.rest.length := by
  unfold tokenize_expression
  exact le_trans
    (tokExprGo_le st.advance.rest.length st.advance.rest (le_refl _) _ _ _ _)
    (advance_le st)

theorem tokenize_expression_lt {st : Tokenizer} (h : st.rest ≠ []) :
    (tokenize_expression st).2.rest.length < st.rest.length := by
  unfold tokenize_expression
  exact lt_of_le_of_lt
    (tokExprGo_le st.advance.rest.length st.advance.rest (le_refl _) _ _ _ _)
    (advance_lt h)

theorem parse_attribute_le (st : Tokenizer) :
    (parse_attribute st).2.rest.length ≤ st.rest.length := by
  simp only [parse_attribute]
  repeat' split
  all_goals repeat'
    (rename_i x a1 st2 heq
     have h2 := congrArg (fun t => t.2) heq
     (try simp at h2)
     rw [← h2]
     clear heq h2)
  all_goals repeat'
    first
    | exact le_refl _
    | refine le_trans (advance_le _) ?_
    | refine le_trans (consume_until_char_le _ _) ?_
    | refine le_trans (consume_while_le _ _) ?_

theorem htmlOpenLoop_le (tag : Str) (tagSpan : Span) (start : Pos) :
    ∀ (fuel : Nat) (attrs : List TokAttribute) (st : Tokenizer),
      (htmlOpenLoop tag tagSpan start fuel attrs st).2.rest.length ≤
        st.rest.length := by
  intro fuel
  induction fuel with
  | zero => intro attrs st; simp [htmlOpenLoop]
  | succ fuel ih =>
    intro attrs st
    simp only [htmlOpenLoop]
    repeat' split
    all_goals repeat'
      (rename_i x a1 st2 heq
       have h2 := congrArg (fun t => t.2) heq
       (try simp at h2)
       rw [← h2]
       clear heq h2)
    all_goals repeat'
      first
      | exact le_refl _
      | refine le_trans (ih _ _) ?_
      | refine le_trans (advance_le _) ?_
      | refine le_trans (parse_attribute_le _) ?_
      | refine le_trans (skip_whitespace_inline_le _) ?_

theorem tokenize_html_element_open_le (st : Tokenizer) :
    (tokenize_html_element_open st).2.rest.length ≤ st.rest.length := by
  unfold tokenize_html_element_open
  refine le_trans (htmlOpenLoop_le _ _ _ _ _ _) ?_
  exact le_trans (consume_while_le _ _) (advance_le _)

theorem tokenize_html_element_open_lt {st : Tokenizer} (h : st.rest ≠ []) :
    (tokenize_html_element_open st).2.rest.length < st.rest.length := by
  unfold tokenize_html_element_open
  refine lt_of_le_of_lt (htmlOpenLoop_le _ _ _ _ _ _) ?_
  exact lt_of_le_of_lt (consume_while_le _ _) (advance_lt h)

theorem tokenize_html_element_close_le (st : Tokenizer) :
    (tokenize_html_element_close st).2.rest.length ≤ st.rest.length := by
  unfold tokenize_html_element_close
  refine le_trans (skipToGtNlAndConsume_le _) ?_
  exact le_trans (consume_while_le _ _) (le_trans (advance_le _) (advance_le _))

theorem tokenize_html_element_close_lt {st : Tokenizer} (h : st.rest ≠ []) :
    (tokenize_html_element_close st).2.rest.length < st.rest.length := by
  unfold tokenize_html_element_close
  refine lt_of_le_of_lt (skipToGtNlAndConsume_le _) ?_
  exact lt_of_le_of_lt (consume_while_le _ _)
    (lt_of_le_of_lt (advance_le _) (advance_lt h))

theorem tokenize_component_close_le (st : Tokenizer) :
    (tokenize_component_close st).2.rest.length ≤ st.rest.length := by
  unfold tokenize_component_close
  refine le_trans (skipToGtAndConsume_le _) ?_
  refine le_trans (advance_le _) ?_
  refine le_trans (consume_until_char_le _ _) ?_
  exact le_trans (advance_le _) (le_trans (advance_le _) (advance_le _))

theorem tokenize_component_close_lt {st : Tokenizer} (h : st.rest ≠ []) :
    (tokenize_component_close st).2.rest.length < st.rest.length := by
  unfold tokenize_component_close
  refine lt_of_le_of_lt (skipToGtAndConsume_le _) ?_
  refine lt_of_le_of_lt (advance_le _) ?_
  refine lt_of_le_of_lt (consume_until_char_le _ _) ?_
  exact lt_of_le_of_lt (advance_le _) (lt_of_le_of_lt (advance_le _) (advance_lt h))

theorem tokenize_slot_open_lt {st : Tokenizer} (h : st.rest ≠ []) :
    (tokenize_slot_open st).2.rest.length < st.rest.length := by
  unfold tokenize_slot_open
  refine lt_of_le_of_lt (skipToGtAndConsume_le _) ?_
  refine lt_of_le_of_lt (advance_le _) ?_
  refine lt_of_le_of_lt (consume_until_char_le _ _) ?_
  refine lt_of_le_of_lt (advance_le _) ?_
  refine lt_of_le_of_lt (advance_le _) ?_
  exact lt_of_le_of_lt (advance_le _) (lt_of_le_of_lt (advance_le _) (advance_lt h))

theorem tokenize_slot_close_lt {st : Tokenizer} (h : st.rest ≠ []) :
    (tokenize_slot_close st).2.rest.length < st.rest.length := by
  unfold tokenize_slot_close
  refine lt_of_le_of_lt (skipToGtAndConsume_le _) ?_
  refine lt_of_le_of_lt (advance_le _) ?_
  refine lt_of_le_of_lt (consume_until_char_le _ _) ?_
  refine lt_of_le_of_lt (advance_le _) ?_
  refine lt_of_le_of_lt (advance_le _) ?_
  refine lt_of_le_of_lt (advance_le _) ?_
  exact lt_of_le_of_lt (advance_le _) (lt_of_le_of_lt (advance_le _) (advance_lt h))

theorem tokenizeContentGo_le : ∀ (fuel : Nat) (st : Tokenizer) (acc : ContentAcc),
    (tokenizeContentGo fuel st acc).2.rest.length ≤ st.rest.length := by
  intro fuel
  induction fuel with
  | zero => intro st acc; simp [tokenizeContentGo]
  | succ fuel ih =>
    intro st acc
    rw [tokenizeContentGo.eq_def]
    split
    · exact le_refl _
    rename_i a1 b1 c1 d1 e1 fuel2 heqf
    have hf : fuel2 = fuel := by omega
    subst hf
    by_cases hc0 : (a1.at_eof || a1.at_newline) = true
    · rw [if_pos hc0]
    rw [if_neg hc0]
    cases hpk : a1.peek_char with
    | none => exact le_refl _
    | some ch =>
      dsimp only
      by_cases h3 : ch = '\"' ∧ b1.quoteCtx = QuoteCtx.none
      · rw [if_pos h3]
        exact le_trans (ih _ _) (advance_le _)
      rw [if_neg h3]
      by_cases h4 : ch = '\"' ∧ b1.quoteCtx = QuoteCtx.double
      · rw [if_pos h4]
        exact le_trans (ih _ _) (advance_le _)
      rw [if_neg h4]
      by_cases h5 : ch = '\'' ∧ b1.quoteCtx = QuoteCtx.none
      · rw [if_pos h5]
        exact le_trans (ih _ _) (advance_le _)
      rw [if_neg h5]
      by_cases h6 : ch = '\'' ∧ b1.quoteCtx = QuoteCtx.single
      · rw [if_pos h6]
        exact le_trans (ih _ _) (advance_le _)
      rw [if_neg h6]
      by_cases h7 : ch = '\\' ∧ (b1.quoteCtx = QuoteCtx.double ∨ b1.quoteCtx = QuoteCtx.single)
      · rw [if_pos h7]
        cases hpk2 : a1.advance.peek_char with
        | some next =>
          exact le_trans (ih _ _) (le_trans (advance_le _) (advance_le _))
        | none => exact le_trans (ih _ _) (advance_le _)
      rw [if_neg h7]
      by_cases h8 : ch = '#' ∧ b1.quoteCtx = QuoteCtx.none ∧ b1.afterStructural = true ∧ ¬ b1.textBuf.isEmpty = true ∧ b1.textBuf.all rustIsWhitespace = true
      · rw [if_pos h8]
        exact consume_to_eol_le _
      rw [if_neg h8]
      by_cases h9 : ch = '\x7b' ∧ b1.quoteCtx = QuoteCtx.none ∧ a1.peek_next_char = some '\x7b'
      · rw [if_pos h9]
        exact le_trans (ih _ _) (le_trans (advance_le _) (advance_le _))
      rw [if_neg h9]
      by_cases h10 : ch = '\x7d' ∧ b1.quoteCtx = QuoteCtx.none ∧ a1.peek_next_char = some '\x7d'
      · rw [if_pos h10]
        exact le_trans (ih _ _) (le_trans (advance_le _) (advance_le _))
      rw [if_neg h10]
      by_cases h11 : ch = '\x7b' ∧ b1.quoteCtx = QuoteCtx.none
      · rw [if_pos h11]
        exact le_trans (ih _ _) (tokenize_expression_le _)
      rw [if_neg h11]
      by_cases h12 : ch = '<' ∧ b1.quoteCtx = QuoteCtx.none ∧ a1.is_html_element_start = true
      · rw [if_pos h12]
        exact le_trans (ih _ _) (tokenize_html_element_open_le _)
      rw [if_neg h12]
      by_cases h13 : ch = '<' ∧ b1.quoteCtx = QuoteCtx.none ∧ a1.is_component_close = true
      · rw [if_pos h13]
        exact le_trans (ih _ _) (tokenize_component_close_le _)
      rw [if_neg h13]
      by_cases h14 : ch = '<' ∧ b1.quoteCtx = QuoteCtx.none ∧ a1.is_html_element_close = true
      · rw [if_pos h14]
        exact le_trans (ih _ _) (tokenize_html_element_close_le _)
      rw [if_neg h14]
      exact le_trans (ih _ _) (advance_le _)

theorem tokenizeContentGo_lt : ∀ (fuel : Nat) (stA : Tokenizer) (accA : ContentAcc),
    stA.at_eof = false → stA.at_newline = false →
    (tokenizeContentGo (fuel + 1) stA accA).2.rest.length < stA.rest.length := by
  intro fuel stA accA h1 h2
  have hne : stA.rest ≠ [] := by
    cases stA with
    | mk r p m => cases r <;> simp_all [Tokenizer.at_eof]
  rw [tokenizeContentGo.eq_def]
  split
  · rename_i heqf; exact absurd heqf (by omega)
  rename_i a1 b1 c1 d1 e1 fuel2 heqf
  by_cases hc0 : (a1.at_eof || a1.at_newline) = true
  · rw [h1, h2] at hc0
    exact absurd hc0 (by simp)
  rw [if_neg hc0]
  cases hpk : a1.peek_char with
  | none =>
    exfalso
    cases hr : a1.rest with
    | nil => exact hne hr
    | cons c r => simp [Tokenizer.peek_char, hr] at hpk
  | some ch =>
    dsimp only
    by_cases h3 : ch = '\"' ∧ b1.quoteCtx = QuoteCtx.none
    · rw [if_pos h3]
      exact lt_of_le_of_lt (tokenizeContentGo_le _ _ _) (advance_lt hne)
    rw [if_neg h3]
    by_cases h4 : ch = '\"' ∧ b1.quoteCtx = QuoteCtx.double
    · rw [if_pos h4]
      exact lt_of_le_of_lt (tokenizeContentGo_le _ _ _) (advance_lt hne)
    rw [if_neg h4]
    by_cases h5 : ch = '\'' ∧ b1.quoteCtx = QuoteCtx.none
    · rw [if_pos h5]
      exact lt_of_le_of_lt (tokenizeContentGo_le _ _ _) (advance_lt hne)
    rw [if_neg h5]
    by_cases h6 : ch = '\'' ∧ b1.quoteCtx = QuoteCtx.single
    · rw [if_pos h6]
      exact lt_of_le_of_lt (tokenizeContentGo_le _ _ _) (advance_lt hne)
    rw [if_neg h6]
    by_cases h7 : ch = '\\' ∧ (b1.quoteCtx = QuoteCtx.double ∨ b1.quoteCtx = QuoteCtx.single)
    · rw [if_pos h7]
      cases hpk2 : a1.advance.peek_char with
      | some next =>
        exact lt_of_le_of_lt
          (le_trans (tokenizeContentGo_le _ _ _) (advance_le _)) (advance_lt hne)
      | none => exact lt_of_le_of_lt (tokenizeContentGo_le _ _ _) (advance_lt hne)
    rw [if_neg h7]
    by_cases h8 : ch = '#' ∧ b1.quoteCtx = QuoteCtx.none ∧ b1.afterStructural = true ∧ ¬ b1.textBuf.isEmpty = true ∧ b1.textBuf.all rustIsWhitespace = true
    · rw [if_pos h8]
      exact consume_to_eol_lt h1 h2
    rw [if_neg h8]
    by_cases h9 : ch = '\x7b' ∧ b1.quoteCtx = QuoteCtx.none ∧ a1.peek_next_char = some '\x7b'
    · rw [if_pos h9]
      exact lt_of_le_of_lt (le_trans (tokenizeContentGo_le _ _ _) (advance_le _)) (advance_lt hne)
    rw [if_neg h9]
    by_cases h10 : ch = '\x7d' ∧ b1.quoteCtx = QuoteCtx.none ∧ a1.peek_next_char = some '\x7d'
    · rw [if_pos h10]
      exact lt_of_le_of_lt (le_trans (tokenizeContentGo_le _ _ _) (advance_le _)) (advance_lt hne)
    rw [if_neg h10]
    by_cases h11 : ch = '\x7b' ∧ b1.quoteCtx = QuoteCtx.none
    · rw [if_pos h11]
      exact lt_of_le_of_lt (tokenizeContentGo_le _ _ _) (tokenize_expression_lt hne)
    rw [if_neg h11]
    by_cases h12 : ch = '<' ∧ b1.quoteCtx = QuoteCtx.none ∧ a1.is_html_element_start = true
    · rw [if_pos h12]
      exact lt_of_le_of_lt (tokenizeContentGo_le _ _ _) (tokenize_html_element_open_lt hne)
    rw [if_neg h12]
    by_cases h13 : ch = '<' ∧ b1.quoteCtx = QuoteCtx.none ∧ a1.is_component_close = true
    · rw [if_pos h13]
      exact lt_of_le_of_lt (tokenizeContentGo_le _ _ _) (tokenize_component_close_lt hne)
    rw [if_neg h13]
    by_cases h14 : ch = '<' ∧ b1.quoteCtx = QuoteCtx.none ∧ a1.is_html_element_close = true
    · rw [if_pos h14]
      exact lt_of_le_of_lt (tokenizeContentGo_le _ _ _) (tokenize_html_element_close_lt hne)
    rw [if_neg h14]
    exact lt_of_le_of_lt (tokenizeContentGo_le _ _ _) (advance_lt hne)

theorem tokenize_content_le (st : Tokenizer) :
    (tokenize_content st).2.rest.length ≤ st.rest.length :=
  tokenizeContentGo_le _ _ _

theorem tokenize_content_lt {st : Tokenizer} (h1 : st.at_eof = false)
    (h2 : st.at_newline = false) :
    (tokenize_content st).2.rest.length < st.rest.length :=
  tokenizeContentGo_lt _ _ _ h1 h2

theorem componentOpenLoop_le (name : Str) (nameSpan : Span) (start : Pos) :
    ∀ (fuel : Nat) (attrs : List TokAttribute) (st : Tokenizer),
      (componentOpenLoop name nameSpan start fuel attrs st).2.rest.length ≤
        st.rest.length := by
  intro fuel
  induction fuel with
  | zero => intro attrs st; simp [componentOpenLoop]
  | succ fuel ih =>
    intro attrs st
    simp only [componentOpenLoop]
    repeat' split
    all_goals repeat'
      (rename_i x a1 st2 heq
       have h2 := congrArg (fun t => t.2) heq
       (try simp at h2)
       rw [← h2]
       clear heq h2)
    all_goals repeat'
      first
      | exact le_refl _
      | refine le_trans (ih _ _) ?_
      | refine le_trans (advance_le _) ?_
      | refine le_trans (parse_attribute_le _) ?_
      | refine le_trans (tokenize_content_le _) ?_
      | refine le_trans (skip_whitespace_inline_le _) ?_

theorem tokenize_component_open_lt {st : Tokenizer} (h : st.rest ≠ []) :
    (tokenize_component_open st).2.rest.length < st.rest.length := by
  simp only [tokenize_component_open]
  repeat' split
  all_goals repeat'
    (rename_i x a1 st2 heq
     have h2 := congrArg (fun t => t.2) heq
     (try simp at h2)
     rw [← h2]
     clear heq h2)
  all_goals
    refine lt_of_le_of_lt (componentOpenLoop_le _ _ _ _ _ _) ?_
  all_goals
    refine lt_of_le_of_lt (advance_le _) ?_
  all_goals
    refine lt_of_le_of_lt (consume_until_char_le _ _) ?_
  all_goals
    exact lt_of_le_of_lt (advance_le _) (advance_lt h)

theorem tokPyGo_le : ∀ (fuel : Nat) (code : Str) (depth : Int) (st : Tokenizer),
    (tokPyGo fuel code depth st).2.rest.length ≤ st.rest.length := by
  intro fuel
  induction fuel with
  | zero => intro code depth st; simp [tokPyGo]
  | succ fuel ih =>
    intro code depth st
    simp only [tokPyGo]
    repeat' split
    all_goals repeat'
      (rename_i x a1 st2 heq
       have h2 := congrArg (fun t => t.2) heq
       (try simp at h2)
       rw [← h2]
       clear heq h2)
    all_goals repeat'
      first
      | exact le_refl _
      | refine le_trans (ih _ _ _) ?_
      | refine le_trans (consume_newline_le _) ?_
      | refine le_trans (consumeIndentChars_le _) ?_
      | refine le_trans (consume_to_eol_le _) ?_

theorem tokenize_python_statement_lt {st : Tokenizer} (h1 : st.at_eof = false)
    (h2 : st.at_newline = false) :
    (tokenize_python_statement st).2.rest.length < st.rest.length := by
  simp only [tokenize_python_statement]
  repeat' split
  all_goals repeat'
    (rename_i x a1 st2 heq
     have h2x := congrArg (fun t => t.2) heq
     (try simp at h2x)
     rw [← h2x]
     clear heq h2x)
  all_goals
    exact lt_of_le_of_lt (tokPyGo_le _ _ _ _) (consume_to_eol_lt h1 h2)

theorem tokenize_comment_lt {st : Tokenizer} (h1 : st.at_eof = false)
    (h2 : st.at_newline = false) :
    (tokenize_comment st).2.rest.length < st.rest.length :=
  consume_to_eol_lt h1 h2

theorem tokenize_decorator_lt {st : Tokenizer} (h1 : st.at_eof = false)
    (h2 : st.at_newline = false) :
    (tokenize_decorator st).2.rest.length < st.rest.length :=
  consume_to_eol_lt h1 h2

theorem tokenize_fragment_start_lt {st : Tokenizer} (h1 : st.at_eof = false)
    (h2 : st.at_newline = false) :
    (tokenize_fragment_start st).2.rest.length < st.rest.length :=
  consume_to_eol_lt h1 h2

theorem tokenize_control_start_lt {st : Tokenizer} (h1 : st.at_eof = false)
    (h2 : st.at_newline = false) :
    (tokenize_control_start st).2.rest.length < st.rest.length :=
  consume_to_eol_lt h1 h2

theorem tokenize_control_continuation_lt {st : Tokenizer} (h1 : st.at_eof = false)
    (h2 : st.at_newline = false) :
    (tokenize_control_continuation st).2.rest.length < st.rest.length :=
  consume_to_eol_lt h1 h2

theorem tokenize_html_assignment_lt {st : Tokenizer} (h1 : st.at_eof = false)
    (h2 : st.at_newline = false) :
    (tokenize_html_assignment st).2.rest.length < st.rest.length := by
  simp only [tokenize_html_assignment]
  repeat' split
  all_goals repeat'
    (rename_i x a1 st2 heq
     have h2x := congrArg (fun t => t.2) heq
     (try simp at h2x)
     rw [← h2x]
     clear heq h2x)
  all_goals exact consume_to_eol_lt h1 h2

theorem newlineTail_le (st : Tokenizer) :
    (newlineTail st).2.rest.length ≤ st.rest.length := by
  simp only [newlineTail]
  split
  · exact consume_newline_le _
  · exact le_refl _

theorem tokenize_line_lt (o : Str → Bool) {st : Tokenizer}
    (h1 : st.at_eof = false) :
    (tokenize_line o st).2.rest.length < st.rest.length := by
  have hpos : 0 < st.rest.length := by
    cases st with
    | mk r p m => cases r <;> simp_all [Tokenizer.at_eof]
  unfold tokenize_line
  rcases hci0 : st.consume_indent with ⟨lvl, st1⟩
  dsimp only
  have hci_le : st1.rest.length ≤ st.rest.length := by
    have h := consume_indent_le st
    rw [hci0] at h
    exact h
  by_cases hE : st1.at_eof = true
  · rw [if_pos hE]
    have h0 : st1.rest = [] := by
      cases st1 with
      | mk r p m => cases r <;> simp_all [Tokenizer.at_eof]
    show st1.rest.length < st.rest.length
    rw [h0]
    simpa using hpos
  rw [if_neg hE]
  have hE2 : st1.at_eof = false := by simpa using hE
  have hne1 : st1.rest ≠ [] := by
    cases st1 with
    | mk r p m => cases r <;> simp_all [Tokenizer.at_eof]
  by_cases hN : st1.at_newline = true
  · rw [if_pos hN]
    exact lt_of_lt_of_le (consume_newline_lt hN) hci_le
  rw [if_neg hN]
  have hN2 : st1.at_newline = false := by simpa using hN
  cases hml : st1.inMultilineString with
  | some delimiter =>
    dsimp only
    exact lt_of_le_of_lt (le_trans (newlineTail_le _) (le_of_eq (by split <;> rfl)))
      (lt_of_lt_of_le (skip_to_eol_lt hE2 hN2) hci_le)
  | none =>
    dsimp only
    by_cases hq : (rustStartsWith (rustTrim st1.peek_line) "\"\"\"".toList ||
        rustStartsWith (rustTrim st1.peek_line) "'''".toList) = true
    · rw [if_pos hq]
      dsimp only
      refine lt_of_le_of_lt (newlineTail_le _) ?_
      refine lt_of_lt_of_le (skip_to_eol_lt ?_ ?_) ?_
      · exact Eq.trans (by split <;> split <;> rfl) hE2
      · exact Eq.trans (by split <;> split <;> rfl) hN2
      · exact le_trans (le_of_eq (by split <;> split <;> rfl)) hci_le
    rw [if_neg hq]
    try dsimp only
    by_cases d1 : rustTrim st1.peek_line = "---".toList
    · rw [if_pos d1]
      try dsimp only
      exact lt_of_le_of_lt (newlineTail_le _) (lt_of_lt_of_le (skip_to_eol_lt hE2 hN2) hci_le)
    rw [if_neg d1]
    by_cases d2 : rustStartsWith st1.peek_line "#".toList = true
    · rw [if_pos d2]
      try dsimp only
      exact lt_of_le_of_lt (newlineTail_le _) (lt_of_lt_of_le (tokenize_comment_lt hE2 hN2) hci_le)
    rw [if_neg d2]
    by_cases d3 : rustStartsWith st1.peek_line "@".toList = true ∧ ¬ rustContainsChar st1.peek_line '<' = true ∧ ¬ is_css_at_rule st1.peek_line = true
    · rw [if_pos d3]
      try dsimp only
      exact lt_of_le_of_lt (newlineTail_le _) (lt_of_lt_of_le (tokenize_decorator_lt hE2 hN2) hci_le)
    rw [if_neg d3]
    by_cases d4 : rustStartsWith st1.peek_line "<\x7b...".toList = true
    · rw [if_pos d4]
      try dsimp only
      exact lt_of_le_of_lt (newlineTail_le _) (lt_of_lt_of_le (tokenize_slot_open_lt hne1) hci_le)
    rw [if_neg d4]
    by_cases d5 : rustStartsWith st1.peek_line "</\x7b...".toList = true
    · rw [if_pos d5]
      try dsimp only
      exact lt_of_le_of_lt (newlineTail_le _) (lt_of_lt_of_le (tokenize_slot_close_lt hne1) hci_le)
    rw [if_neg d5]
    by_cases d6 : rustStartsWith st1.peek_line "<\x7b".toList = true
    · rw [if_pos d6]
      try dsimp only
      exact lt_of_le_of_lt (newlineTail_le _) (lt_of_lt_of_le (tokenize_component_open_lt hne1) hci_le)
    rw [if_neg d6]
    by_cases d7 : rustStartsWith st1.peek_line "</\x7b".toList = true
    · rw [if_pos d7]
      try dsimp only
      exact lt_of_le_of_lt (newlineTail_le _) (lt_of_lt_of_le (tokenize_component_close_lt hne1) hci_le)
    rw [if_neg d7]
    by_cases d8 : is_end_keyword st1.peek_line = true
    · rw [if_pos d8]
      try dsimp only
      exact lt_of_le_of_lt (newlineTail_le _) (lt_of_lt_of_le (skip_to_eol_lt hE2 hN2) hci_le)
    rw [if_neg d8]
    by_cases d9 : rustStartsWith (rustTrim st1.peek_line) "fragment ".toList = true ∧ rustEndsWith (rustTrim st1.peek_line) [':'] = true
    · rw [if_pos d9]
      try dsimp only
      exact lt_of_le_of_lt (newlineTail_le _) (lt_of_lt_of_le (tokenize_fragment_start_lt hE2 hN2) hci_le)
    rw [if_neg d9]
    by_cases d10 : is_control_flow st1.peek_line = true
    · rw [if_pos d10]
      try dsimp only
      exact lt_of_le_of_lt (newlineTail_le _) (lt_of_lt_of_le (tokenize_control_start_lt hE2 hN2) hci_le)
    rw [if_neg d10]
    by_cases d11 : is_control_continuation st1.peek_line = true
    · rw [if_pos d11]
      try dsimp only
      exact lt_of_le_of_lt (newlineTail_le _) (lt_of_lt_of_le (tokenize_control_continuation_lt hE2 hN2) hci_le)
    rw [if_neg d11]
    by_cases d12 : rustStartsWith st1.peek_line "<".toList = true
    · rw [if_pos d12]
      try dsimp only
      exact lt_of_le_of_lt (newlineTail_le _) (lt_of_lt_of_le (tokenize_content_lt hE2 hN2) hci_le)
    rw [if_neg d12]
    by_cases d13 : is_html_assignment st1.peek_line = true
    · rw [if_pos d13]
      try dsimp only
      exact lt_of_le_of_lt (newlineTail_le _) (lt_of_lt_of_le (tokenize_html_assignment_lt hE2 hN2) hci_le)
    rw [if_neg d13]
    by_cases d14 : tokIsParameterDeclaration st1.peek_line = true
    · rw [if_pos d14]
      try dsimp only
      exact lt_of_le_of_lt (newlineTail_le _) (lt_of_lt_of_le (tokenize_python_statement_lt hE2 hN2) hci_le)
    rw [if_neg d14]
    by_cases d15 : is_python_statement o st1.peek_line = true
    · rw [if_pos d15]
      try dsimp only
      exact lt_of_le_of_lt (newlineTail_le _) (lt_of_lt_of_le (tokenize_python_statement_lt hE2 hN2) hci_le)
    rw [if_neg d15]
    try dsimp only
    exact lt_of_le_of_lt (newlineTail_le _) (lt_of_lt_of_le (tokenize_content_lt hE2 hN2) hci_le)

theorem tokenizeGo_eof (o : Str → Bool) : ∀ (fuel : Nat) (st : Tokenizer),
    st.rest.length < fuel →
    ∃ sp, (tokenizeGo o fuel st).getLast? = some (Token.eof sp) := by
  intro fuel
  induction fuel with
  | zero => intro st h; omega
  | succ fuel ih =>
    intro st h
    simp only [tokenizeGo]
    by_cases hE : st.at_eof = true
    · rw [if_pos hE]
      exact ⟨st.position, rfl⟩
    · rw [if_neg hE]
      have hE2 : st.at_eof = false := by simpa using hE
      rcases hl : tokenize_line o st with ⟨toks, st2⟩
      dsimp only
      have hlt : st2.rest.length < st.rest.length := by
        have h2 := tokenize_line_lt o hE2
        rw [hl] at h2
        exact h2
      obtain ⟨sp, hsp⟩ := ih st2 (by omega)
      refine ⟨sp, ?_⟩
      have hne : tokenizeGo o fuel st2 ≠ [] := by
        intro hnil
        rw [hnil] at hsp
        simp at hsp
      rw [List.getLast?_append_of_ne_nil _ hne]
      exact hsp

/-- The token stream of any input ends in the `Eof` marker: the fuel
`source.length + 1` always outlasts the line loop. -/
theorem tokenize_ends_eof (o : Str → Bool) (source : Str) :
    ∃ sp, (tokenize o source).getLast? = some (Token.eof sp) :=
  tokenizeGo_eof o (source.length + 1) (Tokenizer.mk' source)
    (Nat.lt_succ_self _)

/-- C7: the lexer is total — for every input and every classifier oracle
the token list ends in the `Eof` marker (the fuelled line loop never runs
out: each line strictly consumes input) — and a line recognized as no
special category degrades to a content `Text` token rather than being
rejected: ")garbage\n" lexes to text, newline, eof. -/
theorem lexer_total_with_content_fallback :
    (∀ (o : Str → Bool) (source : Str),
      ∃ sp, (tokenize o source).getLast? = some (Token.eof sp)) ∧
    (∀ (o : Str → Bool),
      tokenize o ")garbage\n".toList =
        [Token.text ")garbage".toList
           { start := { byte := 0, line := 0, col := 0 },
             stop := { byte := 8, line := 0, col := 8 } },
         Token.newline
           { start := { byte := 8, line := 0, col := 8 },
             stop := { byte := 9, line := 1, col := 0 } },
         Token.eof { byte := 9, line := 1, col := 0 }]) :=
  ⟨fun o source => tokenize_ends_eof o source, fun _ => rfl⟩
